import Mathlib

/-!
# Observability plugin: angle/time primitives and yearly scans

A shallow embedding of the computational routines of
`src/plugins/Observability/src/Observability.cpp`.

A C++ `double` is read as an element of an ordered field with a floor function
(`ℚ` when a definition is evaluated, `ℝ` in the statements); `+ - * /` are the
exact field operations, so rounding, infinities and NaN are outside the model.
The libm functions `sin`, `cos`, `asin`, `acos` are the real functions of Mathlib.
-/

namespace Observability

section Primitives

variable {α : Type} [LinearOrderedField α] [FloorRing α]

/-- The integral part that `std::modf` stores through its pointer argument:
the value rounded towards zero. -/
def modfInt (x : α) : ℤ :=
  if 0 ≤ x then ⌊x⌋ else ⌈x⌉

/-- The value returned by `std::modf`: the fractional part, with the sign of `x`. -/
def modfFrac (x : α) : α :=
  x - (modfInt x : α)

/-- Embedding of `Observability::toUnsignedRA`: adds/subtracts 24hr to get a RA between 0 and 24hr.
```
if (RA<0.0) {tempmod = std::modf(-RA/24.,&tempRA); RA += 24.*(tempRA+1.0)+0.0*tempmod;};
double auxRA = 24.*std::modf(RA/24.,&tempRA);
auxRA += (auxRA<0.0)?24.0:((auxRA>24.0)?-24.0:0.0);
return auxRA;
``` -/
def toUnsignedRA (RA : α) : α :=
  let RA1 : α :=
    if RA < 0 then
      RA + (24 * ((modfInt (-RA / 24) : α) + 1) + 0 * modfFrac (-RA / 24))
    else RA
  let auxRA : α := 24 * modfFrac (RA1 / 24)
  auxRA + (if auxRA < 0 then 24 else (if auxRA > 24 then -24 else 0))


/-! ### Constants set in the constructor `Observability::Observability` -/

/-- The constant `Rad2Deg = 180./3.1415927`. -/
def Rad2Deg : α := 180 / 3.1415927

/-- The constant `Rad2Hr = 12./3.1415927`. -/
def Rad2Hr : α := 12 / 3.1415927

/-- The constant `halfpi = 1.57079632675`. -/
def halfpi : α := 1.57079632675

/-- The constant `TFrac = 0.9972677595628414`: converts sidereal time into solar time. -/
def TFrac : α := 0.9972677595628414

/-- The value `-0.5/86400.` that `calculateHourAngle` returns when the source does not
reach the altitude. -/
def hourAngleSentinel : α := -0.5 / 86400

/-! ### `double2hms` -/

/-- The C++ conversion `(int)x` of a double: the value is truncated towards zero; the
conversion is undefined (`none`) when the truncated value is not a 32-bit `int`. -/
def toInt (x : α) : Option ℤ :=
  if -2 ^ 31 ≤ modfInt x ∧ modfInt x < 2 ^ 31 then some (modfInt x) else none

/-- Embedding of `Observability::double2hms`: converts a time/angle span into the integers hh/dd, mm, ss.
```
hfloat = std::abs(hfloat);
double ffrac = std::modf(hfloat,&f1);
double ffrac2 = std::modf(60.*ffrac,&f2);
ffrac2 = std::modf(3600.*(ffrac-f2/60.),&f3);
h1 = (int)f1 ; h2 = (int)std::abs(f2+0.0*ffrac2) ; h3 = (int)std::abs(f3);
``` -/
def double2hms (hfloat : α) : Option (ℤ × ℤ × ℤ) :=
  let hfloat : α := |hfloat|
  let f1 : α := (modfInt hfloat : α)
  let ffrac : α := modfFrac hfloat
  let f2 : α := (modfInt (60 * ffrac) : α)
  let f3 : α := (modfInt (3600 * (ffrac - f2 / 60)) : α)
  let ffrac2 : α := modfFrac (3600 * (ffrac - f2 / 60))
  (toInt f1).bind fun h1 =>
  (toInt |f2 + 0 * ffrac2|).bind fun h2 =>
  (toInt |f3|).bind fun h3 =>
  some (h1, h2, h3)

/-! ### The yearly sample table -/

/-- The member arrays `sunRA[366]`, `sunDec[366]`, `objectRA[366]`, `objectDec[366]`,
`sunSidT[4][366]`, `objectSidT[2][366]`, `objectH0[366]`, indexed by the day of the year. -/
structure YearlyTable (α : Type) where
  sunRA : ℕ → α
  sunDec : ℕ → α
  objectRA : ℕ → α
  objectDec : ℕ → α
  sunSidT : ℕ → ℕ → α
  objectSidT : ℕ → ℕ → α
  objectH0 : ℕ → α

/-- The yearly table as the constructor `Observability::Observability` fills it: every
entry is `0.0`. -/
def initialTable (α : Type) [LinearOrderedField α] : YearlyTable α :=
  ⟨fun _ => 0, fun _ => 0, fun _ => 0, fun _ => 0, fun _ _ => 0, fun _ _ => 0, fun _ => 0⟩

/-! ### Best night (part 1 of the yearly analysis in `Observability::draw`) -/

/-- One pass of the loop body
`tempPhs = Lambda(...); if (tempPhs > deltaPhs) { selday = i; deltaPhs = tempPhs; }`
on the state `(selday, deltaPhs)`, with `tempPhs i` the separation of day `i`. -/
def bestNightStep (tempPhs : ℕ → α) (st : ℕ × α) (i : ℕ) : ℕ × α :=
  if tempPhs i > st.2 then (i, tempPhs i) else st

/-- The loop `for (int i=0; i<nDays; i++)` started from `selday = 0`, `deltaPhs = -1.0`. -/
def bestNightLoop (tempPhs : ℕ → α) (nDays : ℕ) : ℕ × α :=
  (List.range nDays).foldl (bestNightStep tempPhs) (0, -1)

/-! ### Good nights (part 3 of the yearly analysis in `Observability::draw`) -/

/-- Embedding of `Observability::CheckRise`: can the source be observed with the Sun below the twilight
altitude on that day. The loop over `j` returns `true` at the first bin that passes. -/
def CheckRise (tbl : YearlyTable α) (alti : α) (day : ℕ) : Bool :=
  if tbl.sunSidT 0 day < 0 ∨ tbl.sunSidT 1 day < 0 then false
  else
    let nBin : ℕ := 1000
    let auxSid1 : α :=
      tbl.sunSidT 0 day + (if tbl.sunSidT 0 day < tbl.sunSidT 1 day then 24 else 0)
    let deltaT : α := (auxSid1 - tbl.sunSidT 1 day) / (nBin : α)
    (List.range nBin).any fun j =>
      let hour0 : α := toUnsignedRA (tbl.sunSidT 1 day + deltaT * (j : α) - tbl.objectRA day)
      let hour : α := hour0 - (if hour0 > 12 then 24 else 0)
      decide (|hour| < tbl.objectH0 day ∨ (tbl.objectH0 day < 0 ∧ alti > 0))

/-- The flag `twiGood` of day `i`:
```
poleNight = sunSidT[0][i]<0.0 && std::abs(sunDec[i]-mylat)>=halfpi;
twiGood = (poleNight && std::abs(objectDec[i]-mylat)<halfpi)?true:CheckRise(i);
``` -/
def twiGood (tbl : YearlyTable α) (mylat alti : α) (i : ℕ) : Bool :=
  let poleNight : Bool := decide (tbl.sunSidT 0 i < 0) && decide (|tbl.sunDec i - mylat| ≥ halfpi)
  if poleNight && decide (|tbl.objectDec i - mylat| < halfpi) then true
  else CheckRise tbl alti i

end Primitives

/-- The local variables of the Good-Nights loop; `dateRange` holds the arguments of the
calls `formatAsDateRange(selday, selday2)` whose results are concatenated, in order. -/
structure GoodNightState where
  selday : ℕ
  selday2 : ℕ
  bestBegun : Bool
  atLeastOne : Bool
  dateRange : List (ℕ × ℕ)

/-- One pass of the body of the Good-Nights loop for day `i`, `good i` being `twiGood`. -/
def goodNightStep (good : ℕ → Bool) (st : GoodNightState) (i : ℕ) : GoodNightState :=
  let st1 : GoodNightState :=
    if good i && st.bestBegun == false then
      { st with selday := i, bestBegun := true, atLeastOne := true }
    else st
  if !good i && st1.bestBegun == true then
    let st2 : GoodNightState := { st1 with selday2 := i, bestBegun := false }
    if st2.selday2 > st2.selday then
      { st2 with dateRange := st2.dateRange ++ [(st2.selday, st2.selday2)] }
    else st2
  else st1

/-- The loop `for (int i=0; i<nDays; i++)` of the Good-Nights scan. -/
def goodNightLoop (good : ℕ → Bool) (nDays : ℕ) : GoodNightState :=
  (List.range nDays).foldl (goodNightStep good) ⟨0, 0, false, false, []⟩

/-- The ranges formatted into `dateRange` by the Good-Nights scan: those of the loop, and
after it `formatAsDateRange(selday, 0)` when good dates last till the end of the year. -/
def goodNightRanges (good : ℕ → Bool) (nDays : ℕ) : List (ℕ × ℕ) :=
  let st := goodNightLoop good nDays
  if st.bestBegun then st.dateRange ++ [(st.selday, 0)] else st.dateRange

/-- The Good-Nights scan of `Observability::draw` on a yearly table. -/
def goodNights {α : Type} [LinearOrderedField α] [FloorRing α]
    (tbl : YearlyTable α) (mylat alti : α) (nDays : ℕ) : List (ℕ × ℕ) :=
  goodNightRanges (twiGood tbl mylat alti) nDays

/-- Days `s, …, e-1` are consecutive good days and the run cannot be extended to the left:
`s` is day 0 or follows a day that is not good. -/
def GoodRun (good : ℕ → Bool) (s e : ℕ) : Prop :=
  s < e ∧ (∀ d, s ≤ d → d < e → good d = true) ∧ (s = 0 ∨ good (s - 1) = false)

/-- Loop invariant of the Good-Nights scan after the days `0, …, n-1`. -/
structure GoodNightInv (good : ℕ → Bool) (n : ℕ) (st : GoodNightState) : Prop where
  running : st.bestBegun = true → GoodRun good st.selday n
  stopped : st.bestBegun = false → n = 0 ∨ good (n - 1) = false
  mem_iff : ∀ s e, (s, e) ∈ st.dateRange ↔ GoodRun good s e ∧ e < n ∧ good e = false
  sorted : st.dateRange.Pairwise (fun p q => p.1 < q.1)

/-! ### Acronychal and cosmical rise/set (`Observability::calculateAcroCos`) -/

/-- The local variables and output parameters of `calculateAcroCos` during its loop. -/
structure AcroCosState (α : Type) where
  acroRise : ℤ
  acroSet : ℤ
  cosRise : ℤ
  cosSet : ℤ
  bestDiffAcroRise : α
  bestDiffAcroSet : α
  bestDiffCosRise : α
  bestDiffCosSet : α
  success : Bool

/-- What `calculateAcroCos` hands back: the returned `int` and the four output parameters. -/
structure AcroCosResult where
  result : ℤ
  acroRise : ℤ
  acroSet : ℤ
  cosRise : ℤ
  cosSet : ℤ
deriving DecidableEq, Repr

section AcroCos

variable {α : Type} [LinearOrderedField α] [FloorRing α]

/-- The test `objectH0[i]>0.0 && sunSidT[2][i]>0.0 && sunSidT[3][i]>0.0` of the loop. -/
def acroCosValid (tbl : YearlyTable α) (i : ℕ) : Bool :=
  decide (tbl.objectH0 i > 0) && decide (tbl.sunSidT 2 i > 0) && decide (tbl.sunSidT 3 i > 0)

/-- The final value of `hourDiffAcroRise` on day `i`. -/
def hourDiffAcroRise (tbl : YearlyTable α) (i : ℕ) : α :=
  toUnsignedRA (tbl.objectRA i - tbl.objectH0 i) - tbl.sunSidT 2 i

/-- The value of `hourDiffCosRise` on day `i`. -/
def hourDiffCosRise (tbl : YearlyTable α) (i : ℕ) : α :=
  toUnsignedRA (tbl.objectRA i - tbl.objectH0 i) - tbl.sunSidT 3 i

/-- The final value of `hourDiffAcroSet` on day `i`. -/
def hourDiffAcroSet (tbl : YearlyTable α) (i : ℕ) : α :=
  toUnsignedRA (tbl.objectRA i + tbl.objectH0 i) - tbl.sunSidT 3 i

/-- The value of `hourCosDiffSet` on day `i`. -/
def hourCosDiffSet (tbl : YearlyTable α) (i : ℕ) : α :=
  toUnsignedRA (tbl.objectRA i + tbl.objectH0 i) - tbl.sunSidT 2 i

/-- One pass of the body of the loop of `calculateAcroCos` for day `i`. -/
def acroCosStep (tbl : YearlyTable α) (st : AcroCosState α) (i : ℕ) : AcroCosState α :=
  if acroCosValid tbl i then
    let s0 : AcroCosState α := { st with success := true }
    let s1 : AcroCosState α :=
      if |hourDiffAcroRise tbl i| < s0.bestDiffAcroRise then
        { s0 with bestDiffAcroRise := |hourDiffAcroRise tbl i|, acroRise := (i : ℤ) }
      else s0
    let s2 : AcroCosState α :=
      if |hourDiffAcroSet tbl i| < s1.bestDiffAcroSet then
        { s1 with bestDiffAcroSet := |hourDiffAcroSet tbl i|, acroSet := (i : ℤ) }
      else s1
    let s3 : AcroCosState α :=
      if |hourDiffCosRise tbl i| < s2.bestDiffCosRise then
        { s2 with bestDiffCosRise := |hourDiffCosRise tbl i|, cosRise := (i : ℤ) }
      else s2
    if |hourCosDiffSet tbl i| < s3.bestDiffCosSet then
      { s3 with bestDiffCosSet := |hourCosDiffSet tbl i|, cosSet := (i : ℤ) }
    else s3
  else st

/-- The state before the loop: the four days are `-1`, the four best differences `12.0`. -/
def acroCosInit : AcroCosState α :=
  ⟨-1, -1, -1, -1, 12, 12, 12, 12, false⟩

/-- The loop `for (int i=0; i<366; i++)` of `calculateAcroCos`. -/
def acroCosLoop (tbl : YearlyTable α) : AcroCosState α :=
  (List.range 366).foldl (acroCosStep tbl) acroCosInit

/-- The statements after the loop:
```
acroRise *= (bestDiffAcroRise > 0.083)?-1:1;   // and the same for the other three
int result = (acroRise>0 || acroSet>0) ? 1 : 0;
result += (cosRise>0 || cosSet>0) ? 2 : 0;
return (success) ? result : 0;
``` -/
def acroCosFinish (st : AcroCosState α) : AcroCosResult :=
  let acroRise : ℤ := st.acroRise * (if st.bestDiffAcroRise > 0.083 then -1 else 1)
  let acroSet : ℤ := st.acroSet * (if st.bestDiffAcroSet > 0.083 then -1 else 1)
  let cosRise : ℤ := st.cosRise * (if st.bestDiffCosRise > 0.083 then -1 else 1)
  let cosSet : ℤ := st.cosSet * (if st.bestDiffCosSet > 0.083 then -1 else 1)
  let result : ℤ :=
    (if acroRise > 0 ∨ acroSet > 0 then 1 else 0) + (if cosRise > 0 ∨ cosSet > 0 then 2 else 0)
  ⟨if st.success then result else 0, acroRise, acroSet, cosRise, cosSet⟩

/-- Embedding of `Observability::calculateAcroCos`: the dates of the acronychal and cosmical rise/set. -/
def calculateAcroCos (tbl : YearlyTable α) : AcroCosResult :=
  acroCosFinish (acroCosLoop tbl)

end AcroCos

/-- The content of `lineAcroCos` as `draw` builds it from the result of `calculateAcroCos`.
For each of the two phenomena `none` stands for the message "No acronychal rise/set." or
"No cosmical rise/set."; otherwise the days passed to `formatAsDate` for the rise and the set
are given, `none` standing for the word "None". -/
structure AcroCosLine where
  acronychal : Option (Option ℤ × Option ℤ)
  cosmical : Option (Option ℤ × Option ℤ)
deriving DecidableEq, Repr

/-- Part 2 of the yearly analysis in `Observability::draw`:
```
acroRiseStr = (acroRise>0)?formatAsDate(acroRise):msgNone;   // and the other three
if (result==3 || result==1) lineAcroCos = msgAcroRise.arg(acroRiseStr).arg(acroSetStr);
else lineAcroCos = msgNoAcroRise;
if (result==3 || result==2) lineAcroCos += msgCosmRise.arg(cosRiseStr).arg(cosSetStr);
else lineAcroCos += msgNoCosmRise;
``` -/
def lineAcroCos (r : AcroCosResult) : AcroCosLine :=
  let acroRiseStr : Option ℤ := if r.acroRise > 0 then some r.acroRise else none
  let acroSetStr : Option ℤ := if r.acroSet > 0 then some r.acroSet else none
  let cosRiseStr : Option ℤ := if r.cosRise > 0 then some r.cosRise else none
  let cosSetStr : Option ℤ := if r.cosSet > 0 then some r.cosSet else none
  ⟨if r.result = 3 ∨ r.result = 1 then some (acroRiseStr, acroSetStr) else none,
    if r.result = 3 ∨ r.result = 2 then some (cosRiseStr, cosSetStr) else none⟩

/-! ### Two concrete yearly tables -/

section Tables

variable (α : Type) [LinearOrderedField α]

/-- The table of a star at right ascension 0 h with a semi-diurnal arc of 1 h
(`objectH0 = 1`), at a place where day 10 is the only day on which the Sun rises and sets:
that day the Sun sets at sidereal time 1 h (`sunSidT[2]`) and rises at 23 h (`sunSidT[3]`),
as the star does; on the other days the Sun's sidereal times hold `-1000`. -/
def loneDayTable : YearlyTable α where
  sunRA := fun _ => 0
  sunDec := fun _ => 0
  objectRA := fun _ => 0
  objectDec := fun _ => 0
  sunSidT := fun k i => if i = 10 then (if k = 2 then 1 else if k = 3 then 23 else -1000) else -1000
  objectSidT := fun _ _ => 0
  objectH0 := fun _ => 1

/-- The table of a circumpolar star at right ascension 0 h: `objectH0` holds the value that
`calculateHourAngle` returns for an altitude that is not reached, every day; the Sun sets at
sidereal time 6 h and rises at 18 h. -/
def circumpolarStarTable : YearlyTable α where
  sunRA := fun _ => 0
  sunDec := fun _ => 0
  objectRA := fun _ => 0
  objectDec := fun _ => 3 / 2
  sunSidT := fun k _ => if k = 2 then 6 else if k = 3 then 18 else -1000
  objectSidT := fun _ _ => 0
  objectH0 := fun _ => hourAngleSentinel

end Tables

/-! ### Functions that call libm: hour angle, separation, today's rise and set -/

/-- Embedding of `Observability::calculateHourAngle`: the hour angle for a given altitude.
```
double denom = std::cos(latitude)*std::cos(declination);
double numer = (std::sin(elevation)-std::sin(latitude)*std::sin(declination));
if ( std::abs(numer) > std::abs(denom) ) return -0.5/86400.;
else return Rad2Hr * std::acos(numer/denom);
```
The second branch is entered with `denom = 0` only when `numer = 0`, where C++ computes
`acos(0/0)`; the statements below that concern this branch assume `denom ≠ 0`. -/
noncomputable def calculateHourAngle (latitude elevation declination : ℝ) : ℝ :=
  let denom : ℝ := Real.cos latitude * Real.cos declination
  let numer : ℝ := Real.sin elevation - Real.sin latitude * Real.sin declination
  if |numer| > |denom| then hourAngleSentinel
  else Rad2Hr * Real.arccos (numer / denom)

/-- Embedding of `Observability::Lambda`: the angular separation between two points on the sky,
RA in hours and Dec in radians. -/
noncomputable def Lambda (RA1 Dec1 RA2 Dec2 : ℝ) : ℝ :=
  Real.arccos (Real.sin Dec1 * Real.sin Dec2
    + Real.cos Dec1 * Real.cos Dec2 * Real.cos ((RA1 - RA2) / Rad2Hr))

/-- The best-night scan of `Observability::draw`: the pair `(selday, deltaPhs)` after the
loop that maximises the Sun-object separation. -/
noncomputable def bestNight (tbl : YearlyTable ℝ) (nDays : ℕ) : ℕ × ℝ :=
  bestNightLoop
    (fun i => Lambda (tbl.objectRA i) (tbl.objectDec i) (tbl.sunRA i) (tbl.sunDec i)) nDays

/-- The message stored in `RS1` by today's rise/set report. -/
inductive RiseSetMsg where
  | setsAt
  | setAt
  | circumpolar
  | noRise
deriving DecidableEq, Repr

/-- The rise/set part of today's report for a source that is not in the Solar System. -/
structure TodayRiseSet where
  risingTime : ℝ
  settingTime : ℝ
  hasRisen : Bool
  RS1 : RiseSetMsg

/-- Today's rise and set in `Observability::draw` for a fixed source (`isStar` true, `isSun`
and `isMoon` false, so `solvedMoon` stays false). `LocPos1`, `LocPos2` are the components
`LocPos[1]`, `LocPos[2]` of the alt-azimuthal position, `hasRisen0` the value of the member
`hasRisen` left by the previous frame.
```
alti = std::asin(LocPos[2]);
double currH = calculateHourAngle(mylat,alti,selDec);
horizH = calculateHourAngle(mylat,refractedHorizonAlt,selDec);
...
else if (horizH>0.0) { if ( LocPos[1]>0.0 ) { if ( currH>horizH ) ... } }
if ((solvedMoon && MoonRise>0.0) || (!isSun && !isMoon && horizH>0.0)) ...
else { (alti>refractedHorizonAlt)? RS1 = msgCircumpolar: RS1 = msgNoRise; }
``` -/
noncomputable def starRiseSet (mylat selDec refractedHorizonAlt LocPos1 LocPos2 : ℝ)
    (hasRisen0 : Bool) : TodayRiseSet :=
  let alti : ℝ := Real.arcsin LocPos2
  let currH : ℝ := calculateHourAngle mylat alti selDec
  let horizH : ℝ := calculateHourAngle mylat refractedHorizonAlt selDec
  let times : ℝ × ℝ × Bool :=
    if horizH > 0 then
      if LocPos1 > 0 then
        if currH > horizH then (currH - horizH, 24 - currH - horizH, false)
        else (horizH - currH, 2 * horizH - (horizH - currH), true)
      else
        if currH > horizH then (24 - currH - horizH, currH - horizH, false)
        else (horizH + currH, horizH - currH, true)
    else (0, 0, hasRisen0)
  let RS1 : RiseSetMsg :=
    if horizH > 0 then (if times.2.2 then RiseSetMsg.setsAt else RiseSetMsg.setAt)
    else if alti > refractedHorizonAlt then RiseSetMsg.circumpolar else RiseSetMsg.noRise
  ⟨times.1, times.2.1, times.2.2, RS1⟩

/-! ### Culmination (today's report in `Observability::draw`) -/

/-- The culmination altitude that today's report shows for a fixed source (`isStar`), in
degrees; `none` when the string `Cul` stays empty.
```
culmAlt = std::abs(mylat-selDec); // 90.-altitude at transit.
if (culmAlt < (halfpi - refractedHorizonAlt)) // Source can be observed.
{
	double altiAtCulmi = Rad2Deg*(halfpi-culmAlt-refractedHorizonAlt);
``` -/
def starCulmination {α : Type} [LinearOrderedField α]
    (mylat selDec refractedHorizonAlt : α) : Option α :=
  let culmAlt : α := |mylat - selDec|
  if culmAlt < halfpi - refractedHorizonAlt then
    some (Rad2Deg * (halfpi - culmAlt - refractedHorizonAlt))
  else none

/-! ### The length of the year (`Observability::updateSunData`) -/

/-- The leap years of the Gregorian calendar. -/
def isLeapYear (year : ℕ) : Bool :=
  (year % 4 == 0 && year % 100 != 0) || year % 400 == 0

/-- The number of days of the Gregorian calendar from 1 January of the year 1 to 1 January
of `year`. -/
def daysBeforeYear (year : ℕ) : ℕ :=
  365 * (year - 1) + (year - 1) / 4 - (year - 1) / 100 + (year - 1) / 400

/-- The year of the day that comes `day` days after 1 January of the year 1: the last year
whose 1 January is not after that day. -/
def yearOfDay (day : ℕ) : ℕ :=
  Nat.findGreatest (fun y => daysBeforeYear y ≤ day) (day / 365 + 1)

section Calendar

variable {α : Type} [LinearOrderedField α] [FloorRing α]

/-- Modelled from the spec: `StelUtils::getJDFromDate` belongs to the core (StelUtils.cpp),
which is not among the sources. The value modelled is the Julian Day it stores for the call
`getJDFromDate(&Jan1stJD,year,1,1,0,0,0)`, 1 January of `year` at 0 h in the Gregorian
calendar (1 January of the year 1 at 0 h is the Julian Day 1721425.5). -/
def getJDFromDateJan1 (year : ℕ) : α :=
  1721425.5 + (daysBeforeYear year : α)

/-- Modelled from the spec: `StelUtils::getDateFromJulianDay` belongs to the core
(StelUtils.cpp), which is not among the sources. The value modelled is the year it stores:
the year of the Gregorian calendar of the civil day that holds the instant `jd` (civil days
start at Julian Days that end in .5). -/
def getYearFromJulianDay (jd : α) : ℕ :=
  yearOfDay (⌊jd + 1 / 2⌋ - 1721426).toNat

/-- The value of `nDays` set by `Observability::updateSunData`, from the current Julian Day.
```
StelUtils::getDateFromJulianDay(myJD,&year,&month,&day);
StelUtils::getJDFromDate(&Jan1stJD,year,1,1,0,0,0);
StelUtils::getDateFromJulianDay(Jan1stJD+365., &sameYear, &month, &day);
nDays = (year==sameYear)?366:365;
``` -/
def updateSunData_nDays (myJD : α) : ℕ :=
  let year : ℕ := getYearFromJulianDay myJD
  let Jan1stJD : α := getJDFromDateJan1 year
  let sameYear : ℕ := getYearFromJulianDay (Jan1stJD + 365)
  if year = sameYear then 366 else 365

end Calendar

/-! ### Twilight sidereal times of the Sun (`Observability::updateSunH`) -/

/-- Embedding of `Observability::updateSunH`: the Sun's sidereal times at twilight
(`sunSidT[0]`, `sunSidT[1]`) and at the horizon (`sunSidT[2]`, `sunSidT[3]`) for the days
`0, …, nDays-1`.
```
tempH = calculateHourAngle(mylat, twilightAltRad, sunDec[i]);
tempH00 = calculateHourAngle(mylat, refractedHorizonAlt, sunDec[i]);
if (tempH > 0.0) { sunSidT[0][i] = toUnsignedRA(sunRA[i]-tempH*(1.00278));
                   sunSidT[1][i] = toUnsignedRA(sunRA[i]+tempH*(1.00278)); }
else { sunSidT[0][i] = -1000.0; sunSidT[1][i] = -1000.0; }
if (tempH00>0.0) { sunSidT[2][i] = toUnsignedRA(sunRA[i]+tempH00);
                   sunSidT[3][i] = toUnsignedRA(sunRA[i]-tempH00); }
else { sunSidT[2][i] = -1000.0; sunSidT[3][i] = -1000.0; }
``` -/
noncomputable def updateSunH (mylat twilightAltRad refractedHorizonAlt : ℝ) (nDays : ℕ)
    (tbl : YearlyTable ℝ) : YearlyTable ℝ :=
  { tbl with
    sunSidT := fun k i =>
      if i < nDays then
        let tempH : ℝ := calculateHourAngle mylat twilightAltRad (tbl.sunDec i)
        let tempH00 : ℝ := calculateHourAngle mylat refractedHorizonAlt (tbl.sunDec i)
        if k = 0 then
          (if tempH > 0 then toUnsignedRA (tbl.sunRA i - tempH * 1.00278) else -1000)
        else if k = 1 then
          (if tempH > 0 then toUnsignedRA (tbl.sunRA i + tempH * 1.00278) else -1000)
        else if k = 2 then
          (if tempH00 > 0 then toUnsignedRA (tbl.sunRA i + tempH00) else -1000)
        else if k = 3 then
          (if tempH00 > 0 then toUnsignedRA (tbl.sunRA i - tempH00) else -1000)
        else tbl.sunSidT k i
      else tbl.sunSidT k i }

/-! ### The line of the Good-Nights scan (`Observability::draw`) -/

/-- The text stored in `lineObservableRange` after the Good-Nights scan: `msgWholeYear`,
`msgNotObs`, or `msgAboveHoriz` filled with the date ranges. -/
inductive ObservableRange where
  | wholeYear
  | notObs
  | aboveHoriz (dateRange : List (ℕ × ℕ))
deriving DecidableEq, Repr

/-- The choice of the text after the Good-Nights scan. The string `dateRange` is empty
exactly when no call of `formatAsDateRange` was appended to it.
```
if (dateRange.isEmpty()) { if (atLeastOne) lineObservableRange = msgWholeYear;
                           else lineObservableRange = msgNotObs; }
else lineObservableRange = msgAboveHoriz.arg(dateRange);
``` -/
def lineObservableRange (good : ℕ → Bool) (nDays : ℕ) : ObservableRange :=
  let dateRange := goodNightRanges good nDays
  if dateRange.isEmpty then
    if (goodNightLoop good nDays).atLeastOne then ObservableRange.wholeYear
    else ObservableRange.notObs
  else ObservableRange.aboveHoriz dateRange

/-! ### Rise, set and culmination of a Solar-System body
(`Observability::calculateSolarSystemEvents`) -/

section SolarSystem

variable {α : Type} [LinearOrderedField α] [FloorRing α]

/-- The constant `JDsec = 1./86400.`: a second in days. -/
def JDsec : α := 1 / 86400

/-- The constant `MoonT = 29.530588`: the synodic period of the Moon, in days. -/
def MoonT : α := 29.530588

/-- The constant `RefFullMoon = 2451564.696`: reference Julian date of a Full Moon. -/
def RefFullMoon : α := 2451564.696

/-- The constant `NUM_ITER = 100` of `calculateSolarSystemEvents`. -/
def NUM_ITER : ℕ := 100

/-- The variables of one of the three iterations of `calculateSolarSystemEvents`: the loop
counter `i`, the previous estimate `tempEphH` (in hours from `myJD`), the Julian date of the
event (`MoonRise`, `MoonSet` or `MoonCulm`), and whether the loop was left by `break`. -/
structure EventState (α : Type) where
  i : ℕ
  tempEphH : α
  event : α
  stopped : Bool
deriving DecidableEq

/-- One pass of the loop `for (i=0; i<NUM_ITER; i++)`; `tempHAt tempJd` is the estimate
`tempH` (in hours) that the body computes from the coordinates of the body at `tempJd`.
```
tempJd = MoonRise;  ... tempH = ...;
if (std::abs(tempH-tempEphH)<JDsec) break;
tempEphH = tempH;
MoonRise = myJD + (tempEphH/24.);
``` -/
def eventStep (tempHAt : α → α) (myJD : α) (st : EventState α) (_ : ℕ) : EventState α :=
  if st.stopped then st
  else
    let tempH : α := tempHAt st.event
    if |tempH - st.tempEphH| < JDsec then { st with stopped := true }
    else ⟨st.i + 1, tempH, myJD + tempH / 24, false⟩

/-- The loop `for (i=0; i<NUM_ITER; i++)` started from the estimate `tempEphH` and the
Julian date `event`. -/
def eventLoop (tempHAt : α → α) (myJD tempEphH event : α) : EventState α :=
  (List.range NUM_ITER).foldl (eventStep tempHAt myJD) ⟨0, tempEphH, event, false⟩

/-- The estimate `tempH` of the culmination loop, from the right ascension `ra tempJd` of
the body at `tempJd`.
```
Hcurr = toUnsignedRA(SidT-ra);
Hcurr += (LocPos[1]<0.0)?24.0:-24.0;
Hcurr -= (Hcurr>12.)?24.0:0.0;
tempH = -Hcurr*TFrac;
``` -/
def culmTempH (ra : α → α) (SidT LocPos1 : α) (tempJd : α) : α :=
  let Hcurr0 : α := toUnsignedRA (SidT - ra tempJd)
  let Hcurr1 : α := Hcurr0 + (if LocPos1 < 0 then 24 else -24)
  let Hcurr : α := Hcurr1 - (if Hcurr1 > 12 then 24 else 0)
  (-Hcurr) * TFrac

/-- The culmination iteration: `tempEphH = MoonCulm; MoonCulm = myJD + (MoonCulm/24.);`
followed by the loop. -/
def culmIteration (ra : α → α) (SidT LocPos1 myJD MoonCulm : α) : EventState α :=
  eventLoop (culmTempH ra SidT LocPos1) myJD MoonCulm (myJD + MoonCulm / 24)

end SolarSystem

/-- The estimate `tempH` of the rise loop, from the coordinates `(ra, dec) = coords tempJd`
of the body at `tempJd`.
```
Hcurr = toUnsignedRA(SidT-ra);
Hcurr -= (hasRisen)?0.0:24.;
Hcurr -= (Hcurr>12.)?24.0:0.0;
hHoriz = calculateHourAngle(mylat,refractedHorizonAlt,dec);
tempH = (-hHoriz-Hcurr)*TFrac;
if (hasRisen==false) tempH += (tempH<0.0)?24.0:0.0;
``` -/
noncomputable def riseTempH (coords : ℝ → ℝ × ℝ) (mylat refractedHorizonAlt SidT : ℝ)
    (hasRisen : Bool) (tempJd : ℝ) : ℝ :=
  let Hcurr0 : ℝ := toUnsignedRA (SidT - (coords tempJd).1)
  let Hcurr1 : ℝ := Hcurr0 - (if hasRisen then 0 else 24)
  let Hcurr : ℝ := Hcurr1 - (if Hcurr1 > 12 then 24 else 0)
  let hHoriz : ℝ := calculateHourAngle mylat refractedHorizonAlt (coords tempJd).2
  let tempH : ℝ := (-hHoriz - Hcurr) * TFrac
  if hasRisen = false then tempH + (if tempH < 0 then 24 else 0) else tempH

/-- The rise iteration: `tempEphH = MoonRise*TFrac; MoonRise = myJD + (MoonRise/24.);`
followed by the loop. -/
noncomputable def riseIteration (coords : ℝ → ℝ × ℝ) (mylat refractedHorizonAlt SidT : ℝ)
    (hasRisen : Bool) (myJD MoonRise : ℝ) : EventState ℝ :=
  eventLoop (riseTempH coords mylat refractedHorizonAlt SidT hasRisen) myJD
    (MoonRise * TFrac) (myJD + MoonRise / 24)

/-- The estimate `tempH` of the set loop.
```
Hcurr = toUnsignedRA(SidT-ra);
Hcurr -= (hasRisen)?24.:0.;
Hcurr += (Hcurr<-12.)?24.0:0.0;
hHoriz = calculateHourAngle(mylat, refractedHorizonAlt, dec);
tempH = (hHoriz-Hcurr)*TFrac;
if (!hasRisen) tempH -= (tempH>0.0)?24.0:0.0;
``` -/
noncomputable def setTempH (coords : ℝ → ℝ × ℝ) (mylat refractedHorizonAlt SidT : ℝ)
    (hasRisen : Bool) (tempJd : ℝ) : ℝ :=
  let Hcurr0 : ℝ := toUnsignedRA (SidT - (coords tempJd).1)
  let Hcurr1 : ℝ := Hcurr0 - (if hasRisen then 24 else 0)
  let Hcurr : ℝ := Hcurr1 + (if Hcurr1 < -12 then 24 else 0)
  let hHoriz : ℝ := calculateHourAngle mylat refractedHorizonAlt (coords tempJd).2
  let tempH : ℝ := (hHoriz - Hcurr) * TFrac
  if hasRisen = false then tempH - (if tempH > 0 then 24 else 0) else tempH

/-- The set iteration: `tempEphH = MoonSet; MoonSet = myJD + (MoonSet/24.);` followed by
the loop. -/
noncomputable def setIteration (coords : ℝ → ℝ × ℝ) (mylat refractedHorizonAlt SidT : ℝ)
    (hasRisen : Bool) (myJD MoonSet : ℝ) : EventState ℝ :=
  eventLoop (setTempH coords mylat refractedHorizonAlt SidT hasRisen) myJD
    MoonSet (myJD + MoonSet / 24)

/-! ### The Full-Moon search of `Observability::calculateSolarSystemEvents` -/

section FullMoon

variable {α : Type} [LinearOrderedField α] [FloorRing α]

/-- The first estimate of the nearest Full Moon.
```
double dT = std::modf((myJD-RefFullMoon)/MoonT,&nT);
if (dT>0.5) {nT += 1.0;};
if (dT<-0.5) {nT -= 1.0;};
double TempFullMoon = RefFullMoon + nT*MoonT;
``` -/
def fullMoonSeed (myJD : α) : α :=
  let nT : α := (modfInt ((myJD - RefFullMoon) / MoonT) : α)
  let dT : α := modfFrac ((myJD - RefFullMoon) / MoonT)
  let nT1 : α := if dT > 0.5 then nT + 1 else nT
  let nT2 : α := if dT < -0.5 then nT1 - 1 else nT1
  RefFullMoon + nT2 * MoonT

/-- The variables of the Full-Moon search: the bracket `Sec1`, `Sec2`, the phase values
`Temp1`, `Temp2`, the last `Phase1` (not set before the first pass), `TempFullMoon`, and
whether the loop was left by `break`. -/
structure FullMoonState (α : Type) where
  Sec1 : α
  Sec2 : α
  Temp1 : α
  Temp2 : α
  Phase1 : Option α
  TempFullMoon : α
  stopped : Bool
deriving DecidableEq

/-- The state before the loop; `eclLon jd` is the value that `getSunMoonCoords` stores in
`eclLon` for the Julian date `jd`.
```
iniEst1 =  TempFullMoon - 0.25*MoonT;
iniEst2 =  TempFullMoon + 0.25*MoonT;
Sec1 = iniEst1; Sec2 = iniEst2;
getSunMoonCoords(core,Sec1,...,eclLon,false); Temp1 = eclLon;
getSunMoonCoords(core,Sec2,...,eclLon,false); Temp2 = eclLon;
``` -/
def fullMoonStart (eclLon : α → α) (TempFullMoon : α) : FullMoonState α :=
  let iniEst1 : α := TempFullMoon - 0.25 * MoonT
  let iniEst2 : α := TempFullMoon + 0.25 * MoonT
  ⟨iniEst1, iniEst2, eclLon iniEst1, eclLon iniEst2, none, TempFullMoon, false⟩

/-- One pass of the loop `for (int i=0; i<100; i++)`, with `dT = 0.1/1440.`.
```
Phase1 = (Sec2-Sec1)/(Temp1-Temp2)*Temp1+Sec1;
getSunMoonCoords(core,Phase1,...,eclLon,false);
if (Temp1*eclLon < 0.0) { Sec2 = Phase1; Temp2 = eclLon; }
else { Sec1 = Phase1; Temp1 = eclLon; };
if (std::abs(Sec2-Sec1) < 10.*dT) { TempFullMoon = (Sec1+Sec2)/2.; break; };
``` -/
def fullMoonStep (eclLon : α → α) (st : FullMoonState α) (_ : ℕ) : FullMoonState α :=
  if st.stopped then st
  else
    let Phase1 : α := (st.Sec2 - st.Sec1) / (st.Temp1 - st.Temp2) * st.Temp1 + st.Sec1
    let e : α := eclLon Phase1
    let st1 : FullMoonState α :=
      if st.Temp1 * e < 0 then { st with Sec2 := Phase1, Temp2 := e, Phase1 := some Phase1 }
      else { st with Sec1 := Phase1, Temp1 := e, Phase1 := some Phase1 }
    if |st1.Sec2 - st1.Sec1| < 10 * (0.1 / 1440) then
      { st1 with TempFullMoon := (st1.Sec1 + st1.Sec2) / 2, stopped := true }
    else st1

/-- The search for one Full Moon from the estimate `TempFullMoon`: the state after the
loop `for (int i=0; i<100; i++)`. Its field `TempFullMoon` is the instant that is stored
in `nextFullMoon` or `prevFullMoon`. -/
def fullMoonSearch (eclLon : α → α) (TempFullMoon : α) : FullMoonState α :=
  (List.range 100).foldl (fullMoonStep eclLon) (fullMoonStart eclLon TempFullMoon)

/-- One pass of the loop `for (int j=0; j<2; j++)` on `(TempFullMoon, prevFullMoon,
nextFullMoon)`.
```
if (TempFullMoon > myJD) { nextFullMoon = TempFullMoon; TempFullMoon -= MoonT; }
else { prevFullMoon = TempFullMoon; TempFullMoon += MoonT; };
``` -/
def fullMoonPass (eclLon : α → α) (myJD : α) (st : α × α × α) (_ : ℕ) : α × α × α :=
  let T : α := (fullMoonSearch eclLon st.1).TempFullMoon
  if T > myJD then (T - MoonT, st.2.1, T) else (T + MoonT, T, st.2.2)

/-- The pair `(prevFullMoon, nextFullMoon)` after the two searches. -/
def fullMoons (eclLon : α → α) (myJD prevFullMoon nextFullMoon : α) : α × α :=
  ((List.range 2).foldl (fullMoonPass eclLon myJD)
    (fullMoonSeed myJD, prevFullMoon, nextFullMoon)).2

end FullMoon

/-- Invariant of the Full-Moon search started on the bracket `[a, b]`: the bracket stays
inside `[a, b]`, `Temp1` and `Temp2` are the phase values at its ends, they do not share a
strict sign, `Temp2` is not zero, and after `break` the bracket is narrower than one
minute with `TempFullMoon` its midpoint. -/
structure FullMoonInv {α : Type} [LinearOrderedField α] (eclLon : α → α) (a b : α)
    (st : FullMoonState α) : Prop where
  lower : a ≤ st.Sec1
  ordered : st.Sec1 ≤ st.Sec2
  upper : st.Sec2 ≤ b
  temp1 : st.Temp1 = eclLon st.Sec1
  temp2 : st.Temp2 = eclLon st.Sec2
  sign : st.Temp1 * st.Temp2 ≤ 0
  temp2_ne : st.Temp2 ≠ 0
  done : st.stopped = true →
    st.Sec2 - st.Sec1 < 1 / 1440 ∧ st.TempFullMoon = (st.Sec1 + st.Sec2) / 2

/-! ### Two sample phase functions -/

/-- A phase function that is linear in time, with its zero one day after `RefFullMoon`. -/
def linearPhase (t : ℚ) : ℚ := t - (RefFullMoon + 1)

/-- A phase function that jumps from `-1` to `1` one day after `RefFullMoon`. -/
def stepPhase (t : ℚ) : ℚ := if t < RefFullMoon + 1 then -1 else 1

/-- A body whose right ascension is 0 at every date. -/
def fixedRA (_ : ℚ) : ℚ := 0

end Observability

/-! # Satellites plugin: TLE parsing and the satellite list -/

namespace Satellites

/-! ### Strings and hashes (Qt types used by the plugin) -/

/-- A `QString`, as the list of its characters. -/
abbrev QString := List Char

/-- The white space of `QChar::isSpace` among the ASCII characters: tab, line feed, vertical
tab, form feed, carriage return (codes 9 to 13) and the space. -/
def isSpace (c : Char) : Bool :=
  c = ' ' || (9 ≤ c.toNat && c.toNat ≤ 13)

/-- The string without the white space at its start and at its end (`QString::trimmed`). -/
def trimmed (s : QString) : QString :=
  ((s.dropWhile isSpace).reverse.dropWhile isSpace).reverse

/-- The pieces of a string between the occurrences of a separator, empty pieces included
(`QString::split` with a character). -/
def split (sep : Char) : QString → List QString
  | [] => [[]]
  | c :: cs =>
    if c = sep then [] :: split sep cs
    else
      match split sep cs with
      | [] => [[c]]
      | w :: ws => (c :: w) :: ws

/-- The order of `QString::operator<`: lexicographic on the character codes. -/
def qstringLt : QString → QString → Bool
  | [], [] => false
  | [], _ :: _ => true
  | _ :: _, [] => false
  | a :: as, b :: bs =>
    if a.toNat < b.toNat then true
    else if b.toNat < a.toNat then false
    else qstringLt as bs

/-- A `QHash<QString, V>`, as the list of its key-value pairs in the order of iteration. -/
abbrev QHash (V : Type) := List (QString × V)

section Hash

variable {V : Type}

/-- `QHash::contains`. -/
def hashContains (h : QHash V) (key : QString) : Bool :=
  h.any fun p => p.1 == key

/-- The value stored under a key, if there is one (`QHash::value`, `operator[]`). -/
def hashValue (h : QHash V) (key : QString) : Option V :=
  (h.find? fun p => p.1 == key).map fun p => p.2

/-- `QHash::insert`: the value of a key that is present is replaced, a new key is added. -/
def hashInsert (h : QHash V) (key : QString) (value : V) : QHash V :=
  if hashContains h key then h.map fun p => if p.1 == key then (key, value) else p
  else h ++ [(key, value)]

/-- `QHash::take`: the value under the key (a default-constructed value when the key is
absent) and the hash without the key. -/
def hashTake [Inhabited V] (h : QHash V) (key : QString) : V × QHash V :=
  ((hashValue h key).getD default, h.filter fun p => !(p.1 == key))

end Hash

/-! ### TLE sets (`Satellites::parseTleFile`) -/

/-- The struct `TleData` (declared in Satellites.hpp): the fields that Satellites.cpp uses.
The default values are those of `TleData()`. -/
structure TleData where
  id : QString := []
  name : QString := []
  first : QString := []
  second : QString := []
  addThis : Bool := false
deriving DecidableEq, Repr, Inhabited

/-- The type `TleDataHash`: TLE sets by satellite id. -/
abbrev TleDataHash := QHash TleData

/-- The variables of the loop of `parseTleFile`. -/
structure ParseState where
  lastData : TleData
  tleList : TleDataHash
deriving DecidableEq, Repr

/-- The text `"1 "` that starts the first line of a TLE set. -/
def lineOneStart : QString := ['1', ' ']

/-- The text `"2 "` that starts the second line of a TLE set. -/
def lineTwoStart : QString := ['2', ' ']

/-- One pass of the loop of `Satellites::parseTleFile`, for the line `raw` as `readLine`
returns it. `removeStatus` stands for
`line.replace(QRegExp("\\s*\\[([^\\]])*\\]\\s*$"),"")`, which removes things in square
brackets from a title line; `QRegExp("^1 .*").exactMatch(line)` holds when the line starts
with `"1 "`.
```
QString line = QString(openFile.readLine()).trimmed();
if (line.length() < 65) // this is title line
{
	lastData = TleData();
	lastData.addThis = addFlagValue;
	line.replace(QRegExp(...),"");
	lastData.name = line;
}
else
{
	if (QRegExp("^1 .*").exactMatch(line)) lastData.first = line;
	else if (QRegExp("^2 .*").exactMatch(line))
	{
		lastData.second = line;
		QString id = line.split(' ').at(1).trimmed();
		if (id.isEmpty()) continue;
		lastData.id = id;
		if (!lastData.name.isEmpty() && !lastData.first.isEmpty())
		{
			if (lastData.addThis || !tleList.contains(id))
				tleList.insert(id, lastData); // Overwrite if necessary
		}
	}
}
``` -/
def parseLine (addFlagValue : Bool) (removeStatus : QString → QString)
    (st : ParseState) (raw : QString) : ParseState :=
  let line : QString := trimmed raw
  if line.length < 65 then
    { st with lastData := { addThis := addFlagValue, name := removeStatus line } }
  else if line.take 2 = lineOneStart then
    { st with lastData := { st.lastData with first := line } }
  else if line.take 2 = lineTwoStart then
    let lastData1 : TleData := { st.lastData with second := line }
    let id : QString := trimmed ((split ' ' line).getD 1 [])
    if id.isEmpty then { st with lastData := lastData1 }
    else
      let lastData2 : TleData := { lastData1 with id := id }
      if !lastData2.name.isEmpty && !lastData2.first.isEmpty then
        if lastData2.addThis || !hashContains st.tleList id then
          { lastData := lastData2, tleList := hashInsert st.tleList id lastData2 }
        else { st with lastData := lastData2 }
      else { st with lastData := lastData2 }
  else st

/-- The state of `parseTleFile` after the lines `lines` of the file. `lastData` starts as
declared by `TleData lastData;`: its strings are empty and its flag `addThis`, which the
declaration does not set, has some value `addThis0`. -/
def parseLines (addFlagValue : Bool) (removeStatus : QString → QString) (addThis0 : Bool)
    (tleList : TleDataHash) (lines : List QString) : ParseState :=
  lines.foldl (parseLine addFlagValue removeStatus) ⟨{ addThis := addThis0 }, tleList⟩

/-- `Satellites::parseTleFile`: the hash `tleList` after the call. `readable` is
`openFile.isOpen() && openFile.isReadable()`, `lines` the lines of the file. -/
def parseTleFile (readable : Bool) (lines : List QString) (tleList : TleDataHash)
    (addFlagValue : Bool) (removeStatus : QString → QString) (addThis0 : Bool) : TleDataHash :=
  if !readable then tleList
  else (parseLines addFlagValue removeStatus addThis0 tleList lines).tleList

/-! ### The list of satellites (`Satellites::add`, `remove`, `updateSatellites`) -/

/-- The members of the class `Satellite` that `Satellites::add`, `remove` and
`updateSatellites` read or write. `tleFirst` and `tleSecond` are `tleElements.first` and
`tleElements.second`, `stdMag` is a `double`, `lastUpdated` a `QDateTime` (as a count of
seconds). The header documents `id` as "Identifier of the satellite, must be unique within
the list." -/
structure Satellite where
  id : QString
  name : QString
  tleFirst : QString
  tleSecond : QString
  stdMag : ℚ
  lastUpdated : ℤ
  userDefined : Bool
  initialized : Bool
  newlyAdded : Bool
deriving DecidableEq, Repr

/-- The entries that `Satellites::add` puts into the map `satProperties` (the hint colour
left out): `name`, `tle1`, `tle2`, `visible`, `orbitVisible` and, when known, `stdMag`. -/
structure SatProperties where
  name : QString
  tle1 : QString
  tle2 : QString
  visible : Bool
  orbitVisible : Bool
  stdMag : Option ℚ
deriving DecidableEq, Repr

/-- Modelled from the spec: the constructor `Satellite::Satellite(identifier, data)` is
defined in Satellite.cpp, which is not among the sources. Following the header
("identifier: unique identifier (currently the Catalog Number)", "data: a QMap which contains
the details of the satellite (TLE set, description etc.)"), the satellite gets the identifier
as its id and its name and TLE lines from the map, and it is taken to initialise
successfully. The members that the header says nothing about get fixed values here: not
user-defined, the magnitude of the map (99 when the map has none), time of last update 0. -/
def newSatellite (identifier : QString) (data : SatProperties) : Satellite where
  id := identifier
  name := data.name
  tleFirst := data.tle1
  tleSecond := data.tle2
  stdMag := data.stdMag.getD 99
  lastUpdated := 0
  userDefined := false
  initialized := true
  newlyAdded := false

/-- Modelled from the spec: `Satellite::operator<` is defined in Satellite.cpp, which is
not among the sources. Following the header, it "compares name fields. If equal, id fields". -/
def satLt (a b : Satellite) : Bool :=
  qstringLt a.name b.name || (a.name == b.name && qstringLt a.id b.id)

/-- The list sorted with `qSort(satellites)`, in ascending order of `operator<`. `qSort`
does not fix the order of satellites that compare equal; here they keep their order. -/
def qSort (satellites : List Satellite) : List Satellite :=
  satellites.insertionSort fun a b => satLt b a = false

/-- `Satellites::add(const TleData&)`: the list afterwards and the returned `bool`.
`construct` is the constructor `Satellite(tleData.id, satProperties)`.
```
if (tleData.id.isEmpty() || tleData.name.isEmpty() ||
        tleData.first.isEmpty() || tleData.second.isEmpty())
	return false;
...
if (qsMagList.contains(tleData.id)) satProperties.insert("stdMag", qsMagList[tleData.id]);
SatelliteP sat(new Satellite(tleData.id, satProperties));
if (sat->initialized) { satellites.append(sat); sat->setNew(); return true; }
return false;
``` -/
def add (construct : QString → SatProperties → Satellite) (qsMagList : QHash ℚ)
    (satellites : List Satellite) (tleData : TleData) : List Satellite × Bool :=
  if tleData.id.isEmpty || tleData.name.isEmpty || tleData.first.isEmpty
      || tleData.second.isEmpty then (satellites, false)
  else
    let satProperties : SatProperties :=
      { name := tleData.name, tle1 := tleData.first, tle2 := tleData.second,
        visible := true, orbitVisible := false,
        stdMag := if hashContains qsMagList tleData.id then hashValue qsMagList tleData.id
                  else none }
    let sat : Satellite := construct tleData.id satProperties
    if sat.initialized then (satellites ++ [{ sat with newlyAdded := true }], true)
    else (satellites, false)

/-- The loop of `Satellites::remove(const QStringList&)` from index `i` on: a satellite whose
id is in `idList` is removed with `satellites.removeAt(i)`, after which `i--` and the `i++`
of the loop leave `i` as it is.
```
for (int i = 0; i < satellites.size(); i++)
{
	const SatelliteP& sat = satellites.at(i);
	if (idList.contains(sat->id))
	{
		...
		satellites.removeAt(i);
		i--; //Compensate for the change in the array's indexing
		numRemoved++;
	}
}
``` -/
def removeLoop (idList : List QString) (satellites : List Satellite) (i : ℕ) : List Satellite :=
  if h : i < satellites.length then
    if idList.contains (satellites[i]).id then removeLoop idList (satellites.eraseIdx i) i
    else removeLoop idList satellites (i + 1)
  else satellites
termination_by satellites.length - i
decreasing_by
  all_goals simp_wf
  · rw [List.length_eraseIdx]
    simp only [h, if_true]
    omega
  · omega

/-- `Satellites::remove(const QStringList& idList)`: the list of satellites afterwards. -/
def remove (idList : List QString) (satellites : List Satellite) : List Satellite :=
  removeLoop idList satellites 0

/-- The variables of the first loop of `updateSatellites`; `satellites` holds the
satellites visited so far, as the loop leaves them. -/
structure UpdateState where
  newTleSets : TleDataHash
  satellites : List Satellite
  toBeRemoved : List QString
  updatedCount : ℕ
  totalCount : ℕ
  missingCount : ℕ
deriving DecidableEq, Repr

/-- One pass of the loop `foreach(const SatelliteP& sat, satellites)` of
`Satellites::updateSatellites`. `Satellite::setNewTleElements(tle1, tle2)`, of Satellite.cpp,
"populates the tleElements values".
```
totalCount++;
if (sat->userDefined) continue;
QString id = sat->id;
TleData newTle = newTleSets.take(id);
if (!newTle.name.isEmpty())
{
	if (sat->tleElements.first != newTle.first || sat->tleElements.second != newTle.second ||
	    sat->name != newTle.name)
	{
		sat->setNewTleElements(newTle.first, newTle.second);
		sat->name = newTle.name;
		sat->lastUpdated = lastUpdate;
		updatedCount++;
	}
	if (qsMagList.contains(id)) sat->stdMag = qsMagList[id];
}
else
{
	if (autoRemoveEnabled) toBeRemoved.append(sat->id);
	missingCount++;
}
``` -/
def updateOne (qsMagList : QHash ℚ) (autoRemoveEnabled : Bool) (lastUpdate : ℤ)
    (st : UpdateState) (sat : Satellite) : UpdateState :=
  let st : UpdateState := { st with totalCount := st.totalCount + 1 }
  if sat.userDefined then { st with satellites := st.satellites ++ [sat] }
  else
    let id : QString := sat.id
    let newTle : TleData := (hashTake st.newTleSets id).1
    let st : UpdateState := { st with newTleSets := (hashTake st.newTleSets id).2 }
    if !newTle.name.isEmpty then
      let changed : Bool :=
        sat.tleFirst != newTle.first || sat.tleSecond != newTle.second || sat.name != newTle.name
      let sat1 : Satellite :=
        if changed then
          { sat with tleFirst := newTle.first, tleSecond := newTle.second, name := newTle.name,
                     lastUpdated := lastUpdate }
        else sat
      let sat2 : Satellite :=
        if hashContains qsMagList id then
          { sat1 with stdMag := (hashValue qsMagList id).getD sat1.stdMag }
        else sat1
      { st with satellites := st.satellites ++ [sat2],
                updatedCount := if changed then st.updatedCount + 1 else st.updatedCount }
    else
      { st with satellites := st.satellites ++ [sat],
                toBeRemoved := if autoRemoveEnabled then st.toBeRemoved ++ [sat.id]
                               else st.toBeRemoved,
                missingCount := st.missingCount + 1 }

/-- One pass of the loop over the TLE sets that remained in `newTleSets`:
`if (i.value().addThis) { if (add(i.value())) addedCount++; }`, on the list of satellites
and `addedCount`. -/
def addOne (construct : QString → SatProperties → Satellite) (qsMagList : QHash ℚ)
    (acc : List Satellite × ℕ) (entry : QString × TleData) : List Satellite × ℕ :=
  if entry.2.addThis then
    if (add construct qsMagList acc.1 entry.2).2 then
      ((add construct qsMagList acc.1 entry.2).1, acc.2 + 1)
    else ((add construct qsMagList acc.1 entry.2).1, acc.2)
  else acc

/-- What `updateSatellites` leaves: the list of satellites and the counts it reports. -/
structure UpdateResult where
  satellites : List Satellite
  updatedCount : ℕ
  totalCount : ℕ
  addedCount : ℕ
  missingCount : ℕ
deriving DecidableEq, Repr

/-- `Satellites::updateSatellites(TleDataHash& newTleSets)`. With an empty `newTleSets` it
returns at once; otherwise the satellites are updated from their TLE sets, the remaining sets
flagged `addThis` are added, the list is sorted if one was added, and the satellites missing
from the update are removed if auto-remove is enabled.
```
if (addedCount) qSort(satellites);
if (autoRemoveEnabled && !toBeRemoved.isEmpty()) remove(toBeRemoved);
``` -/
def updateSatellites (construct : QString → SatProperties → Satellite) (qsMagList : QHash ℚ)
    (autoRemoveEnabled : Bool) (lastUpdate : ℤ)
    (satellites : List Satellite) (newTleSets : TleDataHash) : UpdateResult :=
  if newTleSets.isEmpty then ⟨satellites, 0, 0, 0, 0⟩
  else
    let st : UpdateState :=
      satellites.foldl (updateOne qsMagList autoRemoveEnabled lastUpdate)
        ⟨newTleSets, [], [], 0, 0, 0⟩
    let added : List Satellite × ℕ :=
      st.newTleSets.foldl (addOne construct qsMagList) (st.satellites, 0)
    let sorted : List Satellite := if added.2 ≠ 0 then qSort added.1 else added.1
    let final : List Satellite :=
      if autoRemoveEnabled && !st.toBeRemoved.isEmpty then remove st.toBeRemoved sorted
      else sorted
    ⟨final, st.updatedCount, st.totalCount, added.2, st.missingCount⟩

/-! ### A sample TLE set and two sample satellites -/

/-- The title line of a sample TLE set. -/
def issTitle : QString := "ISS (ZARYA)".toList

/-- The first line of the sample TLE set (69 characters). -/
def issLine1 : QString :=
  "1 25544U 98067A   08264.51782528 -.00002182  00000-0 -11606-4 0  2927".toList

/-- The second line of the sample TLE set (69 characters). -/
def issLine2 : QString :=
  "2 25544  51.6416 247.4627 0006703 130.5360 325.0288 15.72125391563537".toList

/-- The catalog number in the sample TLE set. -/
def issId : QString := "25544".toList

/-- A satellite with the id of the sample TLE set that the user has flagged `userDefined`. -/
def userIss : Satellite where
  id := issId
  name := "My ISS".toList
  tleFirst := issLine1
  tleSecond := issLine2
  stdMag := 0
  lastUpdated := 0
  userDefined := true
  initialized := true
  newlyAdded := false

/-- A satellite that is not user-defined, with another id. -/
def plainSat : Satellite where
  id := "11111".toList
  name := "OTHER".toList
  tleFirst := issLine1
  tleSecond := issLine2
  stdMag := 0
  lastUpdated := 0
  userDefined := false
  initialized := true
  newlyAdded := false

/-! ### Predicates used in the statements about `parseTleFile` -/

/-- The id that `parseTleFile` reads on a second line:
`line.split(' ').at(1).trimmed()`, with `line` the trimmed line. -/
def lineId (raw : QString) : QString :=
  trimmed ((split ' ' (trimmed raw)).getD 1 [])

/-- An entry of the TLE hash is complete: it is stored under its own id, its id, name, first
line and second line are not empty, and its lines start with `"1 "` and `"2 "`. -/
def CompleteEntry (p : QString × TleData) : Prop :=
  p.1 = p.2.id ∧ p.2.id ≠ [] ∧ p.2.name ≠ [] ∧ p.2.first ≠ [] ∧ p.2.second ≠ []
    ∧ p.2.first.take 2 = lineOneStart ∧ p.2.second.take 2 = lineTwoStart

/-- The lines read so far end with a title line `t` that gave the accumulator its name,
followed by data lines only (`post`); if the accumulator has a first line, it is one of these
data lines and starts with `"1 "`. -/
def SinceTitle (removeStatus : QString → QString) (lines : List QString) (acc : TleData) :
    Prop :=
  ∃ pre t post, lines = pre ++ t :: post ∧ (trimmed t).length < 65
    ∧ acc.name = removeStatus (trimmed t)
    ∧ (∀ p ∈ post, 65 ≤ (trimmed p).length)
    ∧ (acc.first ≠ [] → ∃ mid l rest, post = mid ++ l :: rest
        ∧ (trimmed l).take 2 = lineOneStart ∧ acc.first = trimmed l)

/-- Another title line, for a second TLE set with the id of the sample. -/
def issTitle2 : QString := "ISS COPY".toList

end Satellites

/-! # AngleMeasure plugin: position angle -/

namespace AngleMeasure

/-- The four-quadrant arctangent `atan2(y, x)`: the angle in `(−π, π]` of the point `(x, y)`
of the plane, that is the argument of the complex number `x + y·i`. -/
noncomputable def atan2 (y x : ℝ) : ℝ :=
  Complex.arg ⟨x, y⟩

/-- The angle `r` that `AngleMeasure::calculatePositionAngle` hands to `radToDms`, as a
function of the latitudes and longitudes of the two points (`p1.latitude()`, …).
```
double y = cos(p2.latitude())*sin(p2.longitude()-p1.longitude());
double x = cos(p1.latitude())*sin(p2.latitude()) - sin(p1.latitude())*cos(p2.latitude())*cos(p2.longitude()-p1.longitude());
double r = std::atan(y/x);
if (x<0) r += M_PI;
if (y<0) r += 2*M_PI;
if (r>(2*M_PI)) r -= 2*M_PI;
```
For `x = 0` C++ divides by zero; the statements below assume `x ≠ 0`. -/
noncomputable def calculatePositionAngle (lat1 lon1 lat2 lon2 : ℝ) : ℝ :=
  let y : ℝ := Real.cos lat2 * Real.sin (lon2 - lon1)
  let x : ℝ := Real.cos lat1 * Real.sin lat2
    - Real.sin lat1 * Real.cos lat2 * Real.cos (lon2 - lon1)
  let r0 : ℝ := Real.arctan (y / x)
  let r1 : ℝ := if x < 0 then r0 + Real.pi else r0
  let r2 : ℝ := if y < 0 then r1 + 2 * Real.pi else r1
  if r2 > 2 * Real.pi then r2 - 2 * Real.pi else r2

end AngleMeasure

/-! # EquationOfTime plugin: the mean longitude of the Sun -/

namespace EquationOfTime

variable {α : Type} [LinearOrderedField α] [FloorRing α]

/-- The function `std::fmod(x, y)`: `x - n*y`, where `n` is `x/y` rounded towards zero. -/
def fmod (x y : α) : α :=
  x - ((if 0 ≤ x / y then ⌊x / y⌋ else ⌈x / y⌉ : ℤ) : α) * y

/-- The reduction of an angle in `getSolutionEquationOfTime`, applied to the mean longitude
of the Sun and to its right ascension.
```
// reduce the angle
sunMeanLongitude = std::fmod(sunMeanLongitude, 360.);
// force it to be the positive remainder, so that 0 <= angle < 360
sunMeanLongitude = std::fmod(sunMeanLongitude + 360., 360.);
``` -/
def reduceAngle (x : α) : α :=
  fmod (fmod x 360 + 360) 360

/-- The mean longitude of the Sun in `EquationOfTime::getSolutionEquationOfTime`, before
the angle is reduced. The quotients `1/49931` and `1/15300` have two `int` operands, so
C++ evaluates them as integer divisions.
```
double tau = (JDay - 2451545.0)/365250.0;
double sunMeanLongitude = 280.4664567 + tau*(360007.6892779 + tau*(0.03032028
    + tau*(1/49931 - tau*(1/15300 - tau/2000000))));
``` -/
def sunMeanLongitudeSeries (JDay : α) : α :=
  let tau : α := (JDay - 2451545.0) / 365250.0
  280.4664567 + tau * (360007.6892779 + tau * (0.03032028
    + tau * (((1 / 49931 : ℤ) : α) - tau * (((1 / 15300 : ℤ) : α) - tau / 2000000))))

/-- The mean longitude of the Sun after the reduction of the angle. -/
def sunMeanLongitude (JDay : α) : α :=
  reduceAngle (sunMeanLongitudeSeries JDay)

end EquationOfTime

/-! # Theorems -/

namespace Observability

/-! ## Lemmas on `modf` and `toUnsignedRA` -/

section PrimitiveLemmas

variable {α : Type} [LinearOrderedField α] [FloorRing α]

lemma modfInt_of_nonneg {x : α} (hx : 0 ≤ x) : modfInt x = ⌊x⌋ := by
  simp [modfInt, hx]

lemma modfFrac_of_nonneg {x : α} (hx : 0 ≤ x) : modfFrac x = Int.fract x := by
  unfold modfFrac
  rw [modfInt_of_nonneg hx]
  rfl

/-- The value of `toUnsignedRA` is the floor-style remainder modulo 24. -/
lemma toUnsignedRA_eq (h : α) : toUnsignedRA h = h - 24 * (⌊h / 24⌋ : α) := by
  have key : ∀ r : α, 0 ≤ r →
      (24 * modfFrac (r / 24) +
        (if 24 * modfFrac (r / 24) < 0 then (24 : α)
          else (if 24 * modfFrac (r / 24) > 24 then -24 else 0)))
        = r - 24 * (⌊r / 24⌋ : α) := by
    intro r hr
    have hr24 : (0 : α) ≤ r / 24 := by positivity
    rw [modfFrac_of_nonneg hr24]
    have h0 : (0 : α) ≤ Int.fract (r / 24) := Int.fract_nonneg _
    have h1 : Int.fract (r / 24) < 1 := Int.fract_lt_one _
    have e1 : ¬ (24 * Int.fract (r / 24) < 0) := by
      have : (0 : α) ≤ 24 * Int.fract (r / 24) := by positivity
      exact not_lt.mpr this
    have e2 : ¬ (24 * Int.fract (r / 24) > 24) := by
      have : 24 * Int.fract (r / 24) < 24 := by linarith
      exact not_lt.mpr this.le
    rw [if_neg e1, if_neg e2, Int.fract]
    field_simp
  unfold toUnsignedRA
  by_cases hneg : h < 0
  · simp only [hneg, if_true]
    have hq : (0 : α) ≤ -h / 24 := by
      have : (0 : α) ≤ -h := by linarith
      positivity
    rw [modfInt_of_nonneg hq]
    set n : ℤ := ⌊-h / 24⌋ with hn
    have hle : (n : α) ≤ -h / 24 := Int.floor_le _
    have hlt : -h / 24 < (n : α) + 1 := Int.lt_floor_add_one _
    set r : α := h + (24 * ((n : α) + 1) + 0 * modfFrac (-h / 24)) with hr
    have hr' : r = h + 24 * ((n : α) + 1) := by rw [hr]; ring
    have hrpos : 0 ≤ r := by
      rw [hr']
      have : -h < 24 * ((n : α) + 1) := by
        have := (div_lt_iff₀ (by norm_num : (0 : α) < 24)).mp hlt
        linarith
      linarith
    rw [key r hrpos]
    have hfl : ⌊r / 24⌋ = ⌊h / 24⌋ + (n + 1) := by
      have : r / 24 = h / 24 + ((n + 1 : ℤ) : α) := by
        rw [hr']; push_cast; field_simp; ring
      rw [this, Int.floor_add_int]
    rw [hfl, hr']
    push_cast
    ring
  · simp only [hneg, if_false]
    exact key h (not_lt.mp hneg)

lemma toUnsignedRA_nonneg (h : α) : 0 ≤ toUnsignedRA h := by
  rw [toUnsignedRA_eq]
  have := Int.floor_le (h / 24)
  have h2 := (le_div_iff₀ (by norm_num : (0 : α) < 24)).mp this
  linarith

lemma toUnsignedRA_lt (h : α) : toUnsignedRA h < 24 := by
  rw [toUnsignedRA_eq]
  have := Int.lt_floor_add_one (h / 24)
  have h2 := (div_lt_iff₀ (by norm_num : (0 : α) < 24)).mp this
  linarith

lemma toUnsignedRA_of_mem {h : α} (h0 : 0 ≤ h) (h1 : h < 24) : toUnsignedRA h = h := by
  rw [toUnsignedRA_eq]
  have : ⌊h / 24⌋ = 0 := by
    rw [Int.floor_eq_iff]
    constructor
    · simpa using div_nonneg h0 (by norm_num : (0 : α) ≤ 24)
    · simpa using (div_lt_iff₀ (by norm_num : (0 : α) < 24)).mpr (by linarith)
  rw [this]
  simp

end PrimitiveLemmas

/-! ## Claims -/

/-- C1: for every real `h`, negative values included, `toUnsignedRA h` is the floor-style
remainder `h − 24·⌊h/24⌋`; the result lies in `[0,24)` and `toUnsignedRA` is idempotent. -/
theorem toUnsignedRA_floor_mod (h : ℝ) :
    toUnsignedRA h = h - 24 * (⌊h / 24⌋ : ℝ)
      ∧ 0 ≤ toUnsignedRA h ∧ toUnsignedRA h < 24
      ∧ toUnsignedRA (toUnsignedRA h) = toUnsignedRA h :=
  ⟨toUnsignedRA_eq h, toUnsignedRA_nonneg h, toUnsignedRA_lt h,
    toUnsignedRA_of_mem (toUnsignedRA_nonneg h) (toUnsignedRA_lt h)⟩

/-! ## Lemmas on `calculateHourAngle` and today's report -/

lemma Rad2Hr_pos : (0 : ℝ) < Rad2Hr := by
  unfold Rad2Hr; norm_num

lemma Rad2Deg_eq : (Rad2Deg : ℝ) = 180 / 3.1415927 := rfl

lemma hourAngleSentinel_neg : (hourAngleSentinel : ℝ) < 0 := by
  unfold hourAngleSentinel; norm_num

lemma calculateHourAngle_of_gt {lat el dec : ℝ}
    (h : |Real.sin el - Real.sin lat * Real.sin dec| > |Real.cos lat * Real.cos dec|) :
    calculateHourAngle lat el dec = hourAngleSentinel := by
  unfold calculateHourAngle
  simp only [h, if_true]

lemma calculateHourAngle_of_not_gt {lat el dec : ℝ}
    (h : ¬ |Real.sin el - Real.sin lat * Real.sin dec| > |Real.cos lat * Real.cos dec|) :
    calculateHourAngle lat el dec
      = Rad2Hr * Real.arccos ((Real.sin el - Real.sin lat * Real.sin dec)
          / (Real.cos lat * Real.cos dec)) := by
  unfold calculateHourAngle
  simp only [h, if_false]

lemma calculateHourAngle_nonneg_of_not_gt {lat el dec : ℝ}
    (h : ¬ |Real.sin el - Real.sin lat * Real.sin dec| > |Real.cos lat * Real.cos dec|) :
    0 ≤ calculateHourAngle lat el dec := by
  rw [calculateHourAngle_of_not_gt h]
  exact mul_nonneg Rad2Hr_pos.le (Real.arccos_nonneg _)

lemma calculateHourAngle_eq_sentinel_iff (lat el dec : ℝ) :
    calculateHourAngle lat el dec = hourAngleSentinel
      ↔ |Real.sin el - Real.sin lat * Real.sin dec| > |Real.cos lat * Real.cos dec| := by
  constructor
  · intro heq
    by_contra hn
    have := calculateHourAngle_nonneg_of_not_gt hn
    rw [heq] at this
    exact absurd hourAngleSentinel_neg (not_lt.mpr this)
  · exact calculateHourAngle_of_gt

lemma cos_calculateHourAngle {lat el dec : ℝ}
    (h : ¬ |Real.sin el - Real.sin lat * Real.sin dec| > |Real.cos lat * Real.cos dec|)
    (hd : Real.cos lat * Real.cos dec ≠ 0) :
    Real.cos (calculateHourAngle lat el dec / Rad2Hr)
      = (Real.sin el - Real.sin lat * Real.sin dec) / (Real.cos lat * Real.cos dec) := by
  rw [calculateHourAngle_of_not_gt h, mul_div_assoc, mul_comm, div_mul_cancel₀ _ Rad2Hr_pos.ne']
  have hle : |(Real.sin el - Real.sin lat * Real.sin dec) / (Real.cos lat * Real.cos dec)| ≤ 1 := by
    rw [abs_div, div_le_one (abs_pos.mpr hd)]
    exact not_lt.mp h
  exact Real.cos_arccos (neg_le_of_abs_le hle) (le_of_abs_le hle)

/-- C2: `calculateHourAngle` returns the negative sentinel `−0.5/86400` exactly when
`|sin(elevation) − sin(latitude)·sin(declination)| > |cos(latitude)·cos(declination)|`;
otherwise, when `cos(latitude)·cos(declination) ≠ 0`, it returns a non-negative hour angle `H`
with `cos(H/Rad2Hr) = (sin(elevation) − sin(latitude)·sin(declination)) /
(cos(latitude)·cos(declination))`. -/
theorem calculateHourAngle_contract (latitude elevation declination : ℝ) :
    (calculateHourAngle latitude elevation declination = -0.5 / 86400
        ↔ |Real.sin elevation - Real.sin latitude * Real.sin declination|
            > |Real.cos latitude * Real.cos declination|)
      ∧ (¬ |Real.sin elevation - Real.sin latitude * Real.sin declination|
            > |Real.cos latitude * Real.cos declination| →
          Real.cos latitude * Real.cos declination ≠ 0 →
          0 ≤ calculateHourAngle latitude elevation declination
            ∧ Real.cos (calculateHourAngle latitude elevation declination / Rad2Hr)
                = (Real.sin elevation - Real.sin latitude * Real.sin declination)
                    / (Real.cos latitude * Real.cos declination)) :=
  ⟨calculateHourAngle_eq_sentinel_iff latitude elevation declination,
    fun h hd => ⟨calculateHourAngle_nonneg_of_not_gt h, cos_calculateHourAngle h hd⟩⟩

/-- Witness for C2 at latitude, elevation and declination 0, where the hour angle is
`Rad2Hr · acos 0`. -/
theorem calculateHourAngle_contract_witness :
    0 ≤ calculateHourAngle 0 0 0
      ∧ Real.cos (calculateHourAngle 0 0 0 / Rad2Hr)
          = (Real.sin 0 - Real.sin 0 * Real.sin 0) / (Real.cos 0 * Real.cos 0) :=
  (calculateHourAngle_contract 0 0 0).2 (by simp) (by simp)

lemma starRiseSet_RS1_of_sentinel {lat dec : ℝ} (y z : ℝ) (hr : Bool)
    (hs : calculateHourAngle lat 0 dec = hourAngleSentinel) :
    (starRiseSet lat dec 0 y z hr).RS1
      = if Real.arcsin z > 0 then RiseSetMsg.circumpolar else RiseSetMsg.noRise := by
  have hneg : ¬ (hourAngleSentinel : ℝ) > 0 := not_lt.mpr hourAngleSentinel_neg.le
  simp only [starRiseSet, hs, hneg, if_false]

/-- On the diurnal circle of a source whose horizon hour angle is the sentinel, the sine of
the altitude has the sign of `sin lat · sin dec`. -/
lemma diurnal_sign_of_sentinel {lat dec : ℝ} (t : ℝ)
    (hs : calculateHourAngle lat 0 dec = hourAngleSentinel) :
    (0 < Real.sin lat * Real.sin dec →
        0 < Real.sin lat * Real.sin dec + Real.cos lat * Real.cos dec * Real.cos t)
      ∧ (Real.sin lat * Real.sin dec < 0 →
        Real.sin lat * Real.sin dec + Real.cos lat * Real.cos dec * Real.cos t < 0) := by
  have h := (calculateHourAngle_eq_sentinel_iff lat 0 dec).mp hs
  rw [Real.sin_zero, zero_sub, abs_neg] at h
  have hc : |Real.cos lat * Real.cos dec * Real.cos t| ≤ |Real.cos lat * Real.cos dec| := by
    rw [abs_mul]
    exact mul_le_of_le_one_right (abs_nonneg _) (Real.abs_cos_le_one t)
  have h1 := neg_abs_le (Real.cos lat * Real.cos dec * Real.cos t)
  have h2 := le_abs_self (Real.cos lat * Real.cos dec * Real.cos t)
  constructor
  · intro hp
    rw [abs_of_pos hp] at h
    linarith
  · intro hn
    rw [abs_of_neg hn] at h
    linarith

lemma starRiseSet_of_sentinel {lat dec : ℝ} (t y : ℝ) (hr : Bool)
    (hs : calculateHourAngle lat 0 dec = hourAngleSentinel) :
    (0 < Real.sin lat * Real.sin dec →
        (starRiseSet lat dec 0 y
          (Real.sin lat * Real.sin dec + Real.cos lat * Real.cos dec * Real.cos t) hr).RS1
          = RiseSetMsg.circumpolar)
      ∧ (Real.sin lat * Real.sin dec < 0 →
        (starRiseSet lat dec 0 y
          (Real.sin lat * Real.sin dec + Real.cos lat * Real.cos dec * Real.cos t) hr).RS1
          = RiseSetMsg.noRise) := by
  obtain ⟨hpos, hneg⟩ := diurnal_sign_of_sentinel t hs
  constructor
  · intro hp
    rw [starRiseSet_RS1_of_sentinel y _ hr hs, if_pos (Real.arcsin_pos.mpr (hpos hp))]
  · intro hn
    have : ¬ Real.arcsin
        (Real.sin lat * Real.sin dec + Real.cos lat * Real.cos dec * Real.cos t) > 0 :=
      not_lt.mpr (Real.arcsin_lt_zero.mpr (hneg hn)).le
    rw [starRiseSet_RS1_of_sentinel y _ hr hs, if_neg this]

/-! Latitude 60° and declination ±85°, converted to radians the way `draw` does
(`degrees / Rad2Deg`). -/

lemma deg60_bounds : (0 : ℝ) < 60 / Rad2Deg ∧ (60 : ℝ) / Rad2Deg < Real.pi / 2 := by
  have := Real.pi_gt_three
  rw [Rad2Deg_eq]
  refine ⟨by norm_num, ?_⟩
  norm_num
  linarith

lemma deg85_bounds : (0 : ℝ) < 85 / Rad2Deg ∧ (85 : ℝ) / Rad2Deg < Real.pi / 2 := by
  have := Real.pi_gt_three
  rw [Rad2Deg_eq]
  refine ⟨by norm_num, ?_⟩
  norm_num
  linarith

lemma deg60_85_prod :
    Real.cos (60 / Rad2Deg) * Real.cos (85 / Rad2Deg)
      < Real.sin (60 / Rad2Deg) * Real.sin (85 / Rad2Deg)
    ∧ 0 < Real.cos (60 / Rad2Deg) * Real.cos (85 / Rad2Deg) := by
  obtain ⟨a0, a1⟩ := deg60_bounds
  obtain ⟨b0, b1⟩ := deg85_bounds
  have hsum : Real.cos (60 / Rad2Deg + 85 / Rad2Deg) < 0 := by
    apply Real.cos_neg_of_pi_div_two_lt_of_lt
    · have := Real.pi_le_four
      rw [Rad2Deg_eq]; norm_num; linarith
    · linarith [Real.pi_pos]
  rw [Real.cos_add] at hsum
  have ca : 0 < Real.cos (60 / Rad2Deg) :=
    Real.cos_pos_of_mem_Ioo ⟨by linarith, a1⟩
  have cb : 0 < Real.cos (85 / Rad2Deg) :=
    Real.cos_pos_of_mem_Ioo ⟨by linarith, b1⟩
  exact ⟨by linarith, mul_pos ca cb⟩

lemma sentinel_60_85 : calculateHourAngle (60 / Rad2Deg) 0 (85 / Rad2Deg) = hourAngleSentinel := by
  obtain ⟨h1, h2⟩ := deg60_85_prod
  apply calculateHourAngle_of_gt
  rw [Real.sin_zero, zero_sub, abs_neg, abs_of_pos h2, abs_of_pos (by linarith)]
  exact h1

lemma sentinel_60_neg85 :
    calculateHourAngle (60 / Rad2Deg) 0 (-(85 / Rad2Deg)) = hourAngleSentinel := by
  obtain ⟨h1, h2⟩ := deg60_85_prod
  apply calculateHourAngle_of_gt
  rw [Real.sin_zero, zero_sub, abs_neg, Real.sin_neg, Real.cos_neg, abs_of_pos h2, mul_neg,
    abs_neg, abs_of_pos (by linarith)]
  exact h1

lemma sign_60_85 : 0 < Real.sin (60 / Rad2Deg) * Real.sin (85 / Rad2Deg) := by
  obtain ⟨h1, h2⟩ := deg60_85_prod
  linarith

lemma sign_60_neg85 : Real.sin (60 / Rad2Deg) * Real.sin (-(85 / Rad2Deg)) < 0 := by
  have := sign_60_85
  rw [Real.sin_neg, mul_neg]
  linarith

/-- C3: for a fixed star with horizon altitude 0, latitude and declination in `(−π/2, π/2)`
for which `calculateHourAngle lat 0 dec` is the sentinel, and the current altitude taken
anywhere on the diurnal circle (`LocPos[2] = sin lat·sin dec + cos lat·cos dec·cos t`), the
rise/set line of today's report is 'Circumpolar' when `sin lat·sin dec > 0` and 'No rise'
when `sin lat·sin dec < 0`; in particular latitude 60° with declination 85° gives Circumpolar
and latitude 60° with declination −85° gives No rise, at every point of the diurnal circle. -/
theorem starRiseSet_circumpolar_or_noRise (lat dec t : ℝ) (LocPos1 : ℝ) (hasRisen0 : Bool)
    (_hlat : -(Real.pi / 2) < lat ∧ lat < Real.pi / 2)
    (_hdec : -(Real.pi / 2) < dec ∧ dec < Real.pi / 2)
    (hs : calculateHourAngle lat 0 dec = -0.5 / 86400) :
    ((0 < Real.sin lat * Real.sin dec →
        (starRiseSet lat dec 0 LocPos1
          (Real.sin lat * Real.sin dec + Real.cos lat * Real.cos dec * Real.cos t)
          hasRisen0).RS1 = RiseSetMsg.circumpolar)
      ∧ (Real.sin lat * Real.sin dec < 0 →
        (starRiseSet lat dec 0 LocPos1
          (Real.sin lat * Real.sin dec + Real.cos lat * Real.cos dec * Real.cos t)
          hasRisen0).RS1 = RiseSetMsg.noRise))
    ∧ (∀ u : ℝ, (starRiseSet (60 / Rad2Deg) (85 / Rad2Deg) 0 LocPos1
          (Real.sin (60 / Rad2Deg) * Real.sin (85 / Rad2Deg)
            + Real.cos (60 / Rad2Deg) * Real.cos (85 / Rad2Deg) * Real.cos u)
          hasRisen0).RS1 = RiseSetMsg.circumpolar)
    ∧ (∀ u : ℝ, (starRiseSet (60 / Rad2Deg) (-(85 / Rad2Deg)) 0 LocPos1
          (Real.sin (60 / Rad2Deg) * Real.sin (-(85 / Rad2Deg))
            + Real.cos (60 / Rad2Deg) * Real.cos (-(85 / Rad2Deg)) * Real.cos u)
          hasRisen0).RS1 = RiseSetMsg.noRise) :=
  ⟨starRiseSet_of_sentinel t LocPos1 hasRisen0 hs,
    fun u => (starRiseSet_of_sentinel u LocPos1 hasRisen0 sentinel_60_85).1 sign_60_85,
    fun u => (starRiseSet_of_sentinel u LocPos1 hasRisen0 sentinel_60_neg85).2 sign_60_neg85⟩

/-- Witness for C3 at latitude 60°, declination 85°, on the meridian (`t = 0`,
`LocPos[1] = 0`): the hypotheses hold and the report is Circumpolar. -/
theorem starRiseSet_circumpolar_or_noRise_witness :
    calculateHourAngle (60 / Rad2Deg) 0 (85 / Rad2Deg) = -0.5 / 86400
      ∧ 0 < Real.sin (60 / Rad2Deg) * Real.sin (85 / Rad2Deg)
      ∧ (starRiseSet (60 / Rad2Deg) (85 / Rad2Deg) 0 0
          (Real.sin (60 / Rad2Deg) * Real.sin (85 / Rad2Deg)
            + Real.cos (60 / Rad2Deg) * Real.cos (85 / Rad2Deg) * Real.cos 0)
          false).RS1 = RiseSetMsg.circumpolar :=
  ⟨sentinel_60_85, sign_60_85,
    (starRiseSet_circumpolar_or_noRise (60 / Rad2Deg) (85 / Rad2Deg) 0 0 false
      ⟨by linarith [deg60_bounds.1, Real.pi_pos], deg60_bounds.2⟩
      ⟨by linarith [deg85_bounds.1, Real.pi_pos], deg85_bounds.2⟩
      sentinel_60_85).1.1 sign_60_85⟩

/-! ## Lemmas on `double2hms` -/

section Double2hmsLemmas

variable {α : Type} [LinearOrderedField α] [FloorRing α]

lemma modfInt_intCast (n : ℤ) : modfInt (n : α) = n := by
  unfold modfInt
  split_ifs <;> simp

lemma toInt_intCast {n : ℤ} (h0 : 0 ≤ n) (h1 : n < 2 ^ 31) : toInt (n : α) = some n := by
  unfold toInt
  rw [modfInt_intCast]
  rw [if_pos ⟨by omega, h1⟩]

/-- The minutes of `double2hms`: the whole part of 60 times the fractional part. -/
lemma minutes_bounds (a : α) :
    0 ≤ ⌊60 * Int.fract a⌋ ∧ ⌊60 * Int.fract a⌋ ≤ 59 := by
  have h0 : (0 : α) ≤ Int.fract a := Int.fract_nonneg _
  have h1 : Int.fract a < 1 := Int.fract_lt_one _
  constructor
  · exact Int.floor_nonneg.mpr (by positivity)
  · have : ⌊60 * Int.fract a⌋ < 60 := by
      rw [Int.floor_lt]
      push_cast
      linarith
    omega

/-- The argument of the third `modf` of `double2hms` lies in `[0, 60)`. -/
lemma seconds_arg_bounds (a : α) :
    0 ≤ 3600 * (Int.fract a - (⌊60 * Int.fract a⌋ : α) / 60)
      ∧ 3600 * (Int.fract a - (⌊60 * Int.fract a⌋ : α) / 60) < 60 := by
  have hle : (⌊60 * Int.fract a⌋ : α) ≤ 60 * Int.fract a := Int.floor_le _
  have hlt : 60 * Int.fract a < (⌊60 * Int.fract a⌋ : α) + 1 := Int.lt_floor_add_one _
  constructor
  · have : 3600 * (Int.fract a - (⌊60 * Int.fract a⌋ : α) / 60)
        = 60 * (60 * Int.fract a - (⌊60 * Int.fract a⌋ : α)) := by ring
    rw [this]
    have : (0 : α) ≤ 60 * Int.fract a - (⌊60 * Int.fract a⌋ : α) := by linarith
    positivity
  · have : 3600 * (Int.fract a - (⌊60 * Int.fract a⌋ : α) / 60)
        = 60 * (60 * Int.fract a - (⌊60 * Int.fract a⌋ : α)) := by ring
    rw [this]
    linarith

lemma seconds_bounds (a : α) :
    0 ≤ ⌊3600 * (Int.fract a - (⌊60 * Int.fract a⌋ : α) / 60)⌋
      ∧ ⌊3600 * (Int.fract a - (⌊60 * Int.fract a⌋ : α) / 60)⌋ ≤ 59 := by
  obtain ⟨h0, h1⟩ := seconds_arg_bounds a
  constructor
  · exact Int.floor_nonneg.mpr h0
  · have : ⌊3600 * (Int.fract a - (⌊60 * Int.fract a⌋ : α) / 60)⌋ < 60 := by
      rw [Int.floor_lt]
      push_cast
      exact h1
    omega

/-- The triple computed by `double2hms` when the whole part fits an `int`. -/
lemma double2hms_eq {x : α} (hx : |x| < 2 ^ 31) :
    double2hms x = some (⌊|x|⌋, ⌊60 * Int.fract |x|⌋,
      ⌊3600 * (Int.fract |x| - (⌊60 * Int.fract |x|⌋ : α) / 60)⌋) := by
  have ha : (0 : α) ≤ |x| := abs_nonneg x
  have hf0 : (0 : α) ≤ Int.fract |x| := Int.fract_nonneg _
  have h60 : (0 : α) ≤ 60 * Int.fract |x| := by positivity
  obtain ⟨hm0, hm1⟩ := minutes_bounds |x|
  obtain ⟨hs0, hs1⟩ := seconds_bounds |x|
  obtain ⟨hg0, _⟩ := seconds_arg_bounds |x|
  have hd0 : 0 ≤ ⌊|x|⌋ := Int.floor_nonneg.mpr ha
  have hd1 : ⌊|x|⌋ < 2 ^ 31 := by
    rw [Int.floor_lt]
    exact_mod_cast hx
  unfold double2hms
  simp only [modfFrac_of_nonneg ha, modfInt_of_nonneg ha, modfInt_of_nonneg h60,
    modfInt_of_nonneg hg0, zero_mul, add_zero]
  rw [toInt_intCast hd0 hd1]
  have e2 : |(⌊60 * Int.fract |x|⌋ : α)| = ((⌊60 * Int.fract |x|⌋ : ℤ) : α) :=
    abs_of_nonneg (by exact_mod_cast hm0)
  have e3 : |(⌊3600 * (Int.fract |x| - (⌊60 * Int.fract |x|⌋ : α) / 60)⌋ : α)|
      = ((⌊3600 * (Int.fract |x| - (⌊60 * Int.fract |x|⌋ : α) / 60)⌋ : ℤ) : α) :=
    abs_of_nonneg (by exact_mod_cast hs0)
  rw [e2, e3, toInt_intCast hm0 (by omega), toInt_intCast hs0 (by omega)]
  rfl

/-- The reconstruction `d + m/60 + s/3600` is at most `|x|` and misses it by less than one
second. -/
lemma double2hms_reconstruct (a : α) :
    (⌊a⌋ : α) + (⌊60 * Int.fract a⌋ : α) / 60
        + (⌊3600 * (Int.fract a - (⌊60 * Int.fract a⌋ : α) / 60)⌋ : α) / 3600 ≤ a
      ∧ a < (⌊a⌋ : α) + (⌊60 * Int.fract a⌋ : α) / 60
        + ((⌊3600 * (Int.fract a - (⌊60 * Int.fract a⌋ : α) / 60)⌋ : α) + 1) / 3600 := by
  have hle := Int.floor_le (3600 * (Int.fract a - (⌊60 * Int.fract a⌋ : α) / 60))
  have hlt := Int.lt_floor_add_one (3600 * (Int.fract a - (⌊60 * Int.fract a⌋ : α) / 60))
  have ha : a = (⌊a⌋ : α) + Int.fract a := (Int.floor_add_fract a).symm
  set m : α := (⌊60 * Int.fract a⌋ : α)
  set s : α := (⌊3600 * (Int.fract a - m / 60)⌋ : α)
  set f : α := Int.fract a
  set d : α := (⌊a⌋ : α)
  constructor
  · rw [ha]
    have : s / 3600 ≤ f - m / 60 := by
      rw [div_le_iff₀ (by norm_num : (0 : α) < 3600)]
      linarith
    linarith
  · rw [ha]
    have : f - m / 60 < (s + 1) / 3600 := by
      rw [lt_div_iff₀ (by norm_num : (0 : α) < 3600)]
      linarith
    linarith

end Double2hmsLemmas

/-- The value of `double2hms` at 1/4000 (0.9 seconds): all three integers are 0. -/
lemma double2hms_quarter_millih : double2hms (1 / 4000 : ℝ) = some (0, 0, 0) := by
  have habs : |(1 / 4000 : ℝ)| = 1 / 4000 := abs_of_pos (by norm_num)
  have hfl : ⌊(1 / 4000 : ℝ)⌋ = 0 := by
    rw [Int.floor_eq_iff]; norm_num
  have hfr : Int.fract (1 / 4000 : ℝ) = 1 / 4000 := by
    rw [Int.fract, hfl]; simp
  have hm : ⌊60 * (1 / 4000 : ℝ)⌋ = 0 := by
    rw [Int.floor_eq_iff]; norm_num
  have hs : ⌊3600 * ((1 / 4000 : ℝ) - ((0 : ℤ) : ℝ) / 60)⌋ = 0 := by
    rw [Int.floor_eq_iff]; norm_num
  rw [double2hms_eq (by rw [habs]; norm_num), habs, hfr, hfl, hm, hs]

/-- C9 (as stated, refuted): at `x = 1/4000` (0.9 seconds) `double2hms` yields `(0, 0, 0)`,
whose reconstruction `0` differs from `x` by `2.5e-4 > 1e-4`. -/
theorem double2hms_roundtrip_counterexample :
    (0 : ℝ) ≤ 1 / 4000 ∧ (1 / 4000 : ℝ) < 360
      ∧ double2hms (1 / 4000 : ℝ) = some (0, 0, 0)
      ∧ ¬ |(((0 : ℤ) : ℝ) + ((0 : ℤ) : ℝ) / 60 + ((0 : ℤ) : ℝ) / 3600) - 1 / 4000| ≤ 1e-4 := by
  refine ⟨by norm_num, by norm_num, double2hms_quarter_millih, ?_⟩
  rw [not_le]
  norm_num [abs_of_pos]

/-- C9 (amended): for every real `x` with `0 ≤ x < 360`, `double2hms x` yields a triple
`(d, m, s)` whose reconstruction `d + m/60 + s/3600` is at most `x` and differs from `x` by
less than one second, `1/3600`. -/
theorem double2hms_roundtrip_within_second (x : ℝ) (h0 : 0 ≤ x) (h1 : x < 360) :
    ∃ d m s : ℤ, double2hms x = some (d, m, s)
      ∧ (d : ℝ) + (m : ℝ) / 60 + (s : ℝ) / 3600 ≤ x
      ∧ |((d : ℝ) + (m : ℝ) / 60 + (s : ℝ) / 3600) - x| < 1 / 3600 := by
  have habs : |x| = x := abs_of_nonneg h0
  have hx : |x| < 2 ^ 31 := by rw [habs]; linarith
  obtain ⟨hle, hlt⟩ := double2hms_reconstruct x
  refine ⟨_, _, _, by rw [double2hms_eq hx, habs], hle, ?_⟩
  rw [abs_lt]
  constructor <;> linarith

/-- Witness for C9 (amended) at `x = 359.5`. -/
theorem double2hms_roundtrip_within_second_witness :
    (0 : ℝ) ≤ 359.5 ∧ (359.5 : ℝ) < 360
      ∧ ∃ d m s : ℤ, double2hms (359.5 : ℝ) = some (d, m, s)
        ∧ (d : ℝ) + (m : ℝ) / 60 + (s : ℝ) / 3600 ≤ 359.5
        ∧ |((d : ℝ) + (m : ℝ) / 60 + (s : ℝ) / 3600) - 359.5| < 1 / 3600 :=
  ⟨by norm_num, by norm_num,
    double2hms_roundtrip_within_second 359.5 (by norm_num) (by norm_num)⟩

/-- C10: for every real `x` with `|x| < 2^31`, `double2hms x` and `double2hms (−x)` yield the
same triple `(d, m, s)`, with `d = ⌊|x|⌋`, `0 ≤ m ≤ 59`, `0 ≤ s ≤ 59` and
`d + m/60 + s/3600 ≤ |x| < d + m/60 + (s+1)/3600`. -/
theorem double2hms_abs_base60 (x : ℝ) (hx : |x| < 2 ^ 31) :
    double2hms x = double2hms (-x)
      ∧ ∃ d m s : ℤ, double2hms x = some (d, m, s)
        ∧ d = ⌊|x|⌋ ∧ 0 ≤ m ∧ m ≤ 59 ∧ 0 ≤ s ∧ s ≤ 59
        ∧ (d : ℝ) + (m : ℝ) / 60 + (s : ℝ) / 3600 ≤ |x|
        ∧ |x| < (d : ℝ) + (m : ℝ) / 60 + ((s : ℝ) + 1) / 3600 := by
  obtain ⟨hm0, hm1⟩ := minutes_bounds |x|
  obtain ⟨hs0, hs1⟩ := seconds_bounds |x|
  obtain ⟨hle, hlt⟩ := double2hms_reconstruct |x|
  refine ⟨?_, _, _, _, double2hms_eq hx, rfl, hm0, hm1, hs0, hs1, hle, hlt⟩
  rw [double2hms_eq hx, double2hms_eq (by rw [abs_neg]; exact hx), abs_neg]

/-- Witness for C10 at `x = −5/2`, where the triple is `(2, 30, 0)`. -/
theorem double2hms_abs_base60_witness :
    |(-5 / 2 : ℝ)| < 2 ^ 31
      ∧ double2hms (-5 / 2 : ℝ) = double2hms (-(-5 / 2 : ℝ))
      ∧ ∃ d m s : ℤ, double2hms (-5 / 2 : ℝ) = some (d, m, s)
        ∧ d = ⌊|(-5 / 2 : ℝ)|⌋ ∧ 0 ≤ m ∧ m ≤ 59 ∧ 0 ≤ s ∧ s ≤ 59
        ∧ (d : ℝ) + (m : ℝ) / 60 + (s : ℝ) / 3600 ≤ |(-5 / 2 : ℝ)|
        ∧ |(-5 / 2 : ℝ)| < (d : ℝ) + (m : ℝ) / 60 + ((s : ℝ) + 1) / 3600 :=
  have h : |(-5 / 2 : ℝ)| < 2 ^ 31 := by
    rw [abs_lt]; constructor <;> norm_num
  ⟨h, double2hms_abs_base60 (-5 / 2) h⟩

/-! ## The best-night scan -/

section BestNightLemmas

variable {α : Type} [LinearOrderedField α]

lemma bestNightLoop_succ (tempPhs : ℕ → α) (n : ℕ) :
    bestNightLoop tempPhs (n + 1) = bestNightStep tempPhs (bestNightLoop tempPhs n) n := by
  unfold bestNightLoop
  rw [List.range_succ, List.foldl_append]
  rfl

/-- Loop invariant of the best-night scan when every separation exceeds the start value
`-1`: after at least one day the state is the first day with the largest separation so far. -/
lemma bestNightLoop_spec (tempPhs : ℕ → α) (hpos : ∀ i, -1 < tempPhs i) (n : ℕ) :
    (bestNightLoop tempPhs (n + 1)).1 < n + 1
      ∧ (bestNightLoop tempPhs (n + 1)).2 = tempPhs (bestNightLoop tempPhs (n + 1)).1
      ∧ (∀ j, j < n + 1 → tempPhs j ≤ tempPhs (bestNightLoop tempPhs (n + 1)).1)
      ∧ (∀ j, j < (bestNightLoop tempPhs (n + 1)).1 →
          tempPhs j < tempPhs (bestNightLoop tempPhs (n + 1)).1) := by
  induction n with
  | zero =>
    have h0 : bestNightLoop tempPhs (0 + 1) = (0, tempPhs 0) := by
      rw [bestNightLoop_succ]
      have : bestNightLoop tempPhs 0 = (0, -1) := rfl
      rw [this]
      unfold bestNightStep
      rw [if_pos (hpos 0)]
    rw [h0]
    refine ⟨by norm_num, rfl, ?_, ?_⟩
    · intro j hj
      have : j = 0 := by omega
      rw [this]
    · intro j hj
      exact absurd hj (Nat.not_lt_zero j)
  | succ n ih =>
    obtain ⟨hk, hv, hmax, hfirst⟩ := ih
    rw [bestNightLoop_succ tempPhs (n + 1)]
    unfold bestNightStep
    by_cases hgt : tempPhs (n + 1) > (bestNightLoop tempPhs (n + 1)).2
    · rw [if_pos hgt]
      rw [hv] at hgt
      refine ⟨by norm_num, rfl, ?_, ?_⟩
      · intro j hj
        rcases Nat.lt_succ_iff_lt_or_eq.mp hj with h | h
        · exact le_trans (hmax j h) hgt.le
        · rw [h]
      · intro j hj
        exact lt_of_le_of_lt (hmax j hj) hgt
    · rw [if_neg hgt]
      rw [hv] at hgt
      refine ⟨by omega, hv, ?_, hfirst⟩
      intro j hj
      rcases Nat.lt_succ_iff_lt_or_eq.mp hj with h | h
      · exact hmax j h
      · rw [h]; exact not_lt.mp hgt

end BestNightLemmas

lemma Lambda_gt_neg_one (RA1 Dec1 RA2 Dec2 : ℝ) : -1 < Lambda RA1 Dec1 RA2 Dec2 :=
  lt_of_lt_of_le (by norm_num) (Real.arccos_nonneg _)

/-- C6: for every yearly table with `nDays ≥ 1`, the best-night scan selects the smallest day
index in `[0, nDays)` at which the Sun-object separation `Lambda` attains its maximum over the
days of the year: no day has a larger separation and every earlier day has a strictly smaller
one. -/
theorem bestNight_first_maximum (tbl : YearlyTable ℝ) (nDays : ℕ) (h : 1 ≤ nDays) :
    (bestNight tbl nDays).1 < nDays
      ∧ (∀ j, j < nDays →
          Lambda (tbl.objectRA j) (tbl.objectDec j) (tbl.sunRA j) (tbl.sunDec j)
            ≤ Lambda (tbl.objectRA (bestNight tbl nDays).1) (tbl.objectDec (bestNight tbl nDays).1)
                (tbl.sunRA (bestNight tbl nDays).1) (tbl.sunDec (bestNight tbl nDays).1))
      ∧ (∀ j, j < (bestNight tbl nDays).1 →
          Lambda (tbl.objectRA j) (tbl.objectDec j) (tbl.sunRA j) (tbl.sunDec j)
            < Lambda (tbl.objectRA (bestNight tbl nDays).1) (tbl.objectDec (bestNight tbl nDays).1)
                (tbl.sunRA (bestNight tbl nDays).1) (tbl.sunDec (bestNight tbl nDays).1)) := by
  obtain ⟨n, rfl⟩ : ∃ n, nDays = n + 1 := ⟨nDays - 1, by omega⟩
  obtain ⟨hk, _, hmax, hfirst⟩ := bestNightLoop_spec
    (fun i => Lambda (tbl.objectRA i) (tbl.objectDec i) (tbl.sunRA i) (tbl.sunDec i))
    (fun i => Lambda_gt_neg_one _ _ _ _) n
  exact ⟨hk, hmax, hfirst⟩

/-- Witness for C6 on the all-zero table of a 366-day year: every day has the same
separation, and the scan selects day 0, the first of the tied days. -/
theorem bestNight_first_maximum_witness :
    1 ≤ 366 ∧ (bestNight (initialTable ℝ) 366).1 = 0 := by
  refine ⟨by norm_num, ?_⟩
  obtain ⟨_, _, hfirst⟩ := bestNight_first_maximum (initialTable ℝ) 366 (by norm_num)
  by_contra hne
  have := hfirst 0 (Nat.pos_of_ne_zero hne)
  simp [initialTable] at this

/-! ## The Good-Nights scan -/

lemma goodNightLoop_succ (good : ℕ → Bool) (n : ℕ) :
    goodNightLoop good (n + 1) = goodNightStep good (goodNightLoop good n) n := by
  unfold goodNightLoop
  rw [List.range_succ, List.foldl_append]
  rfl

/-- Two runs of good days that end at the same day and cannot be extended to the left
start at the same day. -/
lemma GoodRun.start_unique {good : ℕ → Bool} {s s' e : ℕ}
    (h : GoodRun good s e) (h' : GoodRun good s' e) : s = s' := by
  obtain ⟨hlt, hall, hleft⟩ := h
  obtain ⟨hlt', hall', hleft'⟩ := h'
  rcases Nat.lt_trichotomy s s' with hss | hss | hss
  · rcases hleft' with h0 | hb
    · omega
    · have := hall (s' - 1) (by omega) (by omega)
      rw [hb] at this
      exact absurd this (by decide)
  · exact hss
  · rcases hleft with h0 | hb
    · omega
    · have := hall' (s - 1) (by omega) (by omega)
      rw [hb] at this
      exact absurd this (by decide)

lemma GoodRun.extend {good : ℕ → Bool} {s n : ℕ} (h : GoodRun good s n) (hg : good n = true) :
    GoodRun good s (n + 1) := by
  obtain ⟨hlt, hall, hleft⟩ := h
  refine ⟨by omega, ?_, hleft⟩
  intro d hd1 hd2
  rcases Nat.lt_succ_iff_lt_or_eq.mp hd2 with h | h
  · exact hall d hd1 h
  · rw [h]; exact hg

lemma goodNightInv_init (good : ℕ → Bool) : GoodNightInv good 0 ⟨0, 0, false, false, []⟩ where
  running := by intro h; exact absurd h (by decide)
  stopped := fun _ => Or.inl rfl
  mem_iff := by
    intro s e
    constructor
    · intro h; exact absurd h (List.not_mem_nil _)
    · rintro ⟨_, h, _⟩; exact absurd h (Nat.not_lt_zero e)
  sorted := List.Pairwise.nil

lemma goodNightInv_step {good : ℕ → Bool} {n : ℕ} {st : GoodNightState}
    (inv : GoodNightInv good n st) : GoodNightInv good (n + 1) (goodNightStep good st n) := by
  -- membership of the ranges already emitted does not change when day `n` is good
  have keep : good n = true → ∀ s e,
      (s, e) ∈ st.dateRange ↔ GoodRun good s e ∧ e < n + 1 ∧ good e = false := by
    intro hg s e
    rw [inv.mem_iff]
    constructor
    · rintro ⟨h1, h2, h3⟩; exact ⟨h1, by omega, h3⟩
    · rintro ⟨h1, h2, h3⟩
      refine ⟨h1, ?_, h3⟩
      rcases Nat.lt_succ_iff_lt_or_eq.mp h2 with h | h
      · exact h
      · rw [h, hg] at h3; exact absurd h3 (by decide)
  cases hg : good n <;> cases hb : st.bestBegun
  · -- day `n` is not good, no run is open
    have hst : goodNightStep good st n = st := by
      simp [goodNightStep, hg, hb]
    rw [hst]
    refine ⟨fun h => absurd h (by rw [hb]; decide), fun _ => Or.inr (by simpa using hg), ?_,
      inv.sorted⟩
    intro s e
    rw [inv.mem_iff]
    constructor
    · rintro ⟨h1, h2, h3⟩; exact ⟨h1, by omega, h3⟩
    · rintro ⟨h1, h2, h3⟩
      refine ⟨h1, ?_, h3⟩
      rcases Nat.lt_succ_iff_lt_or_eq.mp h2 with h | h
      · exact h
      · exfalso
        rw [h] at h1
        obtain ⟨hlt, hall, _⟩ := h1
        rcases inv.stopped hb with h0 | hprev
        · omega
        · have := hall (n - 1) (by omega) (by omega)
          rw [hprev] at this
          exact absurd this (by decide)
  · -- day `n` is not good and closes the open run
    have hrun := inv.running hb
    have hlt : st.selday < n := hrun.1
    have hst : goodNightStep good st n
        = { st with selday2 := n, bestBegun := false,
                    dateRange := st.dateRange ++ [(st.selday, n)] } := by
      simp [goodNightStep, hg, hb, hlt]
    rw [hst]
    refine ⟨fun h => by simp at h, fun _ => Or.inr (by simpa using hg), ?_, ?_⟩
    · intro s e
      simp only [List.mem_append, List.mem_singleton, Prod.mk.injEq]
      rw [inv.mem_iff]
      constructor
      · rintro (⟨h1, h2, h3⟩ | ⟨rfl, rfl⟩)
        · exact ⟨h1, by omega, h3⟩
        · exact ⟨hrun, by omega, hg⟩
      · rintro ⟨h1, h2, h3⟩
        rcases Nat.lt_succ_iff_lt_or_eq.mp h2 with h | h
        · exact Or.inl ⟨h1, h, h3⟩
        · subst h
          exact Or.inr ⟨h1.start_unique hrun, rfl⟩
    · rw [List.pairwise_append]
      refine ⟨inv.sorted, List.pairwise_singleton _ _, ?_⟩
      intro p hp q hq
      rw [List.mem_singleton] at hq
      subst hq
      obtain ⟨h1, h2, h3⟩ := (inv.mem_iff p.1 p.2).mp hp
      show p.1 < st.selday
      by_contra hge
      have : st.selday ≤ p.2 := by have := h1.1; omega
      have := hrun.2.1 p.2 this h2
      rw [h3] at this
      exact absurd this (by decide)
  · -- day `n` is good and opens a run
    have hst : goodNightStep good st n
        = { st with selday := n, bestBegun := true, atLeastOne := true } := by
      simp [goodNightStep, hg, hb]
    rw [hst]
    refine ⟨fun _ => ⟨by show n < n + 1; omega, ?_, ?_⟩, fun h => by simp at h,
      keep hg, inv.sorted⟩
    · intro d hd1 hd2
      have : d = n := by
        have h1 : n ≤ d := hd1
        omega
      rw [this]; exact hg
    · exact inv.stopped hb
  · -- day `n` is good and continues the open run
    have hst : goodNightStep good st n = st := by
      simp [goodNightStep, hg, hb]
    rw [hst]
    exact ⟨fun _ => (inv.running hb).extend hg, fun h => absurd h (by rw [hb]; decide),
      keep hg, inv.sorted⟩

lemma goodNightInv_loop (good : ℕ → Bool) (n : ℕ) :
    GoodNightInv good n (goodNightLoop good n) := by
  induction n with
  | zero => exact goodNightInv_init good
  | succ n ih =>
    rw [goodNightLoop_succ]
    exact goodNightInv_step ih

/-- The ranges of the Good-Nights scan are the maximal runs of good days: a run closed by
a day `e` that is not good gives `(s, e)`, a run that lasts to the end of the year `(s, 0)`. -/
lemma mem_goodNightRanges (good : ℕ → Bool) (nDays s e : ℕ) :
    (s, e) ∈ goodNightRanges good nDays
      ↔ (GoodRun good s e ∧ e < nDays ∧ good e = false) ∨ (e = 0 ∧ GoodRun good s nDays) := by
  have inv := goodNightInv_loop good nDays
  unfold goodNightRanges
  cases hb : (goodNightLoop good nDays).bestBegun
  · simp only [hb, Bool.false_eq_true, if_false]
    rw [inv.mem_iff]
    constructor
    · exact Or.inl
    · rintro (h | ⟨_, hlt, hall, _⟩)
      · exact h
      · exfalso
        rcases inv.stopped hb with h0 | hprev
        · omega
        · have := hall (nDays - 1) (by omega) (by omega)
          rw [hprev] at this
          exact absurd this (by decide)
  · simp only [hb, if_true, List.mem_append, List.mem_singleton, Prod.mk.injEq]
    rw [inv.mem_iff]
    have hrun := inv.running hb
    constructor
    · rintro (h | ⟨rfl, rfl⟩)
      · exact Or.inl h
      · exact Or.inr ⟨rfl, hrun⟩
    · rintro (h | ⟨h0, h1⟩)
      · exact Or.inl h
      · exact Or.inr ⟨h1.start_unique hrun, h0⟩

lemma goodNightRanges_sorted (good : ℕ → Bool) (nDays : ℕ) :
    (goodNightRanges good nDays).Pairwise (fun p q => p.1 < q.1) := by
  have inv := goodNightInv_loop good nDays
  unfold goodNightRanges
  cases hb : (goodNightLoop good nDays).bestBegun
  · simpa [hb] using inv.sorted
  · simp only [hb, if_true]
    rw [List.pairwise_append]
    refine ⟨inv.sorted, List.pairwise_singleton _ _, ?_⟩
    intro p hp q hq
    rw [List.mem_singleton] at hq
    subst hq
    obtain ⟨h1, h2, h3⟩ := (inv.mem_iff p.1 p.2).mp hp
    have hrun := inv.running hb
    show p.1 < (goodNightLoop good nDays).selday
    by_contra hge
    have : (goodNightLoop good nDays).selday ≤ p.2 := by have := h1.1; omega
    have := hrun.2.1 p.2 this h2
    rw [h3] at this
    exact absurd this (by decide)

/-- C5: for every sequence of per-day good-night flags, the Good-Nights scan emits exactly
one range per maximal run of consecutive good days, in increasing day order: a run of good
days `s..e−1` followed by a non-good day `e` is emitted as `(s, e)` with `s < e`, a run that
reaches the last day of the year is emitted as `(s, 0)`, and no other pair is emitted. -/
theorem goodNightRanges_maximal_runs (good : ℕ → Bool) (nDays : ℕ) :
    (∀ s e, (s, e) ∈ goodNightRanges good nDays ↔
        (s < e ∧ e < nDays ∧ (∀ d, s ≤ d → d < e → good d = true) ∧ good e = false
            ∧ (s = 0 ∨ good (s - 1) = false))
          ∨ (e = 0 ∧ s < nDays ∧ (∀ d, s ≤ d → d < nDays → good d = true)
            ∧ (s = 0 ∨ good (s - 1) = false)))
      ∧ (goodNightRanges good nDays).Pairwise (fun p q => p.1 < q.1) := by
  refine ⟨fun s e => ?_, goodNightRanges_sorted good nDays⟩
  rw [mem_goodNightRanges]
  unfold GoodRun
  constructor
  · rintro (⟨⟨h1, h2, h3⟩, h4, h5⟩ | ⟨h0, h1, h2, h3⟩)
    · exact Or.inl ⟨h1, h4, h2, h5, h3⟩
    · exact Or.inr ⟨h0, h1, h2, h3⟩
  · rintro (⟨h1, h4, h2, h5, h3⟩ | ⟨h0, h1, h2, h3⟩)
    · exact Or.inl ⟨⟨h1, h2, h3⟩, h4, h5⟩
    · exact Or.inr ⟨h0, h1, h2, h3⟩

/-- C4 (as stated, refuted): with the good-night flag true exactly on days 360..365 and 0..5
of a 366-day year the scan emits two ranges, `(0, 6)` and `(360, 0)`, not one wrapped range. -/
theorem goodNightRanges_wrap_counterexample :
    goodNightRanges (fun i => decide (i ≤ 5 ∨ 360 ≤ i)) 366 = [(0, 6), (360, 0)] := by
  decide!

/-- C4 (amended): when the good nights form a run from day 0 closed by a day `e` that is not
good, and a run from a day `s` to the last day of the year, the scan reports them as the two
separate ranges `(0, e)` and `(s, 0)`; the wrapped range `(s, e)` is not reported, and no
reported range wraps: each one ends at the end of the year (`0`) or after its start. -/
theorem goodNightRanges_year_boundary (good : ℕ → Bool) (nDays s e : ℕ)
    (hfirst : ∀ d, d < e → good d = true) (he0 : 0 < e) (he : e < nDays)
    (hbad : good e = false)
    (hs : s < nDays) (hlast : ∀ d, s ≤ d → d < nDays → good d = true)
    (hleft : good (s - 1) = false) :
    (0, e) ∈ goodNightRanges good nDays
      ∧ (s, 0) ∈ goodNightRanges good nDays
      ∧ (s, e) ∉ goodNightRanges good nDays
      ∧ ∀ p ∈ goodNightRanges good nDays, p.2 = 0 ∨ p.1 < p.2 := by
  have hes : e < s := by
    by_contra hn
    have := hlast e (by omega) he
    rw [hbad] at this
    exact absurd this (by decide)
  refine ⟨?_, ?_, ?_, ?_⟩
  · rw [mem_goodNightRanges]
    exact Or.inl ⟨⟨he0, fun d _ hd => hfirst d hd, Or.inl rfl⟩, he, hbad⟩
  · rw [mem_goodNightRanges]
    exact Or.inr ⟨rfl, hs, hlast, Or.inr hleft⟩
  · rw [mem_goodNightRanges]
    rintro (⟨⟨h1, _⟩, _⟩ | ⟨h0, _⟩) <;> omega
  · rintro ⟨a, b⟩ hp
    rcases (mem_goodNightRanges good nDays a b).mp hp with ⟨⟨h1, _⟩, _⟩ | ⟨h0, _⟩
    · exact Or.inr h1
    · exact Or.inl h0

/-- Witness for C4 (amended): the flags true exactly on days 360..365 and 0..5 of a 366-day
year, with `e = 6` and `s = 360`. -/
theorem goodNightRanges_year_boundary_witness :
    (0, 6) ∈ goodNightRanges (fun i => decide (i ≤ 5 ∨ 360 ≤ i)) 366
      ∧ (360, 0) ∈ goodNightRanges (fun i => decide (i ≤ 5 ∨ 360 ≤ i)) 366
      ∧ (360, 6) ∉ goodNightRanges (fun i => decide (i ≤ 5 ∨ 360 ≤ i)) 366
      ∧ ∀ p ∈ goodNightRanges (fun i => decide (i ≤ 5 ∨ 360 ≤ i)) 366, p.2 = 0 ∨ p.1 < p.2 :=
  goodNightRanges_year_boundary (fun i => decide (i ≤ 5 ∨ 360 ≤ i)) 366 360 6
    (fun d hd => decide_eq_true (Or.inl (by omega))) (by decide) (by decide) (by decide)
    (by decide) (fun d hd _ => decide_eq_true (Or.inr hd)) (by decide)

/-! ## `calculateAcroCos` on the two concrete tables -/

/-- C7 (code evaluated at the failing input): in the table whose only valid day is day 10,
where the acronychal differences are 22 h and the cosmical ones 0 h, `calculateAcroCos`
hands back `acroRise = 1` and `acroSet = 1` (and returns 3), and `draw` shows day 1 as the
acronychal rise and set, although day 1 is not a valid day and no valid day has an acronychal
difference within 0.083 h: the start value `-1` of a day that was never set is multiplied
by `-1`. -/
theorem calculateAcroCos_spurious_day_one :
    calculateAcroCos (loneDayTable ℚ) = ⟨3, 1, 1, 10, 10⟩
      ∧ lineAcroCos (calculateAcroCos (loneDayTable ℚ))
          = ⟨some (some 1, some 1), some (some 10, some 10)⟩
      ∧ acroCosValid (loneDayTable ℚ) 1 = false
      ∧ (∀ i, i < 366 → acroCosValid (loneDayTable ℚ) i = true →
          ¬ |hourDiffAcroRise (loneDayTable ℚ) i| ≤ 0.083
            ∧ ¬ |hourDiffAcroSet (loneDayTable ℚ) i| ≤ 0.083) := by
  refine ⟨by decide!, by decide!, by decide!, ?_⟩
  decide!

/-- C8 (code evaluated at the failing input): for a circumpolar star no day is valid, and
`calculateAcroCos` returns 0 while all four output days are 1, so both bits of the returned
value are clear although `acroRise > 0` and `cosRise > 0`. -/
theorem calculateAcroCos_circumpolar_star :
    calculateAcroCos (circumpolarStarTable ℚ) = ⟨0, 1, 1, 1, 1⟩ := by
  decide!

/-! ## The hour angle as a function of the altitude -/

lemma arccos_antitone {x y : ℝ} (h : x ≤ y) : Real.arccos y ≤ Real.arccos x := by
  unfold Real.arccos
  linarith [Real.monotone_arcsin h]

lemma cos_mul_cos_pos {lat dec : ℝ} (hlat : -(Real.pi / 2) < lat ∧ lat < Real.pi / 2)
    (hdec : -(Real.pi / 2) < dec ∧ dec < Real.pi / 2) : 0 < Real.cos lat * Real.cos dec :=
  mul_pos (Real.cos_pos_of_mem_Ioo ⟨hlat.1, hlat.2⟩) (Real.cos_pos_of_mem_Ioo ⟨hdec.1, hdec.2⟩)

/-- The sine of the culmination altitude `π/2 − |lat − dec|`. -/
lemma sin_culmination (lat dec : ℝ) :
    Real.sin (Real.pi / 2 - |lat - dec|)
      = Real.cos lat * Real.cos dec + Real.sin lat * Real.sin dec := by
  rw [Real.sin_pi_div_two_sub, Real.cos_abs, Real.cos_sub]

lemma calculateHourAngle_antitone {lat dec a1 a2 : ℝ}
    (hlat : -(Real.pi / 2) < lat ∧ lat < Real.pi / 2)
    (hdec : -(Real.pi / 2) < dec ∧ dec < Real.pi / 2)
    (h1 : -(Real.pi / 2) ≤ a1) (h12 : a1 ≤ a2) (h2 : a2 ≤ Real.pi / 2)
    (hs1 : calculateHourAngle lat a1 dec ≠ hourAngleSentinel)
    (hs2 : calculateHourAngle lat a2 dec ≠ hourAngleSentinel) :
    calculateHourAngle lat a2 dec ≤ calculateHourAngle lat a1 dec := by
  have hD := cos_mul_cos_pos hlat hdec
  have hn1 := mt (calculateHourAngle_eq_sentinel_iff lat a1 dec).mpr hs1
  have hn2 := mt (calculateHourAngle_eq_sentinel_iff lat a2 dec).mpr hs2
  rw [calculateHourAngle_of_not_gt hn1, calculateHourAngle_of_not_gt hn2]
  apply mul_le_mul_of_nonneg_left _ Rad2Hr_pos.le
  apply arccos_antitone
  apply div_le_div_of_nonneg_right _ hD.le
  have := Real.sin_le_sin_of_le_of_le_pi_div_two h1 h2 h12
  linarith

lemma calculateHourAngle_culmination {lat dec : ℝ}
    (hlat : -(Real.pi / 2) < lat ∧ lat < Real.pi / 2)
    (hdec : -(Real.pi / 2) < dec ∧ dec < Real.pi / 2) :
    calculateHourAngle lat (Real.pi / 2 - |lat - dec|) dec = 0 := by
  have hD := cos_mul_cos_pos hlat hdec
  have hnum : Real.sin (Real.pi / 2 - |lat - dec|) - Real.sin lat * Real.sin dec
      = Real.cos lat * Real.cos dec := by
    rw [sin_culmination]; ring
  have hn : ¬ |Real.sin (Real.pi / 2 - |lat - dec|) - Real.sin lat * Real.sin dec|
      > |Real.cos lat * Real.cos dec| := by
    rw [hnum]; exact lt_irrefl _
  rw [calculateHourAngle_of_not_gt hn, hnum, div_self hD.ne', Real.arccos_one, mul_zero]

lemma calculateHourAngle_above_culmination {lat dec a : ℝ}
    (hlat : -(Real.pi / 2) < lat ∧ lat < Real.pi / 2)
    (hdec : -(Real.pi / 2) < dec ∧ dec < Real.pi / 2)
    (h1 : Real.pi / 2 - |lat - dec| < a) (h2 : a ≤ Real.pi / 2) :
    calculateHourAngle lat a dec = hourAngleSentinel := by
  have hD := cos_mul_cos_pos hlat hdec
  have habs : |lat - dec| < Real.pi := by
    rw [abs_lt]; constructor <;> linarith [hlat.1, hlat.2, hdec.1, hdec.2]
  have hsin : Real.sin (Real.pi / 2 - |lat - dec|) < Real.sin a :=
    Real.sin_lt_sin_of_lt_of_le_pi_div_two (by linarith) h2 h1
  rw [sin_culmination] at hsin
  apply calculateHourAngle_of_gt
  rw [abs_of_pos hD, abs_of_pos (by linarith)]
  linarith

/-- C11: for latitude and declination in `(−π/2, π/2)`, `calculateHourAngle` is non-increasing
in the altitude over the altitudes of `[−π/2, π/2]` at which it does not return the sentinel,
it returns 0 at the culmination altitude `π/2 − |latitude − declination|`, and it returns the
sentinel for every altitude strictly above the culmination altitude and at most `π/2`. -/
theorem calculateHourAngle_altitude_profile (latitude declination : ℝ)
    (hlat : -(Real.pi / 2) < latitude ∧ latitude < Real.pi / 2)
    (hdec : -(Real.pi / 2) < declination ∧ declination < Real.pi / 2) :
    (∀ a1 a2 : ℝ, -(Real.pi / 2) ≤ a1 → a1 ≤ a2 → a2 ≤ Real.pi / 2 →
        calculateHourAngle latitude a1 declination ≠ -0.5 / 86400 →
        calculateHourAngle latitude a2 declination ≠ -0.5 / 86400 →
        calculateHourAngle latitude a2 declination ≤ calculateHourAngle latitude a1 declination)
      ∧ calculateHourAngle latitude (Real.pi / 2 - |latitude - declination|) declination = 0
      ∧ (∀ a : ℝ, Real.pi / 2 - |latitude - declination| < a → a ≤ Real.pi / 2 →
          calculateHourAngle latitude a declination = -0.5 / 86400) :=
  ⟨fun _ _ h1 h12 h2 hs1 hs2 => calculateHourAngle_antitone hlat hdec h1 h12 h2 hs1 hs2,
    calculateHourAngle_culmination hlat hdec,
    fun _ h1 h2 => calculateHourAngle_above_culmination hlat hdec h1 h2⟩

/-- Witness for C11 at latitude 0 and declination 0, where the culmination altitude is `π/2`:
the hour angle is 0 there and does not increase from altitude 0 to altitude `π/2`. -/
theorem calculateHourAngle_altitude_profile_witness :
    calculateHourAngle 0 (Real.pi / 2 - |(0 : ℝ) - 0|) 0 = 0
      ∧ calculateHourAngle 0 (Real.pi / 2) 0 ≤ calculateHourAngle 0 0 0 := by
  have hz : -(Real.pi / 2) < (0 : ℝ) ∧ (0 : ℝ) < Real.pi / 2 :=
    ⟨by linarith [Real.pi_pos], by linarith [Real.pi_pos]⟩
  obtain ⟨hmono, hculm, _⟩ := calculateHourAngle_altitude_profile 0 0 hz hz
  refine ⟨hculm, hmono 0 (Real.pi / 2) (by linarith [Real.pi_pos]) (by linarith [Real.pi_pos])
    le_rfl ?_ ?_⟩
  · have h := @calculateHourAngle_nonneg_of_not_gt 0 0 0 (by simp)
    intro he
    rw [he] at h
    norm_num at h
  · have h := @calculateHourAngle_nonneg_of_not_gt 0 (Real.pi / 2) 0 (by simp)
    intro he
    rw [he] at h
    norm_num at h

/-! ## Culmination altitude -/

lemma Rad2Deg_mul_halfpi : |(Rad2Deg : ℝ) * halfpi - 90| < 2e-6 := by
  unfold Rad2Deg halfpi
  rw [abs_lt]
  constructor <;> norm_num

/-- C19 (as stated, refuted): for a star with latitude = declination = 0 and a refracted
horizon altitude of −0.01 rad, the culmination altitude reported is
`Rad2Deg·(halfpi + 0.01) > 90.5`, not `90° − |0 − 0| = 90°`. -/
theorem starCulmination_counterexample :
    ∃ v : ℝ, starCulmination (0 : ℝ) 0 (-0.01) = some v ∧ 90.5 < v ∧ v ≠ 90 - |(0 : ℝ) - 0| := by
  refine ⟨Rad2Deg * (halfpi - |(0 : ℝ) - 0| - -0.01), ?_, ?_, ?_⟩
  · unfold starCulmination
    rw [if_pos]
    unfold halfpi
    norm_num
  · unfold Rad2Deg halfpi
    norm_num
  · unfold Rad2Deg halfpi
    norm_num

/-- C19 (amended): for a fixed object the culmination altitude of today's report is
`Rad2Deg·(halfpi − |latitude − declination| − refractedHorizonAlt)` degrees, reported when
`|latitude − declination| < halfpi − refractedHorizonAlt`: it is `90° − |latitude − declination|`
(in degrees, `Rad2Deg·halfpi` being 90 to within `2e-6`) lowered by the refracted horizon
altitude. -/
theorem starCulmination_value (mylat selDec refractedHorizonAlt : ℝ)
    (h : |mylat - selDec| < halfpi - refractedHorizonAlt) :
    starCulmination mylat selDec refractedHorizonAlt
        = some (Rad2Deg * halfpi - Rad2Deg * |mylat - selDec| - Rad2Deg * refractedHorizonAlt)
      ∧ |(Rad2Deg : ℝ) * halfpi - 90| < 2e-6 := by
  refine ⟨?_, Rad2Deg_mul_halfpi⟩
  unfold starCulmination
  rw [if_pos h]
  congr 1
  ring

/-- Witness for C19 (amended) at latitude 1 rad, declination 0.5 rad, horizon altitude 0. -/
theorem starCulmination_value_witness :
    starCulmination (1 : ℝ) 0.5 0
        = some (Rad2Deg * halfpi - Rad2Deg * |(1 : ℝ) - 0.5| - Rad2Deg * 0)
      ∧ |(Rad2Deg : ℝ) * halfpi - 90| < 2e-6 :=
  starCulmination_value 1 0.5 0 (by
    have : |(1 : ℝ) - 0.5| = 0.5 := by rw [abs_of_pos] <;> norm_num
    rw [this]; unfold halfpi; norm_num)

/-! ## The length of the year -/

lemma isLeapYear_iff (y : ℕ) :
    isLeapYear y = true ↔ (y % 4 = 0 ∧ y % 100 ≠ 0) ∨ y % 400 = 0 := by
  unfold isLeapYear
  simp

lemma daysBeforeYear_succ (y : ℕ) (hy : 1 ≤ y) :
    daysBeforeYear (y + 1) = daysBeforeYear y + (if isLeapYear y = true then 366 else 365) := by
  have hD1 : daysBeforeYear (y + 1) = 365 * y + y / 4 - y / 100 + y / 400 := rfl
  have hD : daysBeforeYear y = 365 * (y - 1) + (y - 1) / 4 - (y - 1) / 100 + (y - 1) / 400 := rfl
  rw [hD1, hD]
  by_cases hl : isLeapYear y = true
  · rw [if_pos hl]
    rw [isLeapYear_iff] at hl
    omega
  · rw [if_neg hl]
    rw [isLeapYear_iff] at hl
    omega

lemma daysBeforeYear_le_succ (y : ℕ) : daysBeforeYear y ≤ daysBeforeYear (y + 1) := by
  rcases Nat.eq_zero_or_pos y with rfl | hy
  · decide
  · rw [daysBeforeYear_succ y hy]
    exact Nat.le_add_right _ _

lemma daysBeforeYear_mono : Monotone daysBeforeYear :=
  monotone_nat_of_le_succ daysBeforeYear_le_succ

lemma daysBeforeYear_lower (y : ℕ) : 365 * (y - 1) ≤ daysBeforeYear y := by
  unfold daysBeforeYear
  omega

/-- The year of a day is the year `y` when the day is not before 1 January of `y` and is
before 1 January of `y + 1`. -/
lemma yearOfDay_eq {y d : ℕ} (hy : 1 ≤ y) (h1 : daysBeforeYear y ≤ d)
    (h2 : d < daysBeforeYear (y + 1)) : yearOfDay d = y := by
  unfold yearOfDay
  rw [Nat.findGreatest_eq_iff]
  refine ⟨?_, fun _ => h1, ?_⟩
  · have := daysBeforeYear_lower y
    have h3 : 365 * (y - 1) ≤ d := le_trans this h1
    have : y - 1 ≤ d / 365 := (Nat.le_div_iff_mul_le (by norm_num)).mpr (by omega)
    omega
  · intro n hn _ hle
    have : daysBeforeYear (y + 1) ≤ daysBeforeYear n := daysBeforeYear_mono hn
    omega

lemma yearOfDay_spec (d : ℕ) : 1 ≤ yearOfDay d ∧ daysBeforeYear (yearOfDay d) ≤ d := by
  have h1 : daysBeforeYear 1 ≤ d := by
    have : daysBeforeYear 1 = 0 := by decide
    omega
  have hb : 1 ≤ d / 365 + 1 := by omega
  exact ⟨Nat.le_findGreatest hb h1,
    Nat.findGreatest_spec (P := fun y => daysBeforeYear y ≤ d) hb h1⟩

/-- The year found 365 days after 1 January of `y` is `y` exactly in a leap year. -/
lemma yearOfDay_add_365 (y : ℕ) (hy : 1 ≤ y) :
    yearOfDay (daysBeforeYear y + 365) = if isLeapYear y = true then y else y + 1 := by
  have h1 := daysBeforeYear_succ y hy
  have h2 := daysBeforeYear_succ (y + 1) (by omega)
  split_ifs with hl
  · rw [if_pos hl] at h1
    exact yearOfDay_eq hy (by omega) (by omega)
  · rw [if_neg hl] at h1
    apply yearOfDay_eq (by omega) (by omega)
    split_ifs at h2 <;> omega

section CalendarLemmas

variable {α : Type} [LinearOrderedField α] [FloorRing α]

lemma getYearFromJulianDay_jan1_add_365 (y : ℕ) :
    getYearFromJulianDay ((getJDFromDateJan1 y : α) + 365)
      = yearOfDay (daysBeforeYear y + 365) := by
  unfold getYearFromJulianDay getJDFromDateJan1
  have : (1721425.5 : α) + (daysBeforeYear y : α) + 365 + 1 / 2
      = (((1721426 + daysBeforeYear y + 365 : ℕ) : ℤ) : α) := by
    push_cast
    norm_num
    ring
  rw [this, Int.floor_intCast]
  have hd : (((1721426 + daysBeforeYear y + 365 : ℕ) : ℤ) - 1721426).toNat
      = daysBeforeYear y + 365 := by omega
  rw [hd]

lemma updateSunData_nDays_eq (myJD : α) :
    updateSunData_nDays myJD
      = if isLeapYear (getYearFromJulianDay myJD) = true then 366 else 365 := by
  have hy : 1 ≤ getYearFromJulianDay myJD := (yearOfDay_spec _).1
  unfold updateSunData_nDays
  simp only []
  rw [getYearFromJulianDay_jan1_add_365, yearOfDay_add_365 _ hy]
  split_ifs with h1 h2 h2
  · rfl
  · exact absurd rfl h2
  · omega
  · rfl

end CalendarLemmas

/-- C18: `updateSunData` sets `nDays` to 366 when the current calendar year is a leap year and
to 365 otherwise; so `nDays = 366` in the year 2024 and `nDays = 365` in the year 2023. The
current Julian Day is taken from 1 January 1583 on, where the Gregorian calendar of the model
is in force. -/
theorem updateSunData_nDays_leap (myJD : ℝ) (_hGregorian : 2299238.5 ≤ myJD) :
    updateSunData_nDays myJD
        = (if isLeapYear (getYearFromJulianDay myJD) = true then 366 else 365)
      ∧ (getYearFromJulianDay myJD = 2024 → updateSunData_nDays myJD = 366)
      ∧ (getYearFromJulianDay myJD = 2023 → updateSunData_nDays myJD = 365) := by
  refine ⟨updateSunData_nDays_eq myJD, ?_, ?_⟩
  · intro h
    rw [updateSunData_nDays_eq, h]
    decide
  · intro h
    rw [updateSunData_nDays_eq, h]
    decide

lemma getYearFromJulianDay_2024 : getYearFromJulianDay (2460311 : ℝ) = 2024 := by
  unfold getYearFromJulianDay
  have hfl : ⌊(2460311 : ℝ) + 1 / 2⌋ = 2460311 := by
    rw [Int.floor_eq_iff]; norm_num
  rw [hfl]
  decide!

lemma getYearFromJulianDay_2023 : getYearFromJulianDay (2459946 : ℝ) = 2023 := by
  unfold getYearFromJulianDay
  have hfl : ⌊(2459946 : ℝ) + 1 / 2⌋ = 2459946 := by
    rw [Int.floor_eq_iff]; norm_num
  rw [hfl]
  decide!

/-- Witness for C18 at noon of 1 January 2024 (Julian Day 2460311) and of 1 January 2023
(Julian Day 2459946). -/
theorem updateSunData_nDays_leap_witness :
    (getYearFromJulianDay (2460311 : ℝ) = 2024 ∧ updateSunData_nDays (2460311 : ℝ) = 366)
      ∧ (getYearFromJulianDay (2459946 : ℝ) = 2023 ∧ updateSunData_nDays (2459946 : ℝ) = 365) :=
  ⟨⟨getYearFromJulianDay_2024,
      (updateSunData_nDays_leap 2460311 (by norm_num)).2.1 getYearFromJulianDay_2024⟩,
    ⟨getYearFromJulianDay_2023,
      (updateSunData_nDays_leap 2459946 (by norm_num)).2.2 getYearFromJulianDay_2023⟩⟩

/-! ## The angular separation -/

section PolarLemmas

variable {α : Type} [LinearOrderedField α] [FloorRing α]

lemma CheckRise_of_sentinel (tbl : YearlyTable α) (alti : α) (day : ℕ)
    (h : tbl.sunSidT 0 day < 0) : CheckRise tbl alti day = false := by
  unfold CheckRise
  rw [if_pos (Or.inl h)]

/-- On a day whose twilight sidereal time `sunSidT[0]` is negative, `twiGood` is the
polar-night test combined with the test on the declination of the object. -/
lemma twiGood_of_sentinel (tbl : YearlyTable α) (mylat alti : α) (i : ℕ)
    (h : tbl.sunSidT 0 i < 0) :
    twiGood tbl mylat alti i = true
      ↔ halfpi ≤ |tbl.sunDec i - mylat| ∧ |tbl.objectDec i - mylat| < halfpi := by
  unfold twiGood
  rw [CheckRise_of_sentinel tbl alti i h]
  simp [h]

end PolarLemmas

lemma updateSunH_sunSidT_of_not_pos (mylat twilightAltRad refractedHorizonAlt : ℝ)
    (nDays : ℕ) (tbl : YearlyTable ℝ) {i : ℕ} (hi : i < nDays)
    (hsun : calculateHourAngle mylat twilightAltRad (tbl.sunDec i) ≤ 0) :
    (updateSunH mylat twilightAltRad refractedHorizonAlt nDays tbl).sunSidT 0 i = -1000
      ∧ (updateSunH mylat twilightAltRad refractedHorizonAlt nDays tbl).sunSidT 1 i
        = -1000 := by
  have hn : ¬ calculateHourAngle mylat twilightAltRad (tbl.sunDec i) > 0 := not_lt.mpr hsun
  constructor
  · show (if i < nDays then _ else _) = (-1000 : ℝ)
    rw [if_pos hi]
    simp only [if_true, if_neg hn]
  · show (if i < nDays then _ else _) = (-1000 : ℝ)
    rw [if_pos hi]
    simp only [if_neg hn, one_ne_zero, if_false, if_true]

/-- For `0 < a, b < π/2` with `a + b > π/2`, a source of declination `-b` never reaches
the altitude 0 at the latitude `a`. -/
lemma calculateHourAngle_sentinel_of_sum {a b : ℝ} (a0 : 0 < a) (a1 : a < Real.pi / 2)
    (b0 : 0 < b) (b1 : b < Real.pi / 2) (hab : Real.pi / 2 < a + b) :
    calculateHourAngle a 0 (-b) = hourAngleSentinel := by
  have hsum : Real.cos (a + b) < 0 :=
    Real.cos_neg_of_pi_div_two_lt_of_lt hab (by linarith [Real.pi_pos])
  rw [Real.cos_add] at hsum
  have ca : 0 < Real.cos a := Real.cos_pos_of_mem_Ioo ⟨by linarith, a1⟩
  have cb : 0 < Real.cos b := Real.cos_pos_of_mem_Ioo ⟨by linarith, b1⟩
  have h2 : 0 < Real.cos a * Real.cos b := mul_pos ca cb
  apply calculateHourAngle_of_gt
  rw [Real.sin_zero, zero_sub, abs_neg, Real.sin_neg, Real.cos_neg, abs_of_pos h2, mul_neg,
    abs_neg, abs_of_pos (by linarith)]
  linarith

/-- At latitude 80° a Sun of declination −20° never reaches the altitude 0. -/
lemma sentinel_80_neg20 :
    calculateHourAngle (80 / Rad2Deg) 0 (-(20 / Rad2Deg)) = hourAngleSentinel := by
  have h3 := Real.pi_gt_three
  have h4 := Real.pi_le_four
  have h31 := Real.pi_lt_d2
  apply calculateHourAngle_sentinel_of_sum
  · rw [Rad2Deg_eq]; norm_num
  · rw [Rad2Deg_eq]; norm_num; linarith
  · rw [Rad2Deg_eq]; norm_num
  · rw [Rad2Deg_eq]; norm_num; linarith
  · rw [Rad2Deg_eq]; norm_num; linarith

/-- Claim C27: on a day `i < nDays` for which the Sun does not reach the twilight altitude
(the hour angle computed by `updateSunH` is not positive), `updateSunH` stores the sentinel
`-1000` in both twilight sidereal times, and the Good-Nights scan counts the night as good
if and only if `|sunDec - latitude| ≥ halfpi` and `|objectDec - latitude| < halfpi`; when
`|sunDec - latitude| < halfpi` the night is not good. -/
theorem twiGood_polar_day_night (tbl : YearlyTable ℝ)
    (mylat alti twilightAltRad refractedHorizonAlt : ℝ) (nDays i : ℕ) (hi : i < nDays)
    (hsun : calculateHourAngle mylat twilightAltRad (tbl.sunDec i) ≤ 0) :
    (updateSunH mylat twilightAltRad refractedHorizonAlt nDays tbl).sunSidT 0 i = -1000
      ∧ (updateSunH mylat twilightAltRad refractedHorizonAlt nDays tbl).sunSidT 1 i = -1000
      ∧ (twiGood (updateSunH mylat twilightAltRad refractedHorizonAlt nDays tbl) mylat alti i
            = true
          ↔ halfpi ≤ |tbl.sunDec i - mylat| ∧ |tbl.objectDec i - mylat| < halfpi)
      ∧ (|tbl.sunDec i - mylat| < halfpi →
          twiGood (updateSunH mylat twilightAltRad refractedHorizonAlt nDays tbl) mylat alti i
            = false) := by
  obtain ⟨h0, h1⟩ := updateSunH_sunSidT_of_not_pos mylat twilightAltRad refractedHorizonAlt
    nDays tbl hi hsun
  have hneg : (updateSunH mylat twilightAltRad refractedHorizonAlt nDays tbl).sunSidT 0 i < 0 := by
    rw [h0]; norm_num
  have hiff := twiGood_of_sentinel
    (updateSunH mylat twilightAltRad refractedHorizonAlt nDays tbl) mylat alti i hneg
  refine ⟨h0, h1, hiff, ?_⟩
  intro hlt
  cases hg : twiGood (updateSunH mylat twilightAltRad refractedHorizonAlt nDays tbl) mylat alti i
  · rfl
  · exact absurd (hiff.mp hg).1 (not_le.mpr hlt)

/-- Witness for C27: latitude 80°, twilight altitude 0, a Sun of declination −20° and an
object of declination 80° on every day of a 365-day table. -/
theorem twiGood_polar_day_night_witness :
    (updateSunH (80 / Rad2Deg) 0 0 365
        { initialTable ℝ with sunDec := fun _ => -(20 / Rad2Deg),
                              objectDec := fun _ => 80 / Rad2Deg }).sunSidT 0 100 = -1000
      ∧ (updateSunH (80 / Rad2Deg) 0 0 365
        { initialTable ℝ with sunDec := fun _ => -(20 / Rad2Deg),
                              objectDec := fun _ => 80 / Rad2Deg }).sunSidT 1 100 = -1000
      ∧ (twiGood (updateSunH (80 / Rad2Deg) 0 0 365
            { initialTable ℝ with sunDec := fun _ => -(20 / Rad2Deg),
                                  objectDec := fun _ => 80 / Rad2Deg }) (80 / Rad2Deg) 0 100
            = true
          ↔ halfpi ≤ |(-(20 / Rad2Deg) : ℝ) - 80 / Rad2Deg|
            ∧ |(80 / Rad2Deg : ℝ) - 80 / Rad2Deg| < halfpi)
      ∧ (|(-(20 / Rad2Deg) : ℝ) - 80 / Rad2Deg| < halfpi →
          twiGood (updateSunH (80 / Rad2Deg) 0 0 365
            { initialTable ℝ with sunDec := fun _ => -(20 / Rad2Deg),
                                  objectDec := fun _ => 80 / Rad2Deg }) (80 / Rad2Deg) 0 100
            = false) :=
  twiGood_polar_day_night
    { initialTable ℝ with sunDec := fun _ => -(20 / Rad2Deg),
                          objectDec := fun _ => 80 / Rad2Deg }
    (80 / Rad2Deg) 0 0 0 365 100 (by decide)
    ((le_of_eq sentinel_80_neg20).trans hourAngleSentinel_neg.le)

/-! ## The line of the Good-Nights scan -/

/-- After the days `0, …, n-1` the flag `atLeastOne` is set exactly when one of them was
good, and then a range is open or a range was emitted. -/
lemma goodNightLoop_atLeastOne (good : ℕ → Bool) (n : ℕ) :
    ((goodNightLoop good n).atLeastOne = true ↔ ∃ i, i < n ∧ good i = true)
      ∧ ((goodNightLoop good n).atLeastOne = true →
          (goodNightLoop good n).bestBegun = true ∨ (goodNightLoop good n).dateRange ≠ []) := by
  induction n with
  | zero =>
    have h0 : (goodNightLoop good 0).atLeastOne = false := rfl
    rw [h0]
    refine ⟨⟨fun h => absurd h (by decide), ?_⟩, fun h => absurd h (by decide)⟩
    rintro ⟨i, hi, _⟩
    exact absurd hi (Nat.not_lt_zero i)
  | succ n ih =>
    obtain ⟨ih1, ih2⟩ := ih
    have inv := goodNightInv_loop good n
    rw [goodNightLoop_succ]
    generalize goodNightLoop good n = st at ih1 ih2 inv
    have hex : (∃ i, i < n + 1 ∧ good i = true) ↔ (∃ i, i < n ∧ good i = true) ∨ good n = true := by
      constructor
      · rintro ⟨i, hi, hg⟩
        rcases Nat.lt_succ_iff_lt_or_eq.mp hi with h | h
        · exact Or.inl ⟨i, h, hg⟩
        · exact Or.inr (h ▸ hg)
      · rintro (⟨i, hi, hg⟩ | hg)
        · exact ⟨i, by omega, hg⟩
        · exact ⟨n, by omega, hg⟩
    rw [hex, ← ih1]
    cases hg : good n <;> cases hb : st.bestBegun
    · have hst : goodNightStep good st n = st := by simp [goodNightStep, hg, hb]
      rw [hst]
      exact ⟨by simp, ih2⟩
    · have hlt : st.selday < n := (inv.running hb).1
      have hst : goodNightStep good st n
          = { st with selday2 := n, bestBegun := false,
                      dateRange := st.dateRange ++ [(st.selday, n)] } := by
        simp [goodNightStep, hg, hb, hlt]
      rw [hst]
      refine ⟨by simp, fun _ => Or.inr ?_⟩
      simp
    · have hst : goodNightStep good st n
          = { st with selday := n, bestBegun := true, atLeastOne := true } := by
        simp [goodNightStep, hg, hb]
      rw [hst]
      exact ⟨by simp, fun _ => Or.inl rfl⟩
    · have hst : goodNightStep good st n = st := by simp [goodNightStep, hg, hb]
      rw [hst]
      refine ⟨?_, ih2⟩
      constructor
      · exact Or.inl
      · intro _
        by_contra hna
        -- a run is open, so a day was good and the flag is set
        have hrun := inv.running hb
        exact hna (ih1.mpr ⟨st.selday, hrun.1, hrun.2.1 st.selday le_rfl hrun.1⟩)

lemma goodNightRanges_ne_nil (good : ℕ → Bool) (nDays : ℕ)
    (h : ∃ i, i < nDays ∧ good i = true) : goodNightRanges good nDays ≠ [] := by
  obtain ⟨h1, h2⟩ := goodNightLoop_atLeastOne good nDays
  have hflag := h1.mpr h
  unfold goodNightRanges
  cases hb : (goodNightLoop good nDays).bestBegun
  · simp only [hb, Bool.false_eq_true, if_false]
    rcases h2 hflag with h | h
    · rw [hb] at h; exact absurd h (by decide)
    · exact h
  · simp [hb]

lemma goodNightLoop_all_good (good : ℕ → Bool) (n : ℕ) (hall : ∀ i, i < n + 1 → good i = true) :
    goodNightLoop good (n + 1) = ⟨0, 0, true, true, []⟩ := by
  induction n with
  | zero =>
    have h0 := hall 0 (by omega)
    rw [goodNightLoop_succ]
    show goodNightStep good ⟨0, 0, false, false, []⟩ 0 = _
    simp [goodNightStep, h0]
  | succ n ih =>
    rw [goodNightLoop_succ, ih (fun i hi => hall i (by omega))]
    have h1 := hall (n + 1) (by omega)
    simp [goodNightStep, h1]

/-- Claim C29: for every sequence of per-day flags, if at least one day is good the list
of date ranges is not empty; the line of the scan is never 'Observable during the whole
year'; and when every day of a year of at least one day is good the list is the single
range `(0, 0)`. -/
theorem goodNights_never_whole_year (good : ℕ → Bool) (nDays : ℕ) :
    ((∃ i, i < nDays ∧ good i = true) → goodNightRanges good nDays ≠ [])
      ∧ lineObservableRange good nDays ≠ ObservableRange.wholeYear
      ∧ (0 < nDays → (∀ i, i < nDays → good i = true) →
          goodNightRanges good nDays = [(0, 0)]
            ∧ lineObservableRange good nDays = ObservableRange.aboveHoriz [(0, 0)]) := by
  refine ⟨goodNightRanges_ne_nil good nDays, ?_, ?_⟩
  · unfold lineObservableRange
    cases hr : goodNightRanges good nDays with
    | nil =>
      have hflag : (goodNightLoop good nDays).atLeastOne = false := by
        cases hf : (goodNightLoop good nDays).atLeastOne
        · rfl
        · exact absurd hr
            (goodNightRanges_ne_nil good nDays ((goodNightLoop_atLeastOne good nDays).1.mp hf))
      simp [hflag]
    | cons p l => simp
  · intro hpos hall
    obtain ⟨n, rfl⟩ : ∃ n, nDays = n + 1 := ⟨nDays - 1, by omega⟩
    have hr : goodNightRanges good (n + 1) = [(0, 0)] := by
      unfold goodNightRanges
      rw [goodNightLoop_all_good good n hall]
      rfl
    refine ⟨hr, ?_⟩
    unfold lineObservableRange
    rw [hr]
    rfl

/-! ## Today's rise and set of a fixed object -/

/-- At latitude 0 an object of declination 0 has the horizon hour angle `Rad2Hr * (π/2)`,
which is positive. -/
lemma calculateHourAngle_zero : calculateHourAngle 0 0 0 = Rad2Hr * (Real.pi / 2) := by
  unfold calculateHourAngle
  simp

/-- Claim C30: for a fixed object whose horizon hour angle `horizH` is positive, with
`currH` its current hour angle, in the eastern (`LocPos[1] > 0`) and in the western branch
alike: the object is flagged risen exactly when `currH ≤ horizH`, and then
`risingTime + settingTime = 2 horizH`; otherwise `risingTime + settingTime = 24 - 2 horizH`. -/
theorem starRiseSet_times_sum (mylat selDec refractedHorizonAlt LocPos1 LocPos2 : ℝ)
    (hasRisen0 : Bool)
    (hH : 0 < calculateHourAngle mylat refractedHorizonAlt selDec) :
    ((starRiseSet mylat selDec refractedHorizonAlt LocPos1 LocPos2 hasRisen0).hasRisen = true
        ↔ calculateHourAngle mylat (Real.arcsin LocPos2) selDec
            ≤ calculateHourAngle mylat refractedHorizonAlt selDec)
      ∧ (calculateHourAngle mylat (Real.arcsin LocPos2) selDec
            ≤ calculateHourAngle mylat refractedHorizonAlt selDec →
          (starRiseSet mylat selDec refractedHorizonAlt LocPos1 LocPos2 hasRisen0).risingTime
            + (starRiseSet mylat selDec refractedHorizonAlt LocPos1 LocPos2 hasRisen0).settingTime
            = 2 * calculateHourAngle mylat refractedHorizonAlt selDec)
      ∧ (calculateHourAngle mylat refractedHorizonAlt selDec
            < calculateHourAngle mylat (Real.arcsin LocPos2) selDec →
          (starRiseSet mylat selDec refractedHorizonAlt LocPos1 LocPos2 hasRisen0).risingTime
            + (starRiseSet mylat selDec refractedHorizonAlt LocPos1 LocPos2 hasRisen0).settingTime
            = 24 - 2 * calculateHourAngle mylat refractedHorizonAlt selDec) := by
  have hH' : calculateHourAngle mylat refractedHorizonAlt selDec > 0 := hH
  unfold starRiseSet
  simp only [hH', if_true]
  by_cases hE : LocPos1 > 0 <;>
  by_cases hc : calculateHourAngle mylat (Real.arcsin LocPos2) selDec
      > calculateHourAngle mylat refractedHorizonAlt selDec
  all_goals
    first
      | rw [if_pos hE, if_pos hc]
      | rw [if_pos hE, if_neg hc]
      | rw [if_neg hE, if_pos hc]
      | rw [if_neg hE, if_neg hc]
    refine ⟨⟨fun h => ?_, fun h => ?_⟩, fun h => ?_, fun h => ?_⟩
    all_goals
      first
        | rfl
        | exact absurd h Bool.false_ne_true
        | exact not_lt.mp hc
        | exact absurd hc (not_lt.mpr h)
        | exact absurd h hc
        | (show _ + _ = _; ring)

lemma calculateHourAngle_zero_pos : 0 < calculateHourAngle 0 0 0 := by
  rw [calculateHourAngle_zero]
  exact mul_pos Rad2Hr_pos (by linarith [Real.pi_pos])

/-- Witness for C30: an object of declination 0 seen from latitude 0 with the horizon at
altitude 0, on the eastern side and at altitude 0. -/
theorem starRiseSet_times_sum_witness :
    0 < calculateHourAngle 0 0 0
      ∧ (((starRiseSet 0 0 0 1 0 false).hasRisen = true
          ↔ calculateHourAngle 0 (Real.arcsin 0) 0 ≤ calculateHourAngle 0 0 0)
        ∧ (calculateHourAngle 0 (Real.arcsin 0) 0 ≤ calculateHourAngle 0 0 0 →
            (starRiseSet 0 0 0 1 0 false).risingTime + (starRiseSet 0 0 0 1 0 false).settingTime
              = 2 * calculateHourAngle 0 0 0)
        ∧ (calculateHourAngle 0 0 0 < calculateHourAngle 0 (Real.arcsin 0) 0 →
            (starRiseSet 0 0 0 1 0 false).risingTime + (starRiseSet 0 0 0 1 0 false).settingTime
              = 24 - 2 * calculateHourAngle 0 0 0)) :=
  ⟨calculateHourAngle_zero_pos, starRiseSet_times_sum 0 0 0 1 0 false calculateHourAngle_zero_pos⟩

/-! ## The iterations of `calculateSolarSystemEvents` -/

/-- A pass of the rise, set or culmination loop leaves the loop exactly when the new
estimate, in hours, differs from the previous one by less than `JDsec = 1/86400`. -/
lemma eventStep_stopped_iff {α : Type} [LinearOrderedField α] [FloorRing α]
    (tempHAt : α → α) (myJD : α) (i : ℕ) (tempEphH event : α) (j : ℕ) :
    (eventStep tempHAt myJD ⟨i, tempEphH, event, false⟩ j).stopped = true
      ↔ |tempHAt event - tempEphH| < 1 / 86400 := by
  unfold eventStep JDsec
  simp only [Bool.false_eq_true, if_false]
  by_cases h : |tempHAt event - tempEphH| < 1 / 86400
  · rw [if_pos h]
    exact ⟨fun _ => h, fun _ => rfl⟩
  · rw [if_neg h]
    exact ⟨fun hs => absurd hs Bool.false_ne_true, fun hs => absurd hs h⟩

/-- Claim C23 (refuted by the code): the culmination iteration for a body of constant right
ascension 0, with `SidT = 23.95` h, the body on the eastern side, `myJD = 2451545` and the
first guess `MoonCulm = 0.05` h. The first estimate computed in the loop differs from the
guess by less than one second (1/3600 h), yet the loop does not stop there: it updates the
estimate and stops in the next pass (`i = 1`), because the difference in hours is compared
with `JDsec = 1/86400`. -/
theorem culmIteration_not_stopped_within_second :
    |culmTempH fixedRA (479 / 20) 1 (2451545 + 1 / 20 / 24) - 1 / 20| < 1 / 3600
      ∧ (JDsec : ℚ)
          ≤ |culmTempH fixedRA (479 / 20) 1 (2451545 + 1 / 20 / 24) - 1 / 20|
      ∧ culmIteration fixedRA (479 / 20) 1 2451545 (1 / 20)
          = ⟨1, 1 / 20 * TFrac, 2451545 + 1 / 20 * TFrac / 24, true⟩
      ∧ (culmIteration fixedRA (479 / 20) 1 2451545 (1 / 20)).event
          ≠ 2451545 + 1 / 20 / 24 := by
  decide!

/-! ## The Full-Moon search -/

section FullMoonLemmas

variable {α : Type} [LinearOrderedField α]

/-- The secant point of a bracket whose end values do not share a strict sign lies in the
bracket. -/
lemma secant_mem {s1 s2 t1 t2 : α} (hs : s1 ≤ s2) (hsign : t1 * t2 ≤ 0) (h2 : t2 ≠ 0) :
    s1 ≤ (s2 - s1) / (t1 - t2) * t1 + s1 ∧ (s2 - s1) / (t1 - t2) * t1 + s1 ≤ s2 := by
  have hw : 0 ≤ s2 - s1 := sub_nonneg.mpr hs
  have hr : 0 ≤ t1 / (t1 - t2) ∧ t1 / (t1 - t2) ≤ 1 := by
    rcases lt_or_gt_of_ne h2 with hneg | hpos
    · have h1 : 0 ≤ t1 := by
        by_contra hc
        have := mul_pos_of_neg_of_neg (not_le.mp hc) hneg
        linarith
      have hd : 0 < t1 - t2 := by linarith
      exact ⟨div_nonneg h1 hd.le, (div_le_one hd).mpr (by linarith)⟩
    · have h1 : t1 ≤ 0 := by
        by_contra hc
        have := mul_pos (not_le.mp hc) hpos
        linarith
      have hd : t1 - t2 < 0 := by linarith
      exact ⟨div_nonneg_of_nonpos h1 hd.le, (div_le_one_of_neg hd).mpr (by linarith)⟩
  have he : (s2 - s1) / (t1 - t2) * t1 = (s2 - s1) * (t1 / (t1 - t2)) := by
    rw [div_mul_eq_mul_div, mul_div_assoc]
  rw [he]
  constructor
  · linarith [mul_nonneg hw hr.1]
  · have := mul_le_mul_of_nonneg_left hr.2 hw
    linarith

lemma fullMoonStep_inv {eclLon : α → α} {a b : α} {st : FullMoonState α} (j : ℕ)
    (inv : FullMoonInv eclLon a b st) : FullMoonInv eclLon a b (fullMoonStep eclLon st j) := by
  unfold fullMoonStep
  by_cases hstop : st.stopped = true
  · rw [if_pos hstop]
    exact inv
  rw [if_neg hstop]
  obtain ⟨hm1, hm2⟩ := secant_mem inv.ordered inv.sign inv.temp2_ne
  -- the state after the update of the bracket, before the convergence test
  have key : ∀ st1 : FullMoonState α,
      FullMoonInv eclLon a b st1 → st1.stopped = false →
      FullMoonInv eclLon a b
        (if |st1.Sec2 - st1.Sec1| < 10 * (0.1 / 1440) then
          { st1 with TempFullMoon := (st1.Sec1 + st1.Sec2) / 2, stopped := true }
        else st1) := by
    intro st1 inv1 hs1
    by_cases hc : |st1.Sec2 - st1.Sec1| < 10 * (0.1 / 1440)
    · rw [if_pos hc]
      refine ⟨inv1.lower, inv1.ordered, inv1.upper, inv1.temp1, inv1.temp2, inv1.sign,
        inv1.temp2_ne, fun _ => ⟨?_, rfl⟩⟩
      have h10 : (10 : α) * (0.1 / 1440) = 1 / 1440 := by norm_num
      rw [h10] at hc
      exact lt_of_le_of_lt (le_abs_self _) hc
    · rw [if_neg hc]
      exact inv1
  have hns : st.stopped = false := by
    cases h : st.stopped
    · rfl
    · exact absurd h hstop
  apply key
  · by_cases hlt :
        st.Temp1 * eclLon ((st.Sec2 - st.Sec1) / (st.Temp1 - st.Temp2) * st.Temp1 + st.Sec1) < 0
    · rw [if_pos hlt]
      refine ⟨inv.lower, hm1, hm2.trans inv.upper, inv.temp1, rfl, hlt.le, ?_, ?_⟩
      · intro h0
        change eclLon _ = 0 at h0
        rw [h0, mul_zero] at hlt
        exact lt_irrefl _ hlt
      · intro h
        change st.stopped = true at h
        exact absurd h hstop
    · rw [if_neg hlt]
      refine ⟨inv.lower.trans hm1, hm2, inv.upper, rfl, inv.temp2, ?_, inv.temp2_ne, ?_⟩
      · show eclLon _ * st.Temp2 ≤ 0
        by_cases h1 : st.Temp1 = 0
        · have hp : (st.Sec2 - st.Sec1) / (st.Temp1 - st.Temp2) * st.Temp1 + st.Sec1 = st.Sec1 := by
            rw [h1]; simp
          rw [hp, ← inv.temp1, h1, zero_mul]
        · have hsq : 0 < st.Temp1 * st.Temp1 := mul_self_pos.mpr h1
          have hprod := mul_nonpos_of_nonneg_of_nonpos (not_lt.mp hlt) inv.sign
          by_contra hc
          have hpos := mul_pos hsq (not_le.mp hc)
          nlinarith
      · intro h
        change st.stopped = true at h
        exact absurd h hstop
  · by_cases hlt :
        st.Temp1 * eclLon ((st.Sec2 - st.Sec1) / (st.Temp1 - st.Temp2) * st.Temp1 + st.Sec1) < 0
    · rw [if_pos hlt]; exact hns
    · rw [if_neg hlt]; exact hns

lemma fullMoonInv_foldl {eclLon : α → α} {a b : α} (l : List ℕ) (st : FullMoonState α)
    (inv : FullMoonInv eclLon a b st) :
    FullMoonInv eclLon a b (l.foldl (fullMoonStep eclLon) st) := by
  induction l generalizing st with
  | nil => exact inv
  | cons j l ih => exact ih _ (fullMoonStep_inv j inv)

lemma MoonT_pos : (0 : α) < MoonT := by
  unfold MoonT
  norm_num

lemma fullMoonInv_start (eclLon : α → α) (seed : α)
    (hsign : eclLon (seed - 0.25 * MoonT) * eclLon (seed + 0.25 * MoonT) < 0) :
    FullMoonInv eclLon (seed - 0.25 * MoonT) (seed + 0.25 * MoonT)
      (fullMoonStart eclLon seed) := by
  have hM := @MoonT_pos α _
  refine ⟨le_rfl, ?_, le_rfl, rfl, rfl, hsign.le, ?_, ?_⟩
  · show seed - 0.25 * MoonT ≤ seed + 0.25 * MoonT
    have : (0 : α) ≤ 0.25 * MoonT := mul_nonneg (by norm_num) hM.le
    linarith
  · intro h0
    change eclLon (seed + 0.25 * MoonT) = 0 at h0
    rw [h0, mul_zero] at hsign
    exact lt_irrefl _ hsign
  · intro h
    exact absurd h Bool.false_ne_true

lemma fullMoonInv_search (eclLon : α → α) (seed : α)
    (hsign : eclLon (seed - 0.25 * MoonT) * eclLon (seed + 0.25 * MoonT) < 0) :
    FullMoonInv eclLon (seed - 0.25 * MoonT) (seed + 0.25 * MoonT)
      (fullMoonSearch eclLon seed) :=
  fullMoonInv_foldl _ _ (fullMoonInv_start eclLon seed hsign)

/-- While the loop has not been left by `break`, `TempFullMoon` keeps the value it had
before the loop. -/
lemma fullMoonStep_TempFullMoon (eclLon : α → α) (seed : α) (st : FullMoonState α) (j : ℕ)
    (h : st.stopped = false → st.TempFullMoon = seed) :
    (fullMoonStep eclLon st j).stopped = false → (fullMoonStep eclLon st j).TempFullMoon = seed := by
  unfold fullMoonStep
  cases hs : st.stopped
  · simp only [Bool.false_eq_true, if_false]
    split_ifs with h1 h2 h3
    · intro hc; exact absurd hc (by simp)
    · intro _; exact h hs
    · intro hc; exact absurd hc (by simp)
    · intro _; exact h hs
  · simp only [if_true]
    intro hc
    rw [hs] at hc
    exact absurd hc (by decide)

lemma fullMoonSearch_TempFullMoon_foldl (eclLon : α → α) (seed : α) (l : List ℕ)
    (st : FullMoonState α) (h : st.stopped = false → st.TempFullMoon = seed) :
    (l.foldl (fullMoonStep eclLon) st).stopped = false →
      (l.foldl (fullMoonStep eclLon) st).TempFullMoon = seed := by
  induction l generalizing st with
  | nil => exact h
  | cons j l ih => exact ih _ (fullMoonStep_TempFullMoon eclLon seed st j h)

end FullMoonLemmas

/-- For a continuous phase function on the reals, a search that starts from bracket ends
with opposite signs and leaves its loop through the convergence test reports an instant
within one minute of a zero of the phase function. -/
lemma fullMoonSearch_root_nearby (eclLon : ℝ → ℝ) (hcont : Continuous eclLon) (seed : ℝ)
    (hsign : eclLon (seed - 0.25 * MoonT) * eclLon (seed + 0.25 * MoonT) < 0)
    (hstop : (fullMoonSearch eclLon seed).stopped = true) :
    ∃ t, eclLon t = 0 ∧ |t - (fullMoonSearch eclLon seed).TempFullMoon| < 1 / 1440 := by
  have inv := fullMoonInv_search eclLon seed hsign
  obtain ⟨hw, hmid⟩ := inv.done hstop
  have hs := inv.sign
  rw [inv.temp1, inv.temp2] at hs
  have ho := inv.ordered
  have hroot : ∃ t ∈ Set.Icc (fullMoonSearch eclLon seed).Sec1 (fullMoonSearch eclLon seed).Sec2,
      eclLon t = 0 := by
    rcases mul_nonpos_iff.mp hs with ⟨h1, h2⟩ | ⟨h1, h2⟩
    · exact intermediate_value_Icc' ho hcont.continuousOn ⟨h2, h1⟩
    · exact intermediate_value_Icc ho hcont.continuousOn ⟨h1, h2⟩
  obtain ⟨t, ⟨ht1, ht2⟩, ht0⟩ := hroot
  refine ⟨t, ht0, ?_⟩
  rw [hmid, abs_lt]
  constructor <;> linarith

/-- Counterexample for C24: the phase function `t - (RefFullMoon + 1)` searched from the
seed `RefFullMoon`. The first pass finds the zero `RefFullMoon + 1` and makes it `Sec1`;
every later pass recomputes the same `Phase1`, the bracket keeps its width, and after the
100 passes the loop has not been left by `break`. The instant kept in `TempFullMoon` is the
seed, not the last estimate `Phase1` nor the midpoint of the last bracket. -/
theorem fullMoonSearch_reports_seed_counterexample :
    (fullMoonSearch linearPhase RefFullMoon).stopped = false
      ∧ (fullMoonSearch linearPhase RefFullMoon).Phase1
          = some (RefFullMoon + 1)
      ∧ (fullMoonSearch linearPhase RefFullMoon).Sec1
          = RefFullMoon + 1
      ∧ (fullMoonSearch linearPhase RefFullMoon).Sec2
          = RefFullMoon + 0.25 * MoonT
      ∧ (fullMoonSearch linearPhase RefFullMoon).TempFullMoon
          = RefFullMoon
      ∧ (fullMoonSearch linearPhase RefFullMoon).TempFullMoon
          ≠ RefFullMoon + 1 := by
  decide!

/-- Claim C24 (amended): for every phase function and every seed estimate, if the
Full-Moon search has not met its convergence test after its 100 passes, the instant it
reports is the seed estimate from which it started. -/
theorem fullMoonSearch_reports_seed {α : Type} [LinearOrderedField α] (eclLon : α → α)
    (seed : α) (h : (fullMoonSearch eclLon seed).stopped = false) :
    (fullMoonSearch eclLon seed).TempFullMoon = seed :=
  fullMoonSearch_TempFullMoon_foldl eclLon seed (List.range 100) (fullMoonStart eclLon seed)
    (fun _ => rfl) h

/-- Witness for C24 (amended): the phase function `t - (RefFullMoon + 1)` and the seed
`RefFullMoon`. -/
theorem fullMoonSearch_reports_seed_witness :
    (fullMoonSearch linearPhase RefFullMoon).stopped = false
      ∧ (fullMoonSearch linearPhase RefFullMoon).TempFullMoon
          = RefFullMoon :=
  ⟨by decide!, fullMoonSearch_reports_seed linearPhase RefFullMoon
    (by decide!)⟩

/-- Claim C25: when the Full-Moon search is started from bracket ends at which the phase
function has opposite signs and leaves its loop through the convergence test, the reported
instant is the midpoint of the final bracket `[Sec1, Sec2]`; this bracket lies inside the
initial bracket, is narrower than one minute (1/1440 day), and the phase values at its ends
do not share a strict sign, so both ends of a sign change lie within one minute of the
reported instant. -/
theorem fullMoonSearch_converged_bracket {α : Type} [LinearOrderedField α] (eclLon : α → α)
    (seed : α)
    (hsign : eclLon (seed - 0.25 * MoonT) * eclLon (seed + 0.25 * MoonT) < 0)
    (hstop : (fullMoonSearch eclLon seed).stopped = true) :
    (fullMoonSearch eclLon seed).TempFullMoon
        = ((fullMoonSearch eclLon seed).Sec1 + (fullMoonSearch eclLon seed).Sec2) / 2
      ∧ seed - 0.25 * MoonT ≤ (fullMoonSearch eclLon seed).Sec1
      ∧ (fullMoonSearch eclLon seed).Sec1 ≤ (fullMoonSearch eclLon seed).Sec2
      ∧ (fullMoonSearch eclLon seed).Sec2 ≤ seed + 0.25 * MoonT
      ∧ (fullMoonSearch eclLon seed).Sec2 - (fullMoonSearch eclLon seed).Sec1 < 1 / 1440
      ∧ eclLon (fullMoonSearch eclLon seed).Sec1 * eclLon (fullMoonSearch eclLon seed).Sec2 ≤ 0
      ∧ |(fullMoonSearch eclLon seed).TempFullMoon - (fullMoonSearch eclLon seed).Sec1|
          < 1 / 1440
      ∧ |(fullMoonSearch eclLon seed).Sec2 - (fullMoonSearch eclLon seed).TempFullMoon|
          < 1 / 1440 := by
  have inv := fullMoonInv_search eclLon seed hsign
  obtain ⟨hw, hmid⟩ := inv.done hstop
  have hs := inv.sign
  rw [inv.temp1, inv.temp2] at hs
  have ho := inv.ordered
  refine ⟨hmid, inv.lower, ho, inv.upper, hw, hs, ?_, ?_⟩
  · rw [hmid, abs_lt]
    constructor <;> linarith
  · rw [hmid, abs_lt]
    constructor <;> linarith

/-- Witness for C25: the phase function `stepPhase`, which is `-1` before
`RefFullMoon + 1` and `1` from there on, searched from the seed `RefFullMoon`; the search
bisects the bracket and leaves the loop in its 15th pass. -/
theorem fullMoonSearch_converged_bracket_witness :
    stepPhase (RefFullMoon - 0.25 * MoonT) * stepPhase (RefFullMoon + 0.25 * MoonT) < 0
      ∧ (fullMoonSearch stepPhase RefFullMoon).stopped = true
      ∧ ((fullMoonSearch stepPhase RefFullMoon).TempFullMoon
          = ((fullMoonSearch stepPhase RefFullMoon).Sec1
              + (fullMoonSearch stepPhase RefFullMoon).Sec2) / 2
        ∧ RefFullMoon - 0.25 * MoonT ≤ (fullMoonSearch stepPhase RefFullMoon).Sec1
        ∧ (fullMoonSearch stepPhase RefFullMoon).Sec1 ≤ (fullMoonSearch stepPhase RefFullMoon).Sec2
        ∧ (fullMoonSearch stepPhase RefFullMoon).Sec2 ≤ RefFullMoon + 0.25 * MoonT
        ∧ (fullMoonSearch stepPhase RefFullMoon).Sec2
            - (fullMoonSearch stepPhase RefFullMoon).Sec1 < 1 / 1440
        ∧ stepPhase (fullMoonSearch stepPhase RefFullMoon).Sec1
            * stepPhase (fullMoonSearch stepPhase RefFullMoon).Sec2 ≤ 0
        ∧ |(fullMoonSearch stepPhase RefFullMoon).TempFullMoon
            - (fullMoonSearch stepPhase RefFullMoon).Sec1| < 1 / 1440
        ∧ |(fullMoonSearch stepPhase RefFullMoon).Sec2
            - (fullMoonSearch stepPhase RefFullMoon).TempFullMoon| < 1 / 1440) :=
  ⟨by decide!, by decide!,
    fullMoonSearch_converged_bracket stepPhase RefFullMoon (by decide!) (by decide!)⟩

/-- Counterexample for C26: the search started from the seed `RefFullMoon` does not start
from the bracket `[seed − MoonT/2, seed + MoonT/2]`. -/
theorem fullMoonStart_half_month_counterexample :
    (fullMoonStart linearPhase RefFullMoon).Sec1 ≠ RefFullMoon - MoonT / 2
      ∧ (fullMoonStart linearPhase RefFullMoon).Sec2 ≠ RefFullMoon + MoonT / 2
      ∧ (fullMoonStart linearPhase RefFullMoon).Sec2
          - (fullMoonStart linearPhase RefFullMoon).Sec1 = MoonT / 2 := by
  decide!

/-- Claim C26 (amended): the Full-Moon search starts from the bracket that extends a
quarter of a synodic month (`0.25 MoonT`) on each side of the seed estimate,
`[seed − MoonT/4, seed + MoonT/4]`, of total width half a synodic month, with the phase
function evaluated at these two ends; when the phase values there have opposite signs the
final bracket of the search lies inside it. -/
theorem fullMoonStart_quarter_month (eclLon : ℝ → ℝ) (seed : ℝ) :
    (fullMoonStart eclLon seed).Sec1 = seed - MoonT / 4
      ∧ (fullMoonStart eclLon seed).Sec2 = seed + MoonT / 4
      ∧ (fullMoonStart eclLon seed).Sec2 - (fullMoonStart eclLon seed).Sec1 = MoonT / 2
      ∧ (fullMoonStart eclLon seed).Temp1 = eclLon (seed - MoonT / 4)
      ∧ (fullMoonStart eclLon seed).Temp2 = eclLon (seed + MoonT / 4)
      ∧ (eclLon (seed - MoonT / 4) * eclLon (seed + MoonT / 4) < 0 →
          seed - MoonT / 4 ≤ (fullMoonSearch eclLon seed).Sec1
            ∧ (fullMoonSearch eclLon seed).Sec2 ≤ seed + MoonT / 4) := by
  have hq : (0.25 : ℝ) * MoonT = MoonT / 4 := by ring
  have h1 : (fullMoonStart eclLon seed).Sec1 = seed - MoonT / 4 := by
    show seed - 0.25 * MoonT = _
    rw [hq]
  have h2 : (fullMoonStart eclLon seed).Sec2 = seed + MoonT / 4 := by
    show seed + 0.25 * MoonT = _
    rw [hq]
  refine ⟨h1, h2, ?_, ?_, ?_, ?_⟩
  · rw [h1, h2]; ring
  · show eclLon (seed - 0.25 * MoonT) = _
    rw [hq]
  · show eclLon (seed + 0.25 * MoonT) = _
    rw [hq]
  · intro hsign
    rw [← hq] at hsign ⊢
    have inv := fullMoonInv_search eclLon seed hsign
    exact ⟨inv.lower, inv.upper⟩

end Observability

namespace Satellites

/-! ## `Satellites::remove` -/

/-- From index `i` on, the loop of `remove` keeps the satellites whose id is not listed. -/
lemma removeLoop_eq (idList : List QString) :
    ∀ (n : ℕ) (sats : List Satellite) (i : ℕ), sats.length - i = n → i ≤ sats.length →
      removeLoop idList sats i
        = sats.take i ++ (sats.drop i).filter fun s => !idList.contains s.id := by
  intro n
  induction n with
  | zero =>
    intro sats i hn hi
    have hlen : i = sats.length := by omega
    rw [removeLoop, dif_neg (by omega)]
    subst hlen
    simp
  | succ n ih =>
    intro sats i hn hi
    have hlt : i < sats.length := by omega
    rw [removeLoop, dif_pos hlt]
    rw [List.drop_eq_getElem_cons hlt]
    by_cases hc : idList.contains (sats[i]).id = true
    · rw [if_pos hc]
      have hlen : (sats.eraseIdx i).length = sats.length - 1 := by
        rw [List.length_eraseIdx]; simp [hlt]
      rw [ih (sats.eraseIdx i) i (by omega) (by omega)]
      have htake : (sats.take i).length = i := List.length_take_of_le (by omega)
      rw [List.eraseIdx_eq_take_drop_succ, List.take_left' htake, List.drop_left' htake]
      rw [List.filter_cons_of_neg (by simpa using hc)]
    · rw [if_neg hc]
      rw [ih sats (i + 1) (by omega) (by omega)]
      rw [List.filter_cons_of_pos (by simpa using hc)]
      have : sats.take (i + 1) = sats.take i ++ [sats[i]] := by
        rw [List.take_succ, List.getElem?_eq_getElem hlt]
        rfl
      rw [this, List.append_assoc]
      rfl

lemma remove_eq_filter (idList : List QString) (satellites : List Satellite) :
    remove idList satellites = satellites.filter fun s => !idList.contains s.id := by
  unfold remove
  rw [removeLoop_eq idList satellites.length satellites 0 rfl (Nat.zero_le _)]
  simp

/-- C17: for every satellite list and every id list, `Satellites::remove` deletes exactly the
satellites whose id occurs in the id list (consecutive matches included) and keeps all others
in their original relative order, so a sorted list stays sorted. -/
theorem remove_deletes_listed_ids (idList : List QString) (satellites : List Satellite) :
    remove idList satellites = satellites.filter (fun s => !idList.contains s.id)
      ∧ (∀ s, s ∈ remove idList satellites ↔ s ∈ satellites ∧ s.id ∉ idList)
      ∧ (remove idList satellites).Sublist satellites
      ∧ ∀ r : Satellite → Satellite → Prop,
          satellites.Pairwise r → (remove idList satellites).Pairwise r := by
  rw [remove_eq_filter]
  refine ⟨rfl, ?_, List.filter_sublist _, fun r h => h.filter _⟩
  intro s
  simp [List.mem_filter]

/-! ## `Satellites::updateSatellites` -/

/-- One pass of the update loop appends a user-defined satellite as it is. -/
lemma updateOne_satellites_userDefined (qsMagList : QHash ℚ) (autoRemoveEnabled : Bool)
    (lastUpdate : ℤ) (st : UpdateState) (sat : Satellite) (hu : sat.userDefined = true) :
    (updateOne qsMagList autoRemoveEnabled lastUpdate st sat).satellites
      = st.satellites ++ [sat] := by
  unfold updateOne
  simp only [hu, if_true]

/-- One pass of the update loop keeps the satellites already visited. -/
lemma updateOne_satellites_mem (qsMagList : QHash ℚ) (autoRemoveEnabled : Bool)
    (lastUpdate : ℤ) (st : UpdateState) (sat : Satellite) (s : Satellite)
    (hs : s ∈ st.satellites) :
    s ∈ (updateOne qsMagList autoRemoveEnabled lastUpdate st sat).satellites := by
  unfold updateOne
  simp only []
  split_ifs <;> exact List.mem_append_left _ hs

/-- One pass of the update loop lists for removal at most the id of a satellite that is not
user-defined. -/
lemma updateOne_toBeRemoved (qsMagList : QHash ℚ) (autoRemoveEnabled : Bool) (lastUpdate : ℤ)
    (st : UpdateState) (sat : Satellite) (id : QString)
    (hid : id ∈ (updateOne qsMagList autoRemoveEnabled lastUpdate st sat).toBeRemoved) :
    id ∈ st.toBeRemoved ∨ (sat.userDefined = false ∧ sat.id = id) := by
  unfold updateOne at hid
  by_cases hu : sat.userDefined = true
  · simp only [hu, if_true] at hid
    exact Or.inl hid
  · have hu' : sat.userDefined = false := by simpa using hu
    simp only [hu, Bool.false_eq_true, if_false] at hid
    split_ifs at hid
    all_goals first
      | exact Or.inl hid
      | (rcases List.mem_append.mp hid with h | h
         · exact Or.inl h
         · exact Or.inr ⟨hu', (List.mem_singleton.mp h).symm⟩)

lemma updateLoop_spec (qsMagList : QHash ℚ) (autoRemoveEnabled : Bool) (lastUpdate : ℤ) :
    ∀ (sats : List Satellite) (st : UpdateState),
      (∀ s ∈ st.satellites,
          s ∈ (sats.foldl (updateOne qsMagList autoRemoveEnabled lastUpdate) st).satellites)
      ∧ (∀ s ∈ sats, s.userDefined = true →
          s ∈ (sats.foldl (updateOne qsMagList autoRemoveEnabled lastUpdate) st).satellites)
      ∧ (∀ id ∈ (sats.foldl (updateOne qsMagList autoRemoveEnabled lastUpdate) st).toBeRemoved,
          id ∈ st.toBeRemoved ∨ ∃ s ∈ sats, s.userDefined = false ∧ s.id = id) := by
  intro sats
  induction sats with
  | nil =>
    intro st
    exact ⟨fun s hs => hs, fun s hs => absurd hs (List.not_mem_nil s), fun id hid => Or.inl hid⟩
  | cons sat rest ih =>
    intro st
    obtain ⟨h1, h2, h3⟩ := ih (updateOne qsMagList autoRemoveEnabled lastUpdate st sat)
    simp only [List.foldl_cons]
    refine ⟨?_, ?_, ?_⟩
    · intro s hs
      exact h1 s (updateOne_satellites_mem qsMagList autoRemoveEnabled lastUpdate st sat s hs)
    · intro s hs hu
      rcases List.mem_cons.mp hs with rfl | hs'
      · exact h1 s (by
          rw [updateOne_satellites_userDefined qsMagList autoRemoveEnabled lastUpdate st s hu]
          simp)
      · exact h2 s hs' hu
    · intro id hid
      rcases h3 id hid with h | ⟨s, hs, hsu, hsid⟩
      · rcases updateOne_toBeRemoved qsMagList autoRemoveEnabled lastUpdate st sat id h with
          h' | ⟨hu, hid'⟩
        · exact Or.inl h'
        · exact Or.inr ⟨sat, List.mem_cons_self _ _, hu, hid'⟩
      · exact Or.inr ⟨s, List.mem_cons_of_mem _ hs, hsu, hsid⟩

/-- `add` keeps the satellites of the list. -/
lemma mem_add_of_mem (construct : QString → SatProperties → Satellite) (qsMagList : QHash ℚ)
    (satellites : List Satellite) (tleData : TleData) (s : Satellite) (hs : s ∈ satellites) :
    s ∈ (add construct qsMagList satellites tleData).1 := by
  unfold add
  simp only []
  split_ifs <;> first | exact hs | exact List.mem_append_left _ hs

lemma mem_addLoop_of_mem (construct : QString → SatProperties → Satellite)
    (qsMagList : QHash ℚ) (s : Satellite) :
    ∀ (entries : TleDataHash) (acc : List Satellite × ℕ), s ∈ acc.1 →
      s ∈ (entries.foldl (addOne construct qsMagList) acc).1 := by
  intro entries
  induction entries with
  | nil => intro acc hs; exact hs
  | cons e rest ih =>
    intro acc hs
    simp only [List.foldl_cons]
    apply ih
    unfold addOne
    split_ifs
    · exact mem_add_of_mem construct qsMagList acc.1 e.2 s hs
    · exact mem_add_of_mem construct qsMagList acc.1 e.2 s hs
    · exact hs

lemma mem_qSort (satellites : List Satellite) (s : Satellite) :
    s ∈ qSort satellites ↔ s ∈ satellites :=
  (List.perm_insertionSort _ satellites).mem_iff

/-- The id of a user-defined satellite of a list with distinct ids is not listed for removal
by the update loop. -/
lemma userDefined_not_toBeRemoved (qsMagList : QHash ℚ) (autoRemoveEnabled : Bool)
    (lastUpdate : ℤ) (satellites : List Satellite) (newTleSets : TleDataHash)
    (hdistinct : (satellites.map fun s => s.id).Nodup)
    (s : Satellite) (hs : s ∈ satellites) (hu : s.userDefined = true) :
    s.id ∉ (satellites.foldl (updateOne qsMagList autoRemoveEnabled lastUpdate)
      ⟨newTleSets, [], [], 0, 0, 0⟩).toBeRemoved := by
  intro hmem
  obtain ⟨_, _, h3⟩ := updateLoop_spec qsMagList autoRemoveEnabled lastUpdate satellites
    ⟨newTleSets, [], [], 0, 0, 0⟩
  rcases h3 s.id hmem with h | ⟨t, ht, htu, htid⟩
  · exact absurd h (List.not_mem_nil _)
  · have : t = s := List.inj_on_of_nodup_map hdistinct ht hs htid
    rw [this, hu] at htu
    exact absurd htu (by decide)

/-- C16: in a satellite list with pairwise distinct ids, `updateSatellites` leaves every
satellite flagged `userDefined` in the list, with its TLE lines, name, `stdMag` and
`lastUpdated` unchanged (the same record is a member of the list afterwards), for every set
of new TLE data and whether or not auto-remove is enabled. -/
theorem updateSatellites_keeps_userDefined (construct : QString → SatProperties → Satellite)
    (qsMagList : QHash ℚ) (autoRemoveEnabled : Bool) (lastUpdate : ℤ)
    (satellites : List Satellite) (newTleSets : TleDataHash)
    (hdistinct : (satellites.map fun s => s.id).Nodup)
    (s : Satellite) (hs : s ∈ satellites) (hu : s.userDefined = true) :
    s ∈ (updateSatellites construct qsMagList autoRemoveEnabled lastUpdate satellites
          newTleSets).satellites := by
  have hsort : ∀ added : List Satellite × ℕ, s ∈ added.1 →
      s ∈ (if added.2 ≠ 0 then qSort added.1 else added.1) := by
    intro added h
    split_ifs
    · exact (mem_qSort _ s).mpr h
    · exact h
  have hremove : ∀ (b : Bool) (ids : List QString) (sorted : List Satellite),
      s.id ∉ ids → s ∈ sorted →
      s ∈ (if (b && !ids.isEmpty) = true then remove ids sorted else sorted) := by
    intro b ids sorted hid h
    split_ifs
    · rw [remove_eq_filter, List.mem_filter]
      exact ⟨h, by simpa using hid⟩
    · exact h
  unfold updateSatellites
  by_cases he : newTleSets.isEmpty = true
  · rw [if_pos he]
    exact hs
  · rw [if_neg he]
    obtain ⟨_, h2, _⟩ := updateLoop_spec qsMagList autoRemoveEnabled lastUpdate satellites
      ⟨newTleSets, [], [], 0, 0, 0⟩
    exact hremove _ _ _
      (userDefined_not_toBeRemoved qsMagList autoRemoveEnabled lastUpdate satellites newTleSets
        hdistinct s hs hu)
      (hsort _ (mem_addLoop_of_mem construct qsMagList s _ (_, 0) (h2 s hs hu)))

/-- Witness for C16: with auto-remove enabled and the sample TLE set as new data, the
user-defined satellite stays a member of the list `[userIss, plainSat]`, unchanged. -/
theorem updateSatellites_keeps_userDefined_witness :
    userIss ∈ (updateSatellites newSatellite [] true 5 [userIss, plainSat]
      (parseTleFile true [issTitle, issLine1, issLine2] [] true id false)).satellites :=
  updateSatellites_keeps_userDefined newSatellite [] true 5 [userIss, plainSat]
    (parseTleFile true [issTitle, issLine1, issLine2] [] true id false)
    (by decide!) userIss (List.mem_cons_self _ _) rfl

/-- C15 (code evaluated at the failing input): the list holds one satellite, user-defined,
with id 25544; the new TLE data, parsed with auto-add enabled, hold a set with the same id.
The update loop skips the user-defined satellite before `newTleSets.take(id)`, so the set
stays in `newTleSets` and is added: afterwards two satellites have the id 25544. -/
theorem updateSatellites_duplicate_id :
    ([userIss].map fun s => s.id).Nodup
      ∧ parseTleFile true [issTitle, issLine1, issLine2] [] true id false
          = [(issId, ⟨issId, issTitle, issLine1, issLine2, true⟩)]
      ∧ ((updateSatellites newSatellite [] false 5 [userIss]
            (parseTleFile true [issTitle, issLine1, issLine2] [] true id false)).satellites.map
          fun s => s.id) = [issId, issId]
      ∧ ¬ ((updateSatellites newSatellite [] false 5 [userIss]
            (parseTleFile true [issTitle, issLine1, issLine2] [] true id false)).satellites.map
          fun s => s.id).Nodup := by
  refine ⟨by decide!, by decide!, by decide!, by decide!⟩

/-! ## `Satellites::parseTleFile` -/

/-- A title line: the accumulator is reset and takes the line as its name. -/
lemma parseLine_title (addFlagValue : Bool) (removeStatus : QString → QString)
    (st : ParseState) (raw : QString) (h : (trimmed raw).length < 65) :
    parseLine addFlagValue removeStatus st raw
      = ⟨{ addThis := addFlagValue, name := removeStatus (trimmed raw) }, st.tleList⟩ := by
  unfold parseLine
  simp only [h, if_true]

/-- A data line that starts with `"1 "`: it becomes the first line of the accumulator. -/
lemma parseLine_first (addFlagValue : Bool) (removeStatus : QString → QString)
    (st : ParseState) (raw : QString) (h : 65 ≤ (trimmed raw).length)
    (h1 : (trimmed raw).take 2 = lineOneStart) :
    parseLine addFlagValue removeStatus st raw
      = ⟨{ st.lastData with first := trimmed raw }, st.tleList⟩ := by
  unfold parseLine
  simp only [not_lt.mpr h, h1, if_true, if_false]

/-- A data line that starts neither with `"1 "` nor with `"2 "` changes nothing. -/
lemma parseLine_other (addFlagValue : Bool) (removeStatus : QString → QString)
    (st : ParseState) (raw : QString) (h : 65 ≤ (trimmed raw).length)
    (h1 : (trimmed raw).take 2 ≠ lineOneStart) (h2 : (trimmed raw).take 2 ≠ lineTwoStart) :
    parseLine addFlagValue removeStatus st raw = st := by
  unfold parseLine
  simp only [not_lt.mpr h, h1, h2, if_false]

/-- A data line that starts with `"2 "`: what happens to the accumulator and to the hash. -/
lemma parseLine_second (addFlagValue : Bool) (removeStatus : QString → QString)
    (st : ParseState) (raw : QString) (h : 65 ≤ (trimmed raw).length)
    (h2 : (trimmed raw).take 2 = lineTwoStart) :
    parseLine addFlagValue removeStatus st raw
      = if trimmed ((split ' ' (trimmed raw)).getD 1 []) = [] then
          ⟨{ st.lastData with second := trimmed raw }, st.tleList⟩
        else if st.lastData.name ≠ [] ∧ st.lastData.first ≠ []
            ∧ (st.lastData.addThis = true
              ∨ hashContains st.tleList (trimmed ((split ' ' (trimmed raw)).getD 1 [])) = false)
          then
          ⟨{ st.lastData with second := trimmed raw,
                              id := trimmed ((split ' ' (trimmed raw)).getD 1 []) },
            hashInsert st.tleList (trimmed ((split ' ' (trimmed raw)).getD 1 []))
              { st.lastData with second := trimmed raw,
                                 id := trimmed ((split ' ' (trimmed raw)).getD 1 []) }⟩
        else
          ⟨{ st.lastData with second := trimmed raw,
                              id := trimmed ((split ' ' (trimmed raw)).getD 1 []) },
            st.tleList⟩ := by
  have h12 : lineTwoStart ≠ lineOneStart := by decide
  unfold parseLine
  simp only [not_lt.mpr h, h2, h12, if_true, if_false]
  generalize trimmed ((split ' ' (trimmed raw)).getD 1 []) = tok
  cases tok with
  | nil => simp
  | cons c cs =>
    cases hn : st.lastData.name with
    | nil => simp
    | cons a as =>
      cases hf : st.lastData.first with
      | nil => simp
      | cons b bs =>
        cases ha : st.lastData.addThis <;> cases hc : hashContains st.tleList (c :: cs) <;>
          simp [hc]

/-- C13: `parseTleFile` treats a line as a title (name) line exactly when its trimmed length
is below 65: such a line resets the accumulator and becomes the name; a line of 65 characters
or more is handled as a data line (checked for the `"1 "` / `"2 "` start) and never changes
the name. -/
theorem parseLine_title_iff_short (addFlagValue : Bool) (removeStatus : QString → QString)
    (st : ParseState) (raw : QString) :
    ((trimmed raw).length < 65 →
        parseLine addFlagValue removeStatus st raw
          = ⟨{ id := [], name := removeStatus (trimmed raw), first := [], second := [],
               addThis := addFlagValue }, st.tleList⟩)
      ∧ (65 ≤ (trimmed raw).length →
        (parseLine addFlagValue removeStatus st raw).lastData.name = st.lastData.name
          ∧ ((trimmed raw).take 2 = lineOneStart →
              parseLine addFlagValue removeStatus st raw
                = ⟨{ st.lastData with first := trimmed raw }, st.tleList⟩)
          ∧ ((trimmed raw).take 2 = lineTwoStart →
              (parseLine addFlagValue removeStatus st raw).lastData.second = trimmed raw
                ∧ (parseLine addFlagValue removeStatus st raw).lastData.first
                    = st.lastData.first)
          ∧ ((trimmed raw).take 2 ≠ lineOneStart → (trimmed raw).take 2 ≠ lineTwoStart →
              parseLine addFlagValue removeStatus st raw = st)) := by
  refine ⟨fun h => parseLine_title addFlagValue removeStatus st raw h, fun h => ?_⟩
  have hsec : (trimmed raw).take 2 = lineTwoStart →
      (parseLine addFlagValue removeStatus st raw).lastData.name = st.lastData.name
        ∧ (parseLine addFlagValue removeStatus st raw).lastData.second = trimmed raw
        ∧ (parseLine addFlagValue removeStatus st raw).lastData.first = st.lastData.first := by
    intro h2
    rw [parseLine_second addFlagValue removeStatus st raw h h2]
    split_ifs <;> exact ⟨rfl, rfl, rfl⟩
  refine ⟨?_, fun h1 => parseLine_first addFlagValue removeStatus st raw h h1,
    fun h2 => (hsec h2).2, fun h1 h2 => parseLine_other addFlagValue removeStatus st raw h h1 h2⟩
  by_cases h1 : (trimmed raw).take 2 = lineOneStart
  · rw [parseLine_first addFlagValue removeStatus st raw h h1]
  · by_cases h2 : (trimmed raw).take 2 = lineTwoStart
    · exact (hsec h2).1
    · rw [parseLine_other addFlagValue removeStatus st raw h h1 h2]

/-- Witness for C13: a line of 64 characters is taken as the name and resets the accumulator;
a line of 65 characters that starts with `"1 "` becomes the first line and leaves the name. -/
theorem parseLine_title_iff_short_witness :
    (trimmed (List.replicate 64 'A')).length = 64
      ∧ parseLine true id ⟨⟨issId, issTitle, issLine1, issLine2, false⟩, []⟩
          (List.replicate 64 'A')
        = ⟨⟨[], List.replicate 64 'A', [], [], true⟩, []⟩
      ∧ (trimmed (lineOneStart ++ List.replicate 63 '0')).length = 65
      ∧ parseLine true id ⟨⟨issId, issTitle, [], [], false⟩, []⟩
          (lineOneStart ++ List.replicate 63 '0')
        = ⟨⟨issId, issTitle, lineOneStart ++ List.replicate 63 '0', [], false⟩, []⟩ :=
  ⟨by decide!,
    ((parseLine_title_iff_short true id ⟨⟨issId, issTitle, issLine1, issLine2, false⟩, []⟩
      (List.replicate 64 'A')).1 (by decide!)).trans (by decide!),
    by decide!,
    (((parseLine_title_iff_short true id ⟨⟨issId, issTitle, [], [], false⟩, []⟩
      (lineOneStart ++ List.replicate 63 '0')).2 (by decide!)).2.1 (by decide!)).trans
        (by decide!)⟩

/-! ### The hash operations -/

section HashLemmas

variable {V : Type}

lemma mem_hashInsert {h : QHash V} {key : QString} {value : V} {p : QString × V}
    (hp : p ∈ hashInsert h key value) : p ∈ h ∨ p = (key, value) := by
  unfold hashInsert at hp
  split_ifs at hp
  · rw [List.mem_map] at hp
    obtain ⟨q, hq, rfl⟩ := hp
    split_ifs
    · exact Or.inr rfl
    · exact Or.inl hq
  · rcases List.mem_append.mp hp with h1 | h1
    · exact Or.inl h1
    · exact Or.inr (List.mem_singleton.mp h1)

lemma hashContains_iff {h : QHash V} {key : QString} :
    hashContains h key = true ↔ ∃ v, hashValue h key = some v := by
  unfold hashContains hashValue
  induction h with
  | nil => simp
  | cons p rest ih =>
    by_cases hk : p.1 = key
    · simp [List.find?_cons, hk]
    · have hk' : (p.1 == key) = false := by simpa using hk
      simp only [List.any_cons, hk', Bool.false_or, List.find?_cons]
      exact ih

lemma hashValue_map_replace (h : QHash V) (key : QString) (value : V) (k : QString) :
    hashValue (h.map fun p => if p.1 == key then (key, value) else p) k
      = if k = key then (hashValue h key).map (fun _ => value) else hashValue h k := by
  unfold hashValue
  induction h with
  | nil => simp
  | cons p rest ih =>
    by_cases hp : p.1 = key
    · by_cases hk : k = key
      · subst hk
        simp [List.find?_cons, hp]
      · have hk' : (key == k) = false := by simpa using fun h => hk h.symm
        have hpk : (p.1 == k) = false := by rw [hp]; exact hk'
        simp only [List.map_cons, hp, beq_self_eq_true, if_true, List.find?_cons, hk', hpk]
        simpa [hk] using ih
    · have hp' : (p.1 == key) = false := by simpa using hp
      by_cases hk : k = key
      · subst hk
        simp only [List.map_cons, hp', Bool.false_eq_true, if_false, List.find?_cons]
        simpa using ih
      · by_cases hpk : p.1 = k
        · simp [List.find?_cons, hp', hpk, hk]
        · have hpk' : (p.1 == k) = false := by simpa using hpk
          simp only [List.map_cons, hp', Bool.false_eq_true, if_false, List.find?_cons, hpk']
          simpa [hk] using ih

lemma hashValue_append_singleton (h : QHash V) (key : QString) (value : V) (k : QString) :
    hashValue (h ++ [(key, value)]) k
      = match hashValue h k with
        | some v => some v
        | none => if key = k then some value else none := by
  unfold hashValue
  induction h with
  | nil =>
    by_cases hk : key = k
    · simp [List.find?_cons, hk]
    · have hk' : (key == k) = false := by simpa using hk
      simp [List.find?_cons, hk', hk]
  | cons p rest ih =>
    by_cases hpk : p.1 = k
    · simp [List.find?_cons, hpk]
    · have hpk' : (p.1 == k) = false := by simpa using hpk
      simp only [List.cons_append, List.find?_cons, hpk']
      exact ih

/-- After `insert(key, value)` the key holds the value. -/
lemma hashValue_hashInsert_self (h : QHash V) (key : QString) (value : V) :
    hashValue (hashInsert h key value) key = some value := by
  unfold hashInsert
  by_cases hc : hashContains h key = true
  · obtain ⟨v, hv⟩ := hashContains_iff.mp hc
    rw [if_pos hc, hashValue_map_replace, if_pos rfl, hv]
    rfl
  · rw [if_neg hc, hashValue_append_singleton]
    have : hashValue h key = none := by
      cases hv : hashValue h key with
      | none => rfl
      | some v => exact absurd (hashContains_iff.mpr ⟨v, hv⟩) hc
    rw [this]
    simp

/-- An `insert` leaves the values of the other keys. -/
lemma hashValue_hashInsert_of_ne (h : QHash V) (key : QString) (value : V) (k : QString)
    (hk : k ≠ key) : hashValue (hashInsert h key value) k = hashValue h k := by
  unfold hashInsert
  by_cases hc : hashContains h key = true
  · rw [if_pos hc, hashValue_map_replace, if_neg hk]
  · rw [if_neg hc, hashValue_append_singleton]
    cases hv : hashValue h k with
    | none =>
      have hne : ¬ key = k := fun h' => hk h'.symm
      simp [hne]
    | some v => rfl

end HashLemmas

/-! ### The accumulator of `parseTleFile` -/

lemma parseLines_append (addFlagValue : Bool) (removeStatus : QString → QString)
    (addThis0 : Bool) (tleList : TleDataHash) (lines : List QString) (raw : QString) :
    parseLines addFlagValue removeStatus addThis0 tleList (lines ++ [raw])
      = parseLine addFlagValue removeStatus
          (parseLines addFlagValue removeStatus addThis0 tleList lines) raw := by
  unfold parseLines
  rw [List.foldl_append]
  rfl

/-- The second line of a TLE set in the state `st`: either the hash stays as it is, or the
line carries an id, the accumulator has a name and a first line, and the accumulated set is
inserted under the id. -/
lemma parseLine_tleList (addFlagValue : Bool) (removeStatus : QString → QString)
    (st : ParseState) (raw : QString) :
    (parseLine addFlagValue removeStatus st raw).tleList = st.tleList
      ∨ (65 ≤ (trimmed raw).length ∧ (trimmed raw).take 2 = lineTwoStart
          ∧ (split ' ' (trimmed raw)).getD 1 [] ≠ [] ∧ lineId raw ≠ []
          ∧ st.lastData.name ≠ [] ∧ st.lastData.first ≠ []
          ∧ (st.lastData.addThis = true ∨ hashContains st.tleList (lineId raw) = false)
          ∧ (parseLine addFlagValue removeStatus st raw).tleList
              = hashInsert st.tleList (lineId raw)
                  ⟨lineId raw, st.lastData.name, st.lastData.first, trimmed raw,
                    st.lastData.addThis⟩) := by
  by_cases h : (trimmed raw).length < 65
  · rw [parseLine_title addFlagValue removeStatus st raw h]
    exact Or.inl rfl
  · have h' : 65 ≤ (trimmed raw).length := not_lt.mp h
    by_cases h1 : (trimmed raw).take 2 = lineOneStart
    · rw [parseLine_first addFlagValue removeStatus st raw h' h1]
      exact Or.inl rfl
    · by_cases h2 : (trimmed raw).take 2 = lineTwoStart
      · rw [parseLine_second addFlagValue removeStatus st raw h' h2]
        split_ifs with hid hc
        · exact Or.inl rfl
        · refine Or.inr ⟨h', h2, ?_, hid, hc.1, hc.2.1, hc.2.2, rfl⟩
          intro htok
          apply hid
          show trimmed ((split ' ' (trimmed raw)).getD 1 []) = []
          rw [htok]
          rfl
        · exact Or.inl rfl
      · rw [parseLine_other addFlagValue removeStatus st raw h' h1 h2]
        exact Or.inl rfl

/-- A data line leaves the name and the flag of the accumulator; its first line stays, or
becomes the line when the line starts with `"1 "`. -/
lemma parseLine_data (addFlagValue : Bool) (removeStatus : QString → QString)
    (st : ParseState) (raw : QString) (h : 65 ≤ (trimmed raw).length) :
    (parseLine addFlagValue removeStatus st raw).lastData.name = st.lastData.name
      ∧ (parseLine addFlagValue removeStatus st raw).lastData.addThis = st.lastData.addThis
      ∧ ((parseLine addFlagValue removeStatus st raw).lastData.first = st.lastData.first
          ∨ ((trimmed raw).take 2 = lineOneStart
            ∧ (parseLine addFlagValue removeStatus st raw).lastData.first = trimmed raw)) := by
  by_cases h1 : (trimmed raw).take 2 = lineOneStart
  · rw [parseLine_first addFlagValue removeStatus st raw h h1]
    exact ⟨rfl, rfl, Or.inr ⟨h1, rfl⟩⟩
  · by_cases h2 : (trimmed raw).take 2 = lineTwoStart
    · rw [parseLine_second addFlagValue removeStatus st raw h h2]
      split_ifs <;> exact ⟨rfl, rfl, Or.inl rfl⟩
    · rw [parseLine_other addFlagValue removeStatus st raw h h1 h2]
      exact ⟨rfl, rfl, Or.inl rfl⟩

/-- While the accumulator has a name, the name comes from the most recent title line, the
flag `addThis` is the one given to `parseTleFile`, and a first line, if there is one, was
read after that title line. -/
lemma parseLines_sinceTitle (addFlagValue : Bool) (removeStatus : QString → QString)
    (addThis0 : Bool) (tleList : TleDataHash) (lines : List QString) :
    (parseLines addFlagValue removeStatus addThis0 tleList lines).lastData.name ≠ [] →
      SinceTitle removeStatus lines
          (parseLines addFlagValue removeStatus addThis0 tleList lines).lastData
        ∧ (parseLines addFlagValue removeStatus addThis0 tleList lines).lastData.addThis
            = addFlagValue := by
  induction lines using List.reverseRecOn with
  | nil =>
    intro h
    exact absurd rfl h
  | append_singleton lines raw ih =>
    rw [parseLines_append]
    by_cases h : (trimmed raw).length < 65
    · rw [parseLine_title addFlagValue removeStatus _ raw h]
      intro _
      exact ⟨⟨lines, raw, [], rfl, h, rfl, fun p hp => absurd hp (List.not_mem_nil p),
        fun hf => absurd rfl hf⟩, rfl⟩
    · have h' : 65 ≤ (trimmed raw).length := not_lt.mp h
      obtain ⟨hname, hflag, hfirst⟩ := parseLine_data addFlagValue removeStatus
        (parseLines addFlagValue removeStatus addThis0 tleList lines) raw h'
      intro hn
      rw [hname] at hn
      obtain ⟨⟨pre, t, post, hl, ht, hnm, hpost, hf⟩, hfl⟩ := ih hn
      refine ⟨⟨pre, t, post ++ [raw], by rw [hl]; simp, ht, by rw [hname]; exact hnm, ?_, ?_⟩,
        by rw [hflag]; exact hfl⟩
      · intro p hp
        rcases List.mem_append.mp hp with hp' | hp'
        · exact hpost p hp'
        · rw [List.mem_singleton.mp hp']; exact h'
      · intro hne
        rcases hfirst with hsame | ⟨h1, hnew⟩
        · rw [hsame] at hne ⊢
          obtain ⟨mid, l, rest, hp, hl1, hfl1⟩ := hf hne
          exact ⟨mid, l, rest ++ [raw], by rw [hp]; simp, hl1, hfl1⟩
        · exact ⟨post, raw, [], rfl, h1, hnew⟩

/-- The first line of the accumulator, when there is one, starts with `"1 "`. -/
lemma parseLines_first (addFlagValue : Bool) (removeStatus : QString → QString)
    (addThis0 : Bool) (tleList : TleDataHash) (lines : List QString) :
    (parseLines addFlagValue removeStatus addThis0 tleList lines).lastData.first ≠ [] →
      (parseLines addFlagValue removeStatus addThis0 tleList lines).lastData.first.take 2
        = lineOneStart := by
  induction lines using List.reverseRecOn with
  | nil =>
    intro h
    exact absurd rfl h
  | append_singleton lines raw ih =>
    rw [parseLines_append]
    by_cases h : (trimmed raw).length < 65
    · rw [parseLine_title addFlagValue removeStatus _ raw h]
      intro hf
      exact absurd rfl hf
    · obtain ⟨_, _, hfirst⟩ := parseLine_data addFlagValue removeStatus
        (parseLines addFlagValue removeStatus addThis0 tleList lines) raw (not_lt.mp h)
      rcases hfirst with hsame | ⟨h1, hnew⟩
      · rw [hsame]; exact ih
      · rw [hnew]; exact fun _ => h1

/-- Every entry of the hash after `parseTleFile` was there before or is complete. -/
lemma parseLines_entries (addFlagValue : Bool) (removeStatus : QString → QString)
    (addThis0 : Bool) (tleList : TleDataHash) (lines : List QString) :
    ∀ p ∈ (parseLines addFlagValue removeStatus addThis0 tleList lines).tleList,
      p ∈ tleList ∨ CompleteEntry p := by
  induction lines using List.reverseRecOn with
  | nil => intro p hp; exact Or.inl hp
  | append_singleton lines raw ih =>
    rw [parseLines_append]
    intro p hp
    rcases parseLine_tleList addFlagValue removeStatus
        (parseLines addFlagValue removeStatus addThis0 tleList lines) raw with
      hsame | ⟨hlen, h2, _, hid, hn, hf, _, hins⟩
    · rw [hsame] at hp; exact ih p hp
    · rw [hins] at hp
      rcases mem_hashInsert hp with hold | rfl
      · exact ih p hold
      · refine Or.inr ⟨rfl, hid, hn, hf, ?_,
          parseLines_first addFlagValue removeStatus addThis0 tleList lines hf, h2⟩
        intro hnil
        rw [show (trimmed raw) = [] from hnil] at hlen
        exact absurd hlen (by decide)

lemma parseTleFile_readable (lines : List QString) (tleList : TleDataHash)
    (addFlagValue : Bool) (removeStatus : QString → QString) (addThis0 : Bool) :
    parseTleFile true lines tleList addFlagValue removeStatus addThis0
      = (parseLines addFlagValue removeStatus addThis0 tleList lines).tleList := rfl

/-- C12: `parseTleFile` commits an entry to the TLE hash only on a line of trimmed length
≥ 65 that starts with `"2 "` and has a non-empty second space-separated token (the id), and
only if, since the most recent title line, a non-empty name and a line starting with `"1 "`
were read; every title line clears the accumulated name, line 1, line 2 and id; so each
committed entry has non-empty name, first line, second line and id and is stored under its
own id. -/
theorem parseTleFile_commits_complete_sets (addFlagValue : Bool)
    (removeStatus : QString → QString) (addThis0 : Bool) (tleList : TleDataHash)
    (lines : List QString) :
    (∀ (st : ParseState) (raw : QString), (trimmed raw).length < 65 →
        parseLine addFlagValue removeStatus st raw
          = ⟨{ id := [], name := removeStatus (trimmed raw), first := [], second := [],
               addThis := addFlagValue }, st.tleList⟩)
      ∧ (∀ raw : QString,
          parseTleFile true (lines ++ [raw]) tleList addFlagValue removeStatus addThis0
              = parseTleFile true lines tleList addFlagValue removeStatus addThis0
            ∨ (65 ≤ (trimmed raw).length ∧ (trimmed raw).take 2 = lineTwoStart
                ∧ (split ' ' (trimmed raw)).getD 1 [] ≠ [] ∧ lineId raw ≠ []
                ∧ (parseLines addFlagValue removeStatus addThis0 tleList lines).lastData.name
                    ≠ []
                ∧ (parseLines addFlagValue removeStatus addThis0 tleList lines).lastData.first
                    ≠ []
                ∧ SinceTitle removeStatus lines
                    (parseLines addFlagValue removeStatus addThis0 tleList lines).lastData
                ∧ parseTleFile true (lines ++ [raw]) tleList addFlagValue removeStatus addThis0
                    = hashInsert
                        (parseTleFile true lines tleList addFlagValue removeStatus addThis0)
                        (lineId raw)
                        ⟨lineId raw,
                          (parseLines addFlagValue removeStatus addThis0 tleList
                            lines).lastData.name,
                          (parseLines addFlagValue removeStatus addThis0 tleList
                            lines).lastData.first,
                          trimmed raw,
                          (parseLines addFlagValue removeStatus addThis0 tleList
                            lines).lastData.addThis⟩))
      ∧ (∀ p ∈ parseTleFile true lines tleList addFlagValue removeStatus addThis0,
          p ∈ tleList ∨ CompleteEntry p) := by
  refine ⟨fun st raw h => parseLine_title addFlagValue removeStatus st raw h, fun raw => ?_,
    parseLines_entries addFlagValue removeStatus addThis0 tleList lines⟩
  rw [parseTleFile_readable, parseTleFile_readable, parseLines_append]
  rcases parseLine_tleList addFlagValue removeStatus
      (parseLines addFlagValue removeStatus addThis0 tleList lines) raw with
    hsame | ⟨hlen, h2, htok, hid, hn, hf, _, hins⟩
  · exact Or.inl hsame
  · exact Or.inr ⟨hlen, h2, htok, hid, hn, hf,
      (parseLines_sinceTitle addFlagValue removeStatus addThis0 tleList lines hn).1, hins⟩

/-- Witness for C12: the sample file (title line, first line, second line) commits one entry,
under the id 25544, and this entry is complete. -/
theorem parseTleFile_commits_complete_sets_witness :
    parseTleFile true [issTitle, issLine1, issLine2] [] true id false
        = [(issId, ⟨issId, issTitle, issLine1, issLine2, true⟩)]
      ∧ CompleteEntry (issId, ⟨issId, issTitle, issLine1, issLine2, true⟩) := by
  have hp : parseTleFile true [issTitle, issLine1, issLine2] [] true id false
      = [(issId, ⟨issId, issTitle, issLine1, issLine2, true⟩)] := by decide!
  refine ⟨hp, ?_⟩
  have h := (parseTleFile_commits_complete_sets true id false []
    [issTitle, issLine1, issLine2]).2.2 (issId, ⟨issId, issTitle, issLine1, issLine2, true⟩)
    (by rw [hp]; exact List.mem_singleton.mpr rfl)
  rcases h with h | h
  · exact absurd h (List.not_mem_nil _)
  · exact h

/-! ### The flag `addFlagValue` -/

/-- A line changes at most the entry stored under the id that the line carries. -/
lemma parseLine_frame (addFlagValue : Bool) (removeStatus : QString → QString)
    (st : ParseState) (raw : QString) (k : QString) (hk : lineId raw ≠ k) :
    hashValue (parseLine addFlagValue removeStatus st raw).tleList k = hashValue st.tleList k := by
  rcases parseLine_tleList addFlagValue removeStatus st raw with
    hsame | ⟨_, _, _, _, _, _, _, hins⟩
  · rw [hsame]
  · rw [hins, hashValue_hashInsert_of_ne _ _ _ _ (fun h => hk h.symm)]

/-- Without the flag, a line leaves the entries that are present in the hash. -/
lemma parseLine_keeps_present (addFlagValue : Bool) (removeStatus : QString → QString)
    (st : ParseState) (raw : QString) (k : QString)
    (hflag : st.lastData.name ≠ [] → st.lastData.addThis = false)
    (hk : hashContains st.tleList k = true) :
    hashValue (parseLine addFlagValue removeStatus st raw).tleList k = hashValue st.tleList k := by
  rcases parseLine_tleList addFlagValue removeStatus st raw with
    hsame | ⟨_, _, _, _, hn, _, hcond, hins⟩
  · rw [hsame]
  · rcases hcond with ha | hc
    · rw [hflag hn] at ha
      exact absurd ha (by decide)
    · have hne : k ≠ lineId raw := by
        intro h
        rw [← h, hk] at hc
        exact absurd hc (by decide)
      rw [hins, hashValue_hashInsert_of_ne _ _ _ _ hne]

lemma parseLines_keeps_present (removeStatus : QString → QString) (addThis0 : Bool)
    (tleList : TleDataHash) (lines1 lines2 : List QString) (k : QString)
    (hk : hashContains (parseLines false removeStatus addThis0 tleList lines1).tleList k = true) :
    hashValue (parseLines false removeStatus addThis0 tleList (lines1 ++ lines2)).tleList k
      = hashValue (parseLines false removeStatus addThis0 tleList lines1).tleList k := by
  induction lines2 using List.reverseRecOn with
  | nil => rw [List.append_nil]
  | append_singleton lines2 raw ih =>
    rw [← List.append_assoc, parseLines_append, ← ih]
    apply parseLine_keeps_present
    · intro hn
      exact (parseLines_sinceTitle false removeStatus addThis0 tleList _ hn).2
    · obtain ⟨v, hv⟩ := hashContains_iff.mp hk
      exact hashContains_iff.mpr ⟨v, by rw [ih, hv]⟩

/-- C14: with `addFlagValue = false` no entry already present in the TLE hash is modified,
neither one present before the call nor one inserted by an earlier line of the file (the first
occurrence of an id wins); with `addFlagValue = true` every committed entry replaces any
existing entry with the same id and carries `addThis = true`; and a line changes no entry but
the one of its own id (so with the flag the last occurrence in the file wins). -/
theorem parseTleFile_addFlag (removeStatus : QString → QString) (addThis0 : Bool)
    (tleList : TleDataHash) :
    (∀ (readable : Bool) (lines1 lines2 : List QString) (k : QString),
        hashContains (parseTleFile readable lines1 tleList false removeStatus addThis0) k = true →
        hashValue (parseTleFile readable (lines1 ++ lines2) tleList false removeStatus addThis0) k
          = hashValue (parseTleFile readable lines1 tleList false removeStatus addThis0) k)
      ∧ (∀ (lines : List QString) (raw : QString),
          65 ≤ (trimmed raw).length → (trimmed raw).take 2 = lineTwoStart → lineId raw ≠ [] →
          (parseLines true removeStatus addThis0 tleList lines).lastData.name ≠ [] →
          (parseLines true removeStatus addThis0 tleList lines).lastData.first ≠ [] →
          hashValue (parseTleFile true (lines ++ [raw]) tleList true removeStatus addThis0)
              (lineId raw)
            = some ⟨lineId raw,
                (parseLines true removeStatus addThis0 tleList lines).lastData.name,
                (parseLines true removeStatus addThis0 tleList lines).lastData.first,
                trimmed raw, true⟩)
      ∧ (∀ (addFlagValue : Bool) (lines : List QString) (raw k : QString), lineId raw ≠ k →
          hashValue (parseTleFile true (lines ++ [raw]) tleList addFlagValue removeStatus
              addThis0) k
            = hashValue (parseTleFile true lines tleList addFlagValue removeStatus addThis0) k) := by
  refine ⟨?_, ?_, ?_⟩
  · intro readable lines1 lines2 k hk
    cases readable with
    | false => rfl
    | true => exact parseLines_keeps_present removeStatus addThis0 tleList lines1 lines2 k hk
  · intro lines raw hlen h2 hid hn hf
    have hflag := (parseLines_sinceTitle true removeStatus addThis0 tleList lines hn).2
    rw [parseTleFile_readable, parseLines_append,
      parseLine_second true removeStatus _ raw hlen h2]
    have hid' : ¬ trimmed ((split ' ' (trimmed raw)).getD 1 []) = [] := hid
    rw [if_neg hid', if_pos ⟨hn, hf, Or.inl hflag⟩]
    show hashValue (hashInsert _ (lineId raw) _) (lineId raw) = _
    rw [hashValue_hashInsert_self]
    simp only [hflag]
    rfl
  · intro addFlagValue lines raw k hk
    rw [parseTleFile_readable, parseTleFile_readable, parseLines_append]
    exact parseLine_frame addFlagValue removeStatus _ raw k hk

/-- Witness for C14: a file that lists the id 25544 twice, under the names "ISS (ZARYA)" and
"ISS COPY". Without the flag the first set stays in the hash, with the flag the second set
replaces it and carries `addThis = true`. -/
theorem parseTleFile_addFlag_witness :
    hashValue (parseTleFile true
        ([issTitle, issLine1, issLine2] ++ [issTitle2, issLine1, issLine2]) [] false id false)
        issId = some ⟨issId, issTitle, issLine1, issLine2, false⟩
      ∧ hashValue (parseTleFile true
        ([issTitle, issLine1, issLine2, issTitle2, issLine1] ++ [issLine2]) [] true id false)
        issId = some ⟨issId, issTitle2, issLine1, issLine2, true⟩ := by
  have hid : lineId issLine2 = issId := by decide!
  refine ⟨((parseTleFile_addFlag id false []).1 true [issTitle, issLine1, issLine2]
      [issTitle2, issLine1, issLine2] issId (by decide!)).trans (by decide!), ?_⟩
  have h := (parseTleFile_addFlag id false []).2.1
    [issTitle, issLine1, issLine2, issTitle2, issLine1] issLine2
    (by decide!) (by decide!) (by decide!) (by decide!) (by decide!)
  rw [hid] at h
  exact h.trans (by decide!)

end Satellites

namespace AngleMeasure

/-! ## The position angle -/

/-- A point with polar coordinates `r > 0` and `θ ∈ (−π, π]` has the angle `θ`. -/
lemma atan2_eq_of_polar {x y r θ : ℝ} (hr : 0 < r) (hθ : θ ∈ Set.Ioc (-Real.pi) Real.pi)
    (hx : x = r * Real.cos θ) (hy : y = r * Real.sin θ) : atan2 y x = θ := by
  have hz : (⟨x, y⟩ : ℂ) = (r : ℂ) * (Complex.cos (θ : ℂ) + Complex.sin (θ : ℂ) * Complex.I) := by
    apply Complex.ext
    · simp [hx, Complex.cos_ofReal_re, Complex.sin_ofReal_im]
    · simp [hy, Complex.sin_ofReal_re, Complex.cos_ofReal_im]
  unfold atan2
  rw [hz]
  exact Complex.arg_mul_cos_add_sin_mul_I hr hθ

lemma sqrt_mul_cos_arctan (t : ℝ) : √(1 + t ^ 2) * Real.cos (Real.arctan t) = 1 := by
  have hs : 0 < √(1 + t ^ 2) := Real.sqrt_pos.mpr (by positivity)
  rw [Real.cos_arctan]
  field_simp

lemma sqrt_mul_sin_arctan (t : ℝ) : √(1 + t ^ 2) * Real.sin (Real.arctan t) = t := by
  have hs : 0 < √(1 + t ^ 2) := Real.sqrt_pos.mpr (by positivity)
  rw [Real.sin_arctan]
  field_simp

/-- The point `(x, y)` with `x > 0` has the angle `arctan (y / x)`. -/
lemma atan2_of_pos {x y : ℝ} (hx : 0 < x) : atan2 y x = Real.arctan (y / x) := by
  have hs : 0 < √(1 + (y / x) ^ 2) := Real.sqrt_pos.mpr (by positivity)
  have hpi := Real.pi_pos
  apply atan2_eq_of_polar (mul_pos hx hs)
    ⟨by linarith [Real.neg_pi_div_two_lt_arctan (y / x)],
      by linarith [Real.arctan_lt_pi_div_two (y / x)]⟩
  · rw [mul_assoc, sqrt_mul_cos_arctan, mul_one]
  · rw [mul_assoc, sqrt_mul_sin_arctan, mul_div_cancel₀ _ hx.ne']

/-- The point `(x, y)` with `x < 0` has the angle `θ` of `(−π, π]` opposite to
`arctan (y / x)`. -/
lemma atan2_of_neg {x y θ : ℝ} (hx : x < 0) (hθ : θ ∈ Set.Ioc (-Real.pi) Real.pi)
    (hcos : Real.cos θ = -Real.cos (Real.arctan (y / x)))
    (hsin : Real.sin θ = -Real.sin (Real.arctan (y / x))) : atan2 y x = θ := by
  have hs : 0 < √(1 + (y / x) ^ 2) := Real.sqrt_pos.mpr (by positivity)
  apply atan2_eq_of_polar (mul_pos (neg_pos.mpr hx) hs) hθ
  · rw [hcos, mul_neg, mul_assoc, sqrt_mul_cos_arctan]
    ring
  · rw [hsin, mul_neg, mul_assoc, sqrt_mul_sin_arctan, neg_mul, neg_neg,
      mul_div_cancel₀ _ hx.ne]

lemma atan2_of_neg_of_nonneg {x y : ℝ} (hx : x < 0) (hy : 0 ≤ y) :
    atan2 y x = Real.arctan (y / x) + Real.pi := by
  have ht : Real.arctan (y / x) ≤ 0 := by
    rw [← Real.arctan_zero]
    exact Real.arctan_strictMono.monotone (div_nonpos_of_nonneg_of_nonpos hy hx.le)
  exact atan2_of_neg hx
    ⟨by linarith [Real.neg_pi_div_two_lt_arctan (y / x), Real.pi_pos], by linarith⟩
    (Real.cos_add_pi _) (Real.sin_add_pi _)

lemma atan2_of_neg_of_neg {x y : ℝ} (hx : x < 0) (hy : y < 0) :
    atan2 y x = Real.arctan (y / x) - Real.pi := by
  have ht : 0 < Real.arctan (y / x) := by
    rw [← Real.arctan_zero]
    exact Real.arctan_strictMono (div_pos_of_neg_of_neg hy hx)
  exact atan2_of_neg hx
    ⟨by linarith, by linarith [Real.arctan_lt_pi_div_two (y / x), Real.pi_pos]⟩
    (Real.cos_sub_pi _) (Real.sin_sub_pi _)

/-- The steps of `calculatePositionAngle` after `x` and `y` are known. -/
lemma quadrant_correction {x y : ℝ} (hx : x ≠ 0) :
    (let r0 : ℝ := Real.arctan (y / x)
     let r1 : ℝ := if x < 0 then r0 + Real.pi else r0
     let r2 : ℝ := if y < 0 then r1 + 2 * Real.pi else r1
     if r2 > 2 * Real.pi then r2 - 2 * Real.pi else r2)
      = if 0 ≤ atan2 y x then atan2 y x else atan2 y x + 2 * Real.pi := by
  have hpi := Real.pi_pos
  have hlo := Real.neg_pi_div_two_lt_arctan (y / x)
  have hhi := Real.arctan_lt_pi_div_two (y / x)
  rcases lt_or_gt_of_ne hx with hneg | hpos
  · by_cases hy : y < 0
    · have ht : 0 < Real.arctan (y / x) := by
        rw [← Real.arctan_zero]
        exact Real.arctan_strictMono (div_pos_of_neg_of_neg hy hneg)
      rw [atan2_of_neg_of_neg hneg hy]
      simp only [hneg, hy, if_true]
      rw [if_pos (by linarith), if_neg (by linarith)]
      ring
    · have hy' : 0 ≤ y := not_lt.mp hy
      have ht : Real.arctan (y / x) ≤ 0 := by
        rw [← Real.arctan_zero]
        exact Real.arctan_strictMono.monotone (div_nonpos_of_nonneg_of_nonpos hy' hneg.le)
      rw [atan2_of_neg_of_nonneg hneg hy']
      simp only [hneg, hy, if_true, if_false]
      rw [if_neg (by linarith), if_pos (by linarith)]
  · have hnx : ¬ x < 0 := not_lt.mpr hpos.le
    rw [atan2_of_pos hpos]
    by_cases hy : y < 0
    · have ht : Real.arctan (y / x) < 0 := by
        rw [← Real.arctan_zero]
        exact Real.arctan_strictMono (div_neg_of_neg_of_pos hy hpos)
      simp only [hnx, hy, if_true, if_false]
      rw [if_neg (by linarith), if_neg (by linarith)]
    · have hy' : 0 ≤ y := not_lt.mp hy
      have ht : 0 ≤ Real.arctan (y / x) := by
        rw [← Real.arctan_zero]
        exact Real.arctan_strictMono.monotone (div_nonneg hy' hpos.le)
      simp only [hnx, hy, if_false]
      rw [if_neg (by linarith), if_pos ht]

lemma atan2_reduced_mem (y x : ℝ) :
    0 ≤ (if 0 ≤ atan2 y x then atan2 y x else atan2 y x + 2 * Real.pi)
      ∧ (if 0 ≤ atan2 y x then atan2 y x else atan2 y x + 2 * Real.pi) < 2 * Real.pi := by
  have h := Complex.arg_mem_Ioc (⟨x, y⟩ : ℂ)
  have hpi := Real.pi_pos
  unfold atan2
  split_ifs with h0
  · exact ⟨h0, by linarith [h.2]⟩
  · exact ⟨by linarith [h.1], by linarith [not_le.mp h0]⟩

/-- C20: for points `p1`, `p2` with `y = cos φ2·sin(λ2 − λ1)` and
`x = cos φ1·sin φ2 − sin φ1·cos φ2·cos(λ2 − λ1)`, `x ≠ 0`, the angle that
`calculatePositionAngle` computes before formatting is the four-quadrant bearing `atan2(y, x)`
reduced to `[0, 2π)`. -/
theorem calculatePositionAngle_eq_atan2 (lat1 lon1 lat2 lon2 : ℝ)
    (hx : Real.cos lat1 * Real.sin lat2
      - Real.sin lat1 * Real.cos lat2 * Real.cos (lon2 - lon1) ≠ 0) :
    calculatePositionAngle lat1 lon1 lat2 lon2
        = (if 0 ≤ atan2 (Real.cos lat2 * Real.sin (lon2 - lon1))
              (Real.cos lat1 * Real.sin lat2
                - Real.sin lat1 * Real.cos lat2 * Real.cos (lon2 - lon1))
          then atan2 (Real.cos lat2 * Real.sin (lon2 - lon1))
              (Real.cos lat1 * Real.sin lat2
                - Real.sin lat1 * Real.cos lat2 * Real.cos (lon2 - lon1))
          else atan2 (Real.cos lat2 * Real.sin (lon2 - lon1))
              (Real.cos lat1 * Real.sin lat2
                - Real.sin lat1 * Real.cos lat2 * Real.cos (lon2 - lon1)) + 2 * Real.pi)
      ∧ 0 ≤ calculatePositionAngle lat1 lon1 lat2 lon2
      ∧ calculatePositionAngle lat1 lon1 lat2 lon2 < 2 * Real.pi := by
  have h : calculatePositionAngle lat1 lon1 lat2 lon2 = _ := quadrant_correction hx
  rw [h]
  exact ⟨rfl, atan2_reduced_mem _ _⟩

/-- Witness for C20 with `p1` on the equator and `p2` the north pole (`x = 1`, `y = 0`): the
position angle is `atan2(0, 1)` reduced to `[0, 2π)`. -/
theorem calculatePositionAngle_eq_atan2_witness :
    Real.cos 0 * Real.sin (Real.pi / 2)
        - Real.sin 0 * Real.cos (Real.pi / 2) * Real.cos (0 - 0) ≠ 0
      ∧ calculatePositionAngle 0 0 (Real.pi / 2) 0
        = (if 0 ≤ atan2 (Real.cos (Real.pi / 2) * Real.sin (0 - 0))
              (Real.cos 0 * Real.sin (Real.pi / 2)
                - Real.sin 0 * Real.cos (Real.pi / 2) * Real.cos (0 - 0))
          then atan2 (Real.cos (Real.pi / 2) * Real.sin (0 - 0))
              (Real.cos 0 * Real.sin (Real.pi / 2)
                - Real.sin 0 * Real.cos (Real.pi / 2) * Real.cos (0 - 0))
          else atan2 (Real.cos (Real.pi / 2) * Real.sin (0 - 0))
              (Real.cos 0 * Real.sin (Real.pi / 2)
                - Real.sin 0 * Real.cos (Real.pi / 2) * Real.cos (0 - 0)) + 2 * Real.pi)
      ∧ 0 ≤ calculatePositionAngle 0 0 (Real.pi / 2) 0
      ∧ calculatePositionAngle 0 0 (Real.pi / 2) 0 < 2 * Real.pi :=
  have hx : Real.cos 0 * Real.sin (Real.pi / 2)
      - Real.sin 0 * Real.cos (Real.pi / 2) * Real.cos (0 - 0) ≠ 0 := by simp
  ⟨hx, calculatePositionAngle_eq_atan2 0 0 (Real.pi / 2) 0 hx⟩

end AngleMeasure

namespace EquationOfTime

/-! ## The mean longitude of the Sun -/

section FmodLemmas

variable {α : Type} [LinearOrderedField α] [FloorRing α]

/-- For a non-negative angle `fmod x 360` is `x - 360 * ⌊x / 360⌋`, in `[0, 360)`. -/
lemma fmod_of_nonneg {x : α} (hx : 0 ≤ x) :
    fmod x 360 = x - (⌊x / 360⌋ : α) * 360 ∧ 0 ≤ fmod x 360 ∧ fmod x 360 < 360 := by
  have hq : 0 ≤ x / 360 := div_nonneg hx (by norm_num)
  have he : fmod x 360 = x - (⌊x / 360⌋ : α) * 360 := by
    unfold fmod
    rw [if_pos hq]
  have h1 := Int.floor_le (x / 360)
  have h2 := Int.lt_floor_add_one (x / 360)
  rw [le_div_iff₀ (by norm_num : (0 : α) < 360)] at h1
  rw [div_lt_iff₀ (by norm_num : (0 : α) < 360)] at h2
  refine ⟨he, ?_, ?_⟩ <;> rw [he] <;> linarith

/-- For a negative angle `fmod x 360` is `x - 360 * ⌈x / 360⌉`, in `(-360, 0]`. -/
lemma fmod_of_neg {x : α} (hx : x < 0) :
    fmod x 360 = x - (⌈x / 360⌉ : α) * 360 ∧ -360 < fmod x 360 ∧ fmod x 360 ≤ 0 := by
  have hq : ¬ 0 ≤ x / 360 := not_le.mpr (div_neg_of_neg_of_pos hx (by norm_num))
  have he : fmod x 360 = x - (⌈x / 360⌉ : α) * 360 := by
    unfold fmod
    rw [if_neg hq]
  have h1 := Int.le_ceil (x / 360)
  have h2 := sub_lt_iff_lt_add.mpr (Int.ceil_lt_add_one (x / 360))
  rw [div_le_iff₀ (by norm_num : (0 : α) < 360)] at h1
  rw [lt_div_iff₀ (by norm_num : (0 : α) < 360)] at h2
  refine ⟨he, ?_, ?_⟩ <;> rw [he] <;> linarith

/-- The value of `fmod y 360` for `0 ≤ y < 360`. -/
lemma fmod_of_mem {y : α} (h0 : 0 ≤ y) (h1 : y < 360) : fmod y 360 = y := by
  rw [(fmod_of_nonneg h0).1]
  have : ⌊y / 360⌋ = 0 := by
    rw [Int.floor_eq_iff]
    constructor
    · simpa using div_nonneg h0 (by norm_num : (0 : α) ≤ 360)
    · rw [div_lt_iff₀ (by norm_num : (0 : α) < 360)]
      simpa using h1
  rw [this]
  simp

/-- The value of `fmod y 360` for `360 ≤ y < 720`. -/
lemma fmod_of_mem_second {y : α} (h0 : 360 ≤ y) (h1 : y < 720) : fmod y 360 = y - 360 := by
  rw [(fmod_of_nonneg (by linarith : (0 : α) ≤ y)).1]
  have : ⌊y / 360⌋ = 1 := by
    rw [Int.floor_eq_iff]
    constructor
    · rw [le_div_iff₀ (by norm_num : (0 : α) < 360)]
      simpa using h0
    · rw [div_lt_iff₀ (by norm_num : (0 : α) < 360)]
      push_cast
      linarith
  rw [this]
  simp

lemma reduceAngle_spec (x : α) :
    0 ≤ reduceAngle x ∧ reduceAngle x < 360 ∧ ∃ k : ℤ, reduceAngle x = x + 360 * (k : α) := by
  unfold reduceAngle
  rcases le_or_lt 0 x with hx | hx
  · obtain ⟨he, h0, h1⟩ := fmod_of_nonneg hx
    rw [fmod_of_mem_second (by linarith) (by linarith)]
    refine ⟨by linarith, by linarith, -⌊x / 360⌋, ?_⟩
    rw [he]
    push_cast
    ring
  · obtain ⟨he, h0, h1⟩ := fmod_of_neg hx
    rcases h1.lt_or_eq with h1 | h1
    · rw [fmod_of_mem (by linarith) (by linarith)]
      refine ⟨by linarith, by linarith, 1 - ⌈x / 360⌉, ?_⟩
      rw [he]
      push_cast
      ring
    · rw [h1, zero_add, fmod_of_mem_second le_rfl (by norm_num)]
      refine ⟨by norm_num, by norm_num, -⌈x / 360⌉, ?_⟩
      rw [he] at h1
      push_cast
      linarith

end FmodLemmas

/-- Claim C22: for every real angle `x` the two-step reduction
`fmod(fmod(x, 360) + 360, 360)` of `getSolutionEquationOfTime` lies in `[0, 360)` and
differs from `x` by an integer multiple of 360; 400 reduces to 40 and −40 to 320. -/
theorem reduceAngle_range (x : ℝ) :
    (0 ≤ reduceAngle x ∧ reduceAngle x < 360 ∧ ∃ k : ℤ, reduceAngle x = x + 360 * (k : ℝ))
      ∧ reduceAngle (400 : ℝ) = 40 ∧ reduceAngle (-40 : ℝ) = 320 := by
  refine ⟨reduceAngle_spec x, ?_, ?_⟩
  · unfold reduceAngle
    rw [fmod_of_mem_second (by norm_num : (360 : ℝ) ≤ 400) (by norm_num)]
    rw [fmod_of_mem_second (by norm_num) (by norm_num)]
    norm_num
  · unfold reduceAngle
    have h : fmod (-40 : ℝ) 360 = -40 := by
      rw [(fmod_of_neg (by norm_num : (-40 : ℝ) < 0)).1]
      have : ⌈(-40 : ℝ) / 360⌉ = 0 := by
        rw [Int.ceil_eq_iff]
        constructor <;> norm_num
      rw [this]
      simp
    rw [h, fmod_of_mem (by norm_num) (by norm_num)]
    norm_num

/-- The quotients `1/49931` and `1/15300` of the series are integer divisions: both are 0. -/
lemma sunMeanLongitudeSeries_eq {α : Type} [LinearOrderedField α] [FloorRing α] (JDay : α) :
    sunMeanLongitudeSeries JDay
      = 280.4664567 + 360007.6892779 * ((JDay - 2451545.0) / 365250.0)
        + 0.03032028 * ((JDay - 2451545.0) / 365250.0) ^ 2
        + ((JDay - 2451545.0) / 365250.0) ^ 5 / 2000000 := by
  have h1 : (1 / 49931 : ℤ) = 0 := by decide
  have h2 : (1 / 15300 : ℤ) = 0 := by decide
  unfold sunMeanLongitudeSeries
  simp only [h1, h2, Int.cast_zero]
  ring

/-- Claim C28 (refuted by the code): for every Julian Day, with
`τ = (JD − 2451545.0)/365250.0`, the mean longitude computed before the angle reduction is
`280.4664567 + 360007.6892779 τ + 0.03032028 τ² + τ⁵/2000000`: the terms `τ³/49931` and
`τ⁴/15300` of the Meeus series are lost and the term in `τ⁵` has the opposite sign. At
`JD = 2816795` (`τ = 1`) the value differs from the series
`280.4664567 + 360007.6892779 τ + 0.03032028 τ² + τ³/49931 − τ⁴/15300 − τ⁵/2000000`. -/
theorem sunMeanLongitudeSeries_integer_division (JDay : ℝ) :
    sunMeanLongitudeSeries JDay
        = 280.4664567 + 360007.6892779 * ((JDay - 2451545.0) / 365250.0)
          + 0.03032028 * ((JDay - 2451545.0) / 365250.0) ^ 2
          + ((JDay - 2451545.0) / 365250.0) ^ 5 / 2000000
      ∧ sunMeanLongitudeSeries (2816795 : ℝ)
        ≠ 280.4664567 + 360007.6892779 * 1 + 0.03032028 * 1 ^ 2 + 1 ^ 3 / 49931
          - 1 ^ 4 / 15300 - 1 ^ 5 / 2000000 := by
  refine ⟨sunMeanLongitudeSeries_eq JDay, ?_⟩
  rw [sunMeanLongitudeSeries_eq]
  norm_num

end EquationOfTime
